import Mathlib

/-!
Verification of the badminton-pairings scheduling core.

This file shallowly embeds the two scheduler variants of the repository
(the fixed-case `matchGenerator` variant and the general round-robin
variant), the pairing ledger derived from the match history, and the
matches-page completion/undo state machine.  Player ids are modelled as
naturals; the JS canonical pair key `[a,b].sort().join(sep)` is modelled
as the ordered pair `(min a b, max a b)`, which is the same canonical
form of an unordered pair.  Ambient randomness (`Math.random`) is
modelled by explicit streams of naturals: every value the code draws is
a parameter, so every function is a pure function of its inputs and the
drawn values.  JS `Array.sort` with an ascending numeric comparator is
guaranteed stable, and a stable ascending sort of a list is unique, so
it is modelled by `List.insertionSort` with the reflexive key order.
-/

/-- A roster entry: `{id, name}`. -/
structure Player where
  id : Nat
  name : String
deriving DecidableEq, Repr

/-- The `side` field of a match. -/
inductive Side where
  | left
  | right
deriving DecidableEq, Repr

/-- A match: ordered player sequence, court number, side. -/
structure Match where
  id : Nat
  players : List Player
  court : Nat
  side : Side
deriving DecidableEq, Repr

/-- Canonical key of the unordered pair of ids, as the JS code's
`[a, b].sort().join(sep)`. -/
def pairKey (a b : Nat) : Nat × Nat := (min a b, max a b)

/-- JS `Set.add`: append the element unless it is already present
(insertion order is preserved, so the set is a duplicate-free list). -/
def addId (s : List Nat) (x : Nat) : List Nat :=
  if x ∈ s then s else s ++ [x]

/-- Swap the elements at positions `i` and `j` (identity when either
index is out of range), as the JS destructuring swap. -/
def swapIdx (l : List α) (i j : Nat) : List α :=
  match l.get? i, l.get? j with
  | some a, some b => (l.set i b).set j a
  | _, _ => l

/-- The Fisher-Yates loop of `shuffleArray`: for `i = n-1, …, 1` swap
position `i` with position `g i % (i+1)`; `g` supplies the values drawn
from `Math.random`. -/
def shuffleGo (g : Nat → Nat) (arr : List α) : Nat → List α
  | 0 => arr
  | i + 1 => shuffleGo g (swapIdx arr (i + 1) (g (i + 1) % (i + 2))) i

/-- `shuffleArray` of the source: Fisher-Yates over a copy of the
input, randomness supplied by the stream `g`. -/
def shuffleArray (g : Nat → Nat) (l : List α) : List α :=
  shuffleGo g l (l.length - 1)

/-- Stable ascending sort by a numeric key; the model of JS
`array.sort((a, b) => key a - key b)`. -/
def sortByKey (key : α → Nat) (l : List α) : List α :=
  l.insertionSort (fun a b => key a ≤ key b)

/-- All ordered index pairs `i < j` of a list, in the double-loop order
of the source (`i` outer, `j` inner). -/
def allPairsAux : List α → List (α × α)
  | [] => []
  | p :: rest => rest.map (fun q => (p, q)) ++ allPairsAux rest

/-- Pair up consecutive elements, dropping an unpaired tail, as the JS
loops `for (i = 0; i < len - 1; i += 2)`. -/
def pairConsecutive : List α → List (α × α)
  | p :: q :: rest => (p, q) :: pairConsecutive rest
  | _ => []

/-- Lexicographic order on JS strings (modelled as character lists),
as the default `Array.prototype.sort` comparator orders them. -/
def strLt : List Char → List Char → Bool
  | [], [] => false
  | [], _ :: _ => true
  | _ :: _, [] => false
  | a :: as, b :: bs => if a < b then true else if b < a then false else strLt as bs

/-- `[a, b].sort().join('-')` on JS strings: the canonical pairing key
(ties keep `[a, b]` order, as the stable sort does). -/
def pairKeyS (a b : List Char) : List Char :=
  if strLt b a then b ++ '-' :: a else a ++ '-' :: b

/-- `String.prototype.split('-')` (fragments between hyphens, in order;
`cur` accumulates the current fragment reversed). -/
def splitDashGo (cur : List Char) : List Char → List (List Char)
  | [] => [cur.reverse]
  | c :: rest =>
    if c = '-' then cur.reverse :: splitDashGo [] rest
    else splitDashGo (c :: cur) rest

/-- `s.split('-')` of a JS string. -/
def splitDash (s : List Char) : List (List Char) := splitDashGo [] s

/-- A session: roster snapshot, court count, generated matches (the
source field `matches` is a reserved word in Lean, hence `matchList`). -/
structure Session where
  players : List Player
  numberOfCourts : Nat
  matchList : List Match
deriving DecidableEq, Repr

/-- Whether an `Except` result succeeded (no Session is produced on
the error path). -/
def isOkE : Except ε α → Bool
  | Except.ok _ => true
  | Except.error _ => false

namespace MatchGenerator

/-- `PlayerPairing` of the fixed-case variant. -/
structure PlayerPairing where
  player1Id : Nat
  player2Id : Nat
  count : Nat
deriving DecidableEq, Repr

/-- `PlayerParticipation` of the fixed-case variant (`lastPlayed` is an
optional timestamp). -/
structure PlayerParticipation where
  player : Player
  doublesMatchesPlayed : Nat
  singlesMatchesPlayed : Nat
  lastPlayed : Option Nat
  partners : List Nat
  opponents : List Nat
deriving DecidableEq, Repr

/-- `addPairing`: increment the count stored at the canonical key of
`{a, b}` in the pairing map (a JS `Map` keeps insertion order; `set` of
a present key updates in place, of a new key appends). -/
def addPairing (m : List ((Nat × Nat) × Nat)) (a b : Nat) : List ((Nat × Nat) × Nat) :=
  match m with
  | [] => [(pairKey a b, 1)]
  | (k, c) :: rest =>
    if k = pairKey a b then (k, c + 1) :: rest
    else (k, c) :: addPairing rest a b

/-- The per-match body of `getPairings`: a 4-player match contributes
its two teammate pairs and four cross pairs, in source order; other
matches contribute nothing. -/
def addMatchPairings (m : List ((Nat × Nat) × Nat)) (mt : Match) : List ((Nat × Nat) × Nat) :=
  match mt.players with
  | [p0, p1, p2, p3] =>
    let m := addPairing m p0.id p1.id
    let m := addPairing m p2.id p3.id
    let m := addPairing m p0.id p2.id
    let m := addPairing m p0.id p3.id
    let m := addPairing m p1.id p2.id
    addPairing m p1.id p3.id
  | _ => m

/-- The pairing map accumulated by `getPairings` over the history. -/
def getPairingMap (ms : List Match) : List ((Nat × Nat) × Nat) :=
  ms.foldl addMatchPairings []

/-- `getPairings`: the pairing map flattened to `PlayerPairing` records.
This Nat-level model reads the two ids back exactly, which matches the
JS `key.split('-')` destructuring only when the id strings are free of
`'-'`; with the app's `crypto.randomUUID()` ids the fragments are
mangled — `getPairingsS` below is the string-level model of that
behaviour (claim C1). -/
def getPairings (ms : List Match) : List PlayerPairing :=
  (getPairingMap ms).map (fun e => ⟨e.1.1, e.1.2, e.2⟩)

/-- Total matches of an id as read through the participation map (the
source inlines this `doubles + singles` read, absent ids count zero). -/
def totalOf (pm : List PlayerParticipation) (x : Nat) : Nat :=
  match pm.find? (fun e => e.player.id = x) with
  | some q => q.doublesMatchesPlayed + q.singlesMatchesPlayed
  | none => 0

/-- Singles matches of an id as read through the participation map. -/
def singlesOf (pm : List PlayerParticipation) (x : Nat) : Nat :=
  match pm.find? (fun e => e.player.id = x) with
  | some q => q.singlesMatchesPlayed
  | none => 0

/-- `calculatePairScore`: `10 ×` the stored count of the unordered pair
plus both players' total match counts (absent players count zero).
Like `getPairings`, this Nat-level model is faithful only for
hyphen-free id strings; `calculatePairScoreS` below models the string
comparison the program really performs. -/
def calculatePairScore (p1 p2 : Player) (pairings : List PlayerPairing)
    (pm : List PlayerParticipation) : Nat :=
  let key := pairKey p1.id p2.id
  let pairing := pairings.find? (fun p => pairKey p.player1Id p.player2Id = key)
  (match pairing with | some p => p.count | none => 0) * 10 + totalOf pm p1.id + totalOf pm p2.id

/-- Insert-or-replace keyed by player id (JS `Map.set` during the
initialisation loop over the roster). -/
def setParticipation (pm : List PlayerParticipation) (e : PlayerParticipation) :
    List PlayerParticipation :=
  match pm with
  | [] => [e]
  | f :: rest =>
    if f.player.id = e.player.id then e :: rest
    else f :: setParticipation rest e

/-- Update the entry of id `x` in place when present (JS
`participationMap.get(id)` followed by mutation, a no-op when absent). -/
def updAt (pm : List PlayerParticipation) (x : Nat)
    (f : PlayerParticipation → PlayerParticipation) : List PlayerParticipation :=
  pm.map (fun e => if e.player.id = x then f e else e)

/-- Zeroed participation entries for the roster, in roster order
(duplicate ids collapse onto one map entry as with JS `Map.set`). -/
def initParticipation (players : List Player) : List PlayerParticipation :=
  players.foldl (fun pm p => setParticipation pm ⟨p, 0, 0, none, [], []⟩) []

/-- Whether the participation map has an entry for id `x` (the JS
truthiness test on `participationMap.get(x)`). -/
def hasId (pm : List PlayerParticipation) (x : Nat) : Bool :=
  pm.any (fun e => e.player.id = x)

/-- The mutual partner additions, performed only when both entries
exist (the source's `if (player1 && player2)` guard). -/
def addPartners (pm : List PlayerParticipation) (x y : Nat) : List PlayerParticipation :=
  if hasId pm x && hasId pm y then
    updAt (updAt pm x (fun e => { e with partners := addId e.partners y }))
      y (fun e => { e with partners := addId e.partners x })
  else pm

/-- The mutual opponent additions, performed only when both entries
exist (the nested `if (p1) … if (p2)` guards of the source). -/
def addOpponents (pm : List PlayerParticipation) (x y : Nat) : List PlayerParticipation :=
  if hasId pm x && hasId pm y then
    updAt (updAt pm x (fun e => { e with opponents := addId e.opponents y }))
      y (fun e => { e with opponents := addId e.opponents x })
  else pm

/-- The partner/opponent block of the participation-counting loop of
`generateDoublesMatches`: only a 4-player match records partners and
opponents. -/
def partnerPhase (pm : List PlayerParticipation) (mt : Match) : List PlayerParticipation :=
  match mt.players with
  | [p0, p1, p2, p3] =>
    let pm := addPartners pm p0.id p1.id
    let pm := addPartners pm p2.id p3.id
    let pm := addOpponents pm p0.id p2.id
    let pm := addOpponents pm p0.id p3.id
    let pm := addOpponents pm p1.id p2.id
    addOpponents pm p1.id p3.id
  | _ => pm

/-- The per-player counter bump: doubles for a 4-player match, singles
otherwise, stamping `lastPlayed`. -/
def bumpCount (now : Nat) (isDoubles : Bool) (e : PlayerParticipation) : PlayerParticipation :=
  if isDoubles then
    { e with doublesMatchesPlayed := e.doublesMatchesPlayed + 1, lastPlayed := some now }
  else
    { e with singlesMatchesPlayed := e.singlesMatchesPlayed + 1, lastPlayed := some now }

/-- The per-match body of the participation-counting loop of
`generateDoublesMatches`. -/
def countMatch (now : Nat) (pm : List PlayerParticipation) (mt : Match) :
    List PlayerParticipation :=
  mt.players.foldl
    (fun pm p => updAt pm p.id (bumpCount now (mt.players.length = 4)))
    (partnerPhase pm mt)

/-- The participation map of `generateDoublesMatches`: zeroed roster
entries folded over the previous matches. -/
def mkParticipationMap (players : List Player) (ms : List Match) (now : Nat) :
    List PlayerParticipation :=
  ms.foldl (countMatch now) (initParticipation players)

/-- Step 5 of the 8-player case: walk the candidate pairs, skip any
whose member was already used, collect until 4 pairs are found; returns
the collected pairs and the used-id set. -/
def selectDisjointPairs : List (Player × Player) → List Nat → List (Player × Player) →
    List (Player × Player) × List Nat
  | [], used, acc => (acc, used)
  | pr :: rest, used, acc =>
    if pr.1.id ∈ used ∨ pr.2.id ∈ used then selectDisjointPairs rest used acc
    else
      let acc := acc ++ [pr]
      let used := used ++ [pr.1.id, pr.2.id]
      if acc.length = 4 then (acc, used)
      else selectDisjointPairs rest used acc

/-- `option1Score` of Step 6: the internal score of each of the four
pairs. -/
def option1Score (q1 q2 q3 q4 : Player × Player) (pairings : List PlayerPairing)
    (pm : List PlayerParticipation) : Nat :=
  calculatePairScore q1.1 q1.2 pairings pm + calculatePairScore q2.1 q2.2 pairings pm +
    calculatePairScore q3.1 q3.2 pairings pm + calculatePairScore q4.1 q4.2 pairings pm

/-- `option2Score` of Step 6: index-aligned cross scores of the
groupings `q1+q3` and `q2+q4`. -/
def option2Score (q1 q2 q3 q4 : Player × Player) (pairings : List PlayerPairing)
    (pm : List PlayerParticipation) : Nat :=
  calculatePairScore q1.1 q3.1 pairings pm + calculatePairScore q1.2 q3.2 pairings pm +
    calculatePairScore q2.1 q4.1 pairings pm + calculatePairScore q2.2 q4.2 pairings pm

/-- `option3Score` of Step 6: index-aligned cross scores of the
groupings `q1+q4` and `q2+q3`. -/
def option3Score (q1 q2 q3 q4 : Player × Player) (pairings : List PlayerPairing)
    (pm : List PlayerParticipation) : Nat :=
  calculatePairScore q1.1 q4.1 pairings pm + calculatePairScore q1.2 q4.2 pairings pm +
    calculatePairScore q2.1 q3.1 pairings pm + calculatePairScore q2.2 q3.2 pairings pm

/-- Step 6: pick the option with the lowest score (the source's
`if`/`else if`/`else` chain) and lay the two courts out from it. -/
def chooseCourts (q1 q2 q3 q4 : Player × Player) (pairings : List PlayerPairing)
    (pm : List PlayerParticipation) : List Player × List Player :=
  let o1 := option1Score q1 q2 q3 q4 pairings pm
  let o2 := option2Score q1 q2 q3 q4 pairings pm
  let o3 := option3Score q1 q2 q3 q4 pairings pm
  if o1 ≤ o2 ∧ o1 ≤ o3 then
    ([q1.1, q1.2, q2.1, q2.2], [q3.1, q3.2, q4.1, q4.2])
  else if o2 ≤ o1 ∧ o2 ≤ o3 then
    ([q1.1, q1.2, q3.1, q3.2], [q2.1, q2.2, q4.1, q4.2])
  else
    ([q1.1, q1.2, q4.1, q4.2], [q2.1, q2.2, q3.1, q3.2])

/-- The scored pair list of Step 2, in enumeration order. -/
def scoredPairs (players : List Player) (pairings : List PlayerPairing)
    (pm : List PlayerParticipation) : List ((Player × Player) × Nat) :=
  (allPairsAux players).map (fun pr => (pr, calculatePairScore pr.1 pr.2 pairings pm))

/-- Steps 1-5 of the 8-player case: enumerate, score, sort, slice the
first 4, then first-fit the slice; returns the selected pairs and the
used-id set. -/
def phase1 (players : List Player) (pairings : List PlayerPairing)
    (pm : List PlayerParticipation) : List (Player × Player) × List Nat :=
  let sorted := sortByKey (fun e => e.2) (scoredPairs players pairings pm)
  selectDisjointPairs ((sorted.take 4).map (fun e => e.1)) [] []

/-- `generateDoublesMatches`.  `now` models `Date.now()`, `idGen`
models `crypto.randomUUID()` per created match, `rng1`/`rng2` supply
the `Math.random()` draws of the first and second `shuffleArray` call
of the 8-player fallbacks. -/
def generateDoublesMatches (players : List Player) (numberOfCourts : Nat)
    (previousMatches : List Match) (now : Nat) (idGen : Nat → Nat)
    (rng1 rng2 : Nat → Nat) : List Match :=
  let pm := mkParticipationMap players previousMatches now
  let pairings := getPairings previousMatches
  let sortedPlayers := sortByKey (fun p => totalOf pm p.id) players
  if players.length = 4 then
    [⟨idGen 0, sortedPlayers.take 4, 1, Side.left⟩]
  else if players.length = 5 then
    [⟨idGen 0, sortedPlayers.take 4, 1, Side.left⟩]
  else if players.length = 6 then
    if numberOfCourts = 1 then
      [⟨idGen 0, sortedPlayers.take 4, 1, Side.left⟩]
    else
      let singlesPlayers := sortByKey (fun p => singlesOf pm p.id) (sortedPlayers.drop 4)
      [⟨idGen 0, sortedPlayers.take 4, 1, Side.left⟩,
       ⟨idGen 1, singlesPlayers.take 2, 2, Side.left⟩]
  else if players.length = 7 then
    if numberOfCourts = 1 then
      [⟨idGen 0, sortedPlayers.take 4, 1, Side.left⟩]
    else
      let singlesPlayers := sortByKey (fun p => singlesOf pm p.id) (sortedPlayers.drop 4)
      [⟨idGen 0, sortedPlayers.take 4, 1, Side.left⟩,
       ⟨idGen 1, singlesPlayers.take 3, 2, Side.left⟩]
  else if players.length = 8 then
    let sel := phase1 players pairings pm
    let pairs1 := sel.1
    let used := sel.2
    let finalPairs :=
      if pairs1.length < 4 then
        let remaining := players.filter (fun p => !used.contains p.id)
        if 2 ≤ remaining.length then
          pairs1 ++ (pairConsecutive (shuffleArray rng1 remaining)).take (4 - pairs1.length)
        else pairs1
      else pairs1
    let finalPairs :=
      if finalPairs.length < 4 then pairConsecutive (shuffleArray rng2 players)
      else finalPairs
    match finalPairs with
    | [q1, q2, q3, q4] =>
      let courts := chooseCourts q1 q2 q3 q4 pairings pm
      [⟨idGen 0, courts.1, 1, Side.left⟩, ⟨idGen 1, courts.2, 2, Side.left⟩]
    | _ => []
  else []

/-- `PlayerPairing` as the program really stores it after the
`getPairings` conversion: the two fields are the first two
`key.split('-')` fragments (JS strings as character lists). -/
structure PlayerPairingS where
  player1Id : List Char
  player2Id : List Char
  count : Nat
deriving DecidableEq, Repr

/-- `addPairing` at the string level: the map is keyed by
`[id1, id2].sort().join('-')`. -/
def addPairingS (m : List (List Char × Nat)) (id1 id2 : List Char) :
    List (List Char × Nat) :=
  match m with
  | [] => [(pairKeyS id1 id2, 1)]
  | (k, c) :: rest =>
    if k = pairKeyS id1 id2 then (k, c + 1) :: rest
    else (k, c) :: addPairingS rest id1 id2

/-- The per-match body of `getPairings` at the string level; `idStr`
gives each player's JS id string (in the app, `crypto.randomUUID()`,
which always contains `'-'`). -/
def addMatchPairingsS (idStr : Nat → List Char) (m : List (List Char × Nat))
    (mt : Match) : List (List Char × Nat) :=
  match mt.players with
  | [p0, p1, p2, p3] =>
    let m := addPairingS m (idStr p0.id) (idStr p1.id)
    let m := addPairingS m (idStr p2.id) (idStr p3.id)
    let m := addPairingS m (idStr p0.id) (idStr p2.id)
    let m := addPairingS m (idStr p0.id) (idStr p3.id)
    let m := addPairingS m (idStr p1.id) (idStr p2.id)
    addPairingS m (idStr p1.id) (idStr p3.id)
  | _ => m

/-- The pairing map accumulated over the history, string-keyed. -/
def getPairingMapS (idStr : Nat → List Char) (ms : List Match) :
    List (List Char × Nat) :=
  ms.foldl (addMatchPairingsS idStr) []

/-- `getPairings` at the string level: the conversion destructures
`key.split('-')` into the record's two id fields — for ids that
themselves contain `'-'` these are fragments of the smaller id, not
the stored ids. -/
def getPairingsS (idStr : Nat → List Char) (ms : List Match) : List PlayerPairingS :=
  (getPairingMapS idStr ms).map (fun e =>
    match splitDash e.1 with
    | a :: b :: _ => ⟨a, b, e.2⟩
    | [a] => ⟨a, [], e.2⟩
    | [] => ⟨[], [], e.2⟩)

/-- `calculatePairScore` at the string level: the `find` rebuilds each
record's key from its two id fields and compares it with the queried
pair's key. -/
def calculatePairScoreS (idStr : Nat → List Char) (p1 p2 : Player)
    (pairings : List PlayerPairingS) (pm : List PlayerParticipation) : Nat :=
  let key := pairKeyS (idStr p1.id) (idStr p2.id)
  let pairing := pairings.find? (fun p => pairKeyS p.player1Id p.player2Id = key)
  (match pairing with | some p => p.count | none => 0) * 10 +
    totalOf pm p1.id + totalOf pm p2.id

/-- Step 2 of the 8-player case with the string-level scorer. -/
def scoredPairsS (idStr : Nat → List Char) (players : List Player)
    (pairings : List PlayerPairingS) (pm : List PlayerParticipation) :
    List ((Player × Player) × Nat) :=
  (allPairsAux players).map (fun pr => (pr, calculatePairScoreS idStr pr.1 pr.2 pairings pm))

/-- Steps 1-5 of the 8-player case with the string-level scorer:
enumerate, score, sort, slice the first 4, first-fit the slice. -/
def phase1S (idStr : Nat → List Char) (players : List Player)
    (pairings : List PlayerPairingS) (pm : List PlayerParticipation) :
    List (Player × Player) × List Nat :=
  let sorted := sortByKey (fun e => e.2) (scoredPairsS idStr players pairings pm)
  selectDisjointPairs ((sorted.take 4).map (fun e => e.1)) [] []

/-- `option1Score` with the string-level scorer. -/
def option1ScoreS (idStr : Nat → List Char) (q1 q2 q3 q4 : Player × Player)
    (pairings : List PlayerPairingS) (pm : List PlayerParticipation) : Nat :=
  calculatePairScoreS idStr q1.1 q1.2 pairings pm +
    calculatePairScoreS idStr q2.1 q2.2 pairings pm +
    calculatePairScoreS idStr q3.1 q3.2 pairings pm +
    calculatePairScoreS idStr q4.1 q4.2 pairings pm

/-- `option2Score` with the string-level scorer. -/
def option2ScoreS (idStr : Nat → List Char) (q1 q2 q3 q4 : Player × Player)
    (pairings : List PlayerPairingS) (pm : List PlayerParticipation) : Nat :=
  calculatePairScoreS idStr q1.1 q3.1 pairings pm +
    calculatePairScoreS idStr q1.2 q3.2 pairings pm +
    calculatePairScoreS idStr q2.1 q4.1 pairings pm +
    calculatePairScoreS idStr q2.2 q4.2 pairings pm

/-- `option3Score` with the string-level scorer. -/
def option3ScoreS (idStr : Nat → List Char) (q1 q2 q3 q4 : Player × Player)
    (pairings : List PlayerPairingS) (pm : List PlayerParticipation) : Nat :=
  calculatePairScoreS idStr q1.1 q4.1 pairings pm +
    calculatePairScoreS idStr q1.2 q4.2 pairings pm +
    calculatePairScoreS idStr q2.1 q3.1 pairings pm +
    calculatePairScoreS idStr q2.2 q3.2 pairings pm

/-- Step 6 with the string-level scorer. -/
def chooseCourtsS (idStr : Nat → List Char) (q1 q2 q3 q4 : Player × Player)
    (pairings : List PlayerPairingS) (pm : List PlayerParticipation) :
    List Player × List Player :=
  let o1 := option1ScoreS idStr q1 q2 q3 q4 pairings pm
  let o2 := option2ScoreS idStr q1 q2 q3 q4 pairings pm
  let o3 := option3ScoreS idStr q1 q2 q3 q4 pairings pm
  if o1 ≤ o2 ∧ o1 ≤ o3 then
    ([q1.1, q1.2, q2.1, q2.2], [q3.1, q3.2, q4.1, q4.2])
  else if o2 ≤ o1 ∧ o2 ≤ o3 then
    ([q1.1, q1.2, q3.1, q3.2], [q2.1, q2.2, q4.1, q4.2])
  else
    ([q1.1, q1.2, q4.1, q4.2], [q2.1, q2.2, q3.1, q3.2])

/-- `generateDoublesMatches` with the string-level pairing ledger; it
differs from the Nat-level model only in the 8-player scoring path. -/
def generateDoublesMatchesS (idStr : Nat → List Char) (players : List Player)
    (numberOfCourts : Nat) (previousMatches : List Match) (now : Nat)
    (idGen : Nat → Nat) (rng1 rng2 : Nat → Nat) : List Match :=
  let pm := mkParticipationMap players previousMatches now
  let pairings := getPairingsS idStr previousMatches
  let sortedPlayers := sortByKey (fun p => totalOf pm p.id) players
  if players.length = 4 then
    [⟨idGen 0, sortedPlayers.take 4, 1, Side.left⟩]
  else if players.length = 5 then
    [⟨idGen 0, sortedPlayers.take 4, 1, Side.left⟩]
  else if players.length = 6 then
    if numberOfCourts = 1 then
      [⟨idGen 0, sortedPlayers.take 4, 1, Side.left⟩]
    else
      let singlesPlayers := sortByKey (fun p => singlesOf pm p.id) (sortedPlayers.drop 4)
      [⟨idGen 0, sortedPlayers.take 4, 1, Side.left⟩,
       ⟨idGen 1, singlesPlayers.take 2, 2, Side.left⟩]
  else if players.length = 7 then
    if numberOfCourts = 1 then
      [⟨idGen 0, sortedPlayers.take 4, 1, Side.left⟩]
    else
      let singlesPlayers := sortByKey (fun p => singlesOf pm p.id) (sortedPlayers.drop 4)
      [⟨idGen 0, sortedPlayers.take 4, 1, Side.left⟩,
       ⟨idGen 1, singlesPlayers.take 3, 2, Side.left⟩]
  else if players.length = 8 then
    let sel := phase1S idStr players pairings pm
    let pairs1 := sel.1
    let used := sel.2
    let finalPairs :=
      if pairs1.length < 4 then
        let remaining := players.filter (fun p => !used.contains p.id)
        if 2 ≤ remaining.length then
          pairs1 ++ (pairConsecutive (shuffleArray rng1 remaining)).take (4 - pairs1.length)
        else pairs1
      else pairs1
    let finalPairs :=
      if finalPairs.length < 4 then pairConsecutive (shuffleArray rng2 players)
      else finalPairs
    match finalPairs with
    | [q1, q2, q3, q4] =>
      let courts := chooseCourtsS idStr q1 q2 q3 q4 pairings pm
      [⟨idGen 0, courts.1, 1, Side.left⟩, ⟨idGen 1, courts.2, 2, Side.left⟩]
    | _ => []
  else []

/-- `generateSession` of the fixed-case variant: validation error below
4 players, otherwise a session holding the generated matches. -/
def generateSession (players : List Player) (numberOfCourts : Nat)
    (previousMatches : List Match) (now : Nat) (idGen : Nat → Nat)
    (rng1 rng2 : Nat → Nat) : Except String Session :=
  if players.length < 4 then
    Except.error "Need at least 4 players to generate matches"
  else
    Except.ok ⟨players, numberOfCourts,
      generateDoublesMatches players numberOfCourts previousMatches now idGen rng1 rng2⟩

/-- The count stored in the pairing map at key `k` (zero when
absent). -/
def lookupPairCount (m : List ((Nat × Nat) × Nat)) (k : Nat × Nat) : Nat :=
  match m.find? (fun e => e.1 = k) with
  | some e => e.2
  | none => 0

/-- First participation entry of id `x` (JS `participationMap.get`). -/
def lookupPart (pm : List PlayerParticipation) (x : Nat) : Option PlayerParticipation :=
  pm.find? (fun e => e.player.id = x)

end MatchGenerator

namespace RoundGenerator

/-- `PlayerHistory` of the general variant. -/
structure PlayerHistory where
  player : Player
  gamesPlayed : Nat
  partners : List Nat
  opponents : List Nat
deriving DecidableEq, Repr

/-- `createPlayerHistory`. -/
def createPlayerHistory (p : Player) : PlayerHistory := ⟨p, 0, [], []⟩

/-- Insert-or-replace keyed by player id (JS `Map.set` while the
session initialises `globalPlayerHistories`). -/
def setHistory (h : List PlayerHistory) (e : PlayerHistory) : List PlayerHistory :=
  match h with
  | [] => [e]
  | f :: rest =>
    if f.player.id = e.player.id then e :: rest
    else f :: setHistory rest e

/-- Update the entry of id `x` in place when present. -/
def updHist (h : List PlayerHistory) (x : Nat)
    (f : PlayerHistory → PlayerHistory) : List PlayerHistory :=
  h.map (fun e => if e.player.id = x then f e else e)

/-- Lookup by player id (JS `histories.get(id)`). -/
def histLookup (h : List PlayerHistory) (x : Nat) : Option PlayerHistory :=
  h.find? (fun e => e.player.id = x)

/-- Whether an entry for id `x` exists. -/
def hasHist (h : List PlayerHistory) (x : Nat) : Bool :=
  h.any (fun e => e.player.id = x)

/-- The games-played bump of `updatePlayerHistories`. -/
def bumpGames (h : List PlayerHistory) (mt : Match) : List PlayerHistory :=
  mt.players.foldl
    (fun h p => updHist h p.id (fun e => { e with gamesPlayed := e.gamesPlayed + 1 })) h

/-- The per-index body of the partner/opponent loop of
`updatePlayerHistories`: player `i` adds same-half players to its own
`partners` and opposite-half players to its own `opponents`. -/
def addSidesStep (mt : Match) (h : List PlayerHistory) (i : Nat) : List PlayerHistory :=
  let n := mt.players.length
  let mid := n / 2
  match mt.players.get? i with
  | none => h
  | some player =>
    if hasHist h player.id then
      let team := if i < mid then List.range' 0 mid else List.range' mid (n - mid)
      let h := team.foldl
        (fun h j =>
          if i ≠ j then
            match mt.players.get? j with
            | some partner =>
              updHist h player.id (fun e => { e with partners := addId e.partners partner.id })
            | none => h
          else h) h
      let opp := if i < mid then List.range' mid (n - mid) else List.range' 0 mid
      opp.foldl
        (fun h j =>
          match mt.players.get? j with
          | some opponent =>
            updHist h player.id (fun e => { e with opponents := addId e.opponents opponent.id })
          | none => h) h
    else h

/-- The partner/opponent loop of `updatePlayerHistories`.  The Nat
midpoint `n / 2` agrees with the JS float `numPlayers / 2` only for
even-size matches (the only sizes this variant itself generates); for
an odd-size match the JS loops hit the fractional index and throw a
TypeError — `updatePlayerHistoriesE` below models that error path. -/
def addSides (h : List PlayerHistory) (mt : Match) : List PlayerHistory :=
  (List.range mt.players.length).foldl (addSidesStep mt) h

/-- `updatePlayerHistories`: bump `gamesPlayed` of every player of the
match, then add same-side players to `partners` and opposite-side
players to `opponents` of each player's own entry.  The JS midpoint
`numPlayers / 2` is a float; this model divides in `Nat` and is used
only at the even match sizes where both agree. -/
def updatePlayerHistories (h : List PlayerHistory) (mt : Match) : List PlayerHistory :=
  addSides (bumpGames h mt) mt

/-- `updatePlayerHistories` with the JS error path made explicit.  For
an odd-size match the float `midPoint = numPlayers / 2` is fractional:
the first participant with a history entry runs a partner or opponent
loop whose index starts (or lands) at the fractional midpoint, reads
`match.players[midPoint + k] = undefined` and throws a TypeError on
`.id`; a participant without an entry is skipped by the
`if (!history) continue` guard before any such read.  For even sizes
every index is an integer and the loops are exactly the total model
`updatePlayerHistories`; an odd-size match none of whose players is
present mutates nothing. -/
def updatePlayerHistoriesE (h : List PlayerHistory) (mt : Match) :
    Except String (List PlayerHistory) :=
  if mt.players.length % 2 = 1 ∧ mt.players.any (fun p => hasHist h p.id) then
    Except.error "TypeError: Cannot read properties of undefined (reading 'id')"
  else Except.ok (updatePlayerHistories h mt)

/-- Fold the previous matches through `updatePlayerHistoriesE`,
propagating the first thrown error (an uncaught exception aborts the
JS `forEach`). -/
def foldHistoriesE : List PlayerHistory → List Match → Except String (List PlayerHistory)
  | h, [] => Except.ok h
  | h, mt :: rest =>
    match updatePlayerHistoriesE h mt with
    | Except.ok h2 => foldHistoriesE h2 rest
    | Except.error e => Except.error e

/-- Games played of an id as read through the history map. -/
def gamesOf (h : List PlayerHistory) (x : Nat) : Nat :=
  match histLookup h x with
  | some e => e.gamesPlayed
  | none => 0

/-- Partner set of an id as read through the history map. -/
def partnersOf (h : List PlayerHistory) (x : Nat) : List Nat :=
  match histLookup h x with
  | some e => e.partners
  | none => []

/-- Opponent set of an id as read through the history map. -/
def opponentsOf (h : List PlayerHistory) (x : Nat) : List Nat :=
  match histLookup h x with
  | some e => e.opponents
  | none => []

/-- `findLeastPlayedPlayers`: sort the history entries ascending by
games played (stably, keeping map insertion order on ties) and take the
first `count` players. -/
def findLeastPlayedPlayers (h : List PlayerHistory) (count : Nat) : List Player :=
  ((sortByKey (fun e => e.gamesPlayed) h).take count).map (fun e => e.player)

/-- The violation count of `findOptimalPairing`: pairs within the same
half whose first member already has the second as partner. -/
def countSharedPartnerships (l : List Player) (h : List PlayerHistory) : Nat :=
  let mid := l.length / 2
  let violations := fun (xs : List Player) =>
    ((allPairsAux xs).filter (fun pr =>
      match histLookup h pr.1.id with
      | some e => e.partners.contains pr.2.id
      | none => false)).length
  violations (l.take mid) + violations (l.drop mid)

/-- The bounded random search of `findOptimalPairing`: up to `fuel`
trials (100 in the source), each a fresh shuffle scored by
`countSharedPartnerships`; keeps the best, stops early at zero.
`g i` supplies the draws of trial `i`; `none` models the initial
`Infinity` bound. -/
def foPGo (players : List Player) (h : List PlayerHistory) (g : Nat → Nat → Nat) :
    Nat → Nat → List Player → Option Nat → List Player
  | 0, _, best, _ => best
  | fuel + 1, i, best, bestCnt =>
    let shuffled := shuffleArray (g i) players
    let c := countSharedPartnerships shuffled h
    let better := match bestCnt with | none => true | some b => c < b
    if better then
      if c = 0 then shuffled
      else foPGo players h g fuel (i + 1) shuffled (some c)
    else foPGo players h g fuel (i + 1) best bestCnt

/-- `findOptimalPairing`. -/
def findOptimalPairing (players : List Player) (h : List PlayerHistory)
    (g : Nat → Nat → Nat) : List Player :=
  foPGo players h g 100 0 players none

/-- The court loop of `generateRound`: for each court slice four
players off the shuffled selection, locally optimise them, emit the
match and fold it into the histories at once. -/
def generateRoundGo (shuffled : List Player) (g : Nat → Nat → Nat → Nat)
    (sideRng : Nat → Bool) (idGen : Nat → Nat) :
    Nat → Nat → List PlayerHistory → List Match × List PlayerHistory
  | 0, _, h => ([], h)
  | fuel + 1, court, h =>
    let courtPlayers := (shuffled.drop ((court - 1) * 4)).take 4
    let optimized := findOptimalPairing courtPlayers h (g court)
    let m : Match := ⟨idGen court, optimized, court,
      if sideRng court then Side.left else Side.right⟩
    let h := updatePlayerHistories h m
    let rest := generateRoundGo shuffled g sideRng idGen fuel (court + 1) h
    (m :: rest.1, rest.2)

/-- `generateRound`: select the `numberOfCourts × 4` least-played
players, bail out with no matches when fewer are available, otherwise
shuffle them and run the court loop.  The unused `players` argument
mirrors the source signature. -/
def generateRound (players : List Player) (numberOfCourts : Nat)
    (h : List PlayerHistory) (roundRng : Nat → Nat) (g : Nat → Nat → Nat → Nat)
    (sideRng : Nat → Bool) (idGen : Nat → Nat) : List Match × List PlayerHistory :=
  let playersNeeded := numberOfCourts * 4
  let selectedPlayers := findLeastPlayedPlayers h playersNeeded
  if selectedPlayers.length < playersNeeded then ([], h)
  else
    let shuffled := shuffleArray roundRng selectedPlayers
    generateRoundGo shuffled g sideRng idGen numberOfCourts 1 h

/-- `generateSession` of the general variant, with the process-wide
round counter and history map made explicit outputs.  The fold of the
previous matches goes through `updatePlayerHistoriesE`: an odd-size
previous match containing a rostered player makes the JS throw a
TypeError out of `generateSession` (claim C7). -/
def generateSession (players : List Player) (numberOfCourts : Nat)
    (previousMatches : List Match) (roundRng : Nat → Nat) (g : Nat → Nat → Nat → Nat)
    (sideRng : Nat → Bool) (idGen : Nat → Nat) :
    Except String (Session × List PlayerHistory × Nat) :=
  if players.length < 4 then
    Except.error "Need at least 4 players to generate matches"
  else
    match foldHistoriesE
        (players.foldl (fun h p => setHistory h (createPlayerHistory p)) [])
        previousMatches with
    | Except.error e => Except.error e
    | Except.ok histories =>
      let res := generateRound players numberOfCourts histories roundRng g sideRng idGen
      Except.ok (⟨players, numberOfCourts, res.1⟩, res.2, 1)

/-- `generateNextRound`: fold the completed matches into the histories,
bump the round counter, generate again. -/
def generateNextRound (players : List Player) (numberOfCourts : Nat)
    (completedMatches : List Match) (h : List PlayerHistory) (currentRound : Nat)
    (roundRng : Nat → Nat) (g : Nat → Nat → Nat → Nat) (sideRng : Nat → Bool)
    (idGen : Nat → Nat) : List Match × List PlayerHistory × Nat :=
  let h := completedMatches.foldl updatePlayerHistories h
  let res := generateRound players numberOfCourts h roundRng g sideRng idGen
  (res.1, res.2, currentRound + 1)

end RoundGenerator

namespace MatchesPage

/-- `PlayerStats` of the matches page. -/
structure PlayerStats where
  player : Player
  doublesMatchesPlayed : Nat
  singlesMatchesPlayed : Nat
deriving DecidableEq, Repr

/-- `MatchState` of the matches page (the source field `match` is a
reserved word in Lean, hence `matchVal`). -/
structure MatchState where
  matchVal : Match
  completed : Bool
  completedAt : Option Nat
  round : Nat
deriving DecidableEq, Repr

/-- The page state the completion/undo handlers read and write. -/
structure PageState where
  matchStates : List MatchState
  playerStats : List PlayerStats
  allCompletedMatches : List Match
  lastCompletedMatch : Option MatchState
deriving DecidableEq, Repr

/-- `handleMatchComplete`: no-op unless the id names a pending match;
otherwise store the pre-update state as last completed, flag the match
completed at `now`, append it to the completed list and bump each
participant's doubles or singles counter. -/
def handleMatchComplete (s : PageState) (matchId : Nat) (now : Nat) : PageState :=
  match s.matchStates.find? (fun ms => ms.matchVal.id = matchId) with
  | none => s
  | some msFound =>
    if msFound.completed then s
    else
      { matchStates := s.matchStates.map (fun ms =>
          if ms.matchVal.id = matchId then
            { ms with completed := true, completedAt := some now }
          else ms),
        playerStats := s.playerStats.map (fun stat =>
          if msFound.matchVal.players.any (fun p => p.id = stat.player.id) then
            if msFound.matchVal.players.length = 4 then
              { stat with doublesMatchesPlayed := stat.doublesMatchesPlayed + 1 }
            else
              { stat with singlesMatchesPlayed := stat.singlesMatchesPlayed + 1 }
          else stat),
        allCompletedMatches := s.allCompletedMatches ++ [msFound.matchVal],
        lastCompletedMatch := some msFound }

/-- `handleUndo`: no-op without a last completed match; otherwise drop
it from the completed list, revert its match state, decrement each
participant's counter (clamped at zero by `Math.max`, which `Nat`
subtraction models exactly) and clear the last completed match. -/
def handleUndo (s : PageState) : PageState :=
  match s.lastCompletedMatch with
  | none => s
  | some last =>
    { matchStates := s.matchStates.map (fun ms =>
        if ms.matchVal.id = last.matchVal.id then
          { ms with completed := false, completedAt := none }
        else ms),
      playerStats := s.playerStats.map (fun stat =>
        if last.matchVal.players.any (fun p => p.id = stat.player.id) then
          if last.matchVal.players.length = 4 then
            { stat with doublesMatchesPlayed := stat.doublesMatchesPlayed - 1 }
          else
            { stat with singlesMatchesPlayed := stat.singlesMatchesPlayed - 1 }
        else stat),
      allCompletedMatches := s.allCompletedMatches.filter (fun m => m.id ≠ last.matchVal.id),
      lastCompletedMatch := none }

end MatchesPage

/-!
Ledger read accessors of the specification (§4.1), expressed directly
over the match history that realises the ledger in this code base.
They are the right-hand sides of the theorems below; the theorems prove
that the source functions compute them.
-/

/-- The six unordered-pair keys a doubles match contributes to the
pairing frequency (teammate pairs first, then cross pairs, as
`getPairings` emits them). -/
def matchKeys (mt : Match) : List (Nat × Nat) :=
  match mt.players with
  | [p0, p1, p2, p3] =>
    [pairKey p0.id p1.id, pairKey p2.id p3.id, pairKey p0.id p2.id,
     pairKey p0.id p3.id, pairKey p1.id p2.id, pairKey p1.id p3.id]
  | _ => []

/-- `pairFrequency(A,B)`: how often the unordered pair has shared a
court over the history (only 4-player matches count in this code
base). -/
def pairFrequency (ms : List Match) (a b : Nat) : Nat :=
  (ms.map (fun mt => (matchKeys mt).count (pairKey a b))).sum

/-- Occurrences of id `x` across the players of all matches of the
history. -/
def occurrences (ms : List Match) (x : Nat) : Nat :=
  (ms.map (fun mt => (mt.players.filter (fun p => p.id = x)).length)).sum

/-- `totalMatches(x)`: matches played according to the ledger, zero for
ids absent from the roster. -/
def totalMatches (roster : List Player) (ms : List Match) (x : Nat) : Nat :=
  if roster.any (fun p => p.id = x) then occurrences ms x else 0

/-- A concrete player used by witnesses. -/
def tp (n : Nat) : Player := ⟨n, ""⟩

/-- The first index attaining the minimum of three scores (the claim's
tie-break by enumeration order). -/
def specFirstMinIdx (o1 o2 o3 : Nat) : Nat :=
  if o1 ≤ min o2 o3 then 0 else if o2 ≤ o3 then 1 else 2

/-- The two courts laid out from grouping `g` of the four pairs
(`0`: P1+P2 vs P3+P4, `1`: P1+P3 vs P2+P4, `2`: P1+P4 vs P2+P3). -/
def groupingOf (g : Nat) (q1 q2 q3 q4 : Player × Player) : List Player × List Player :=
  if g = 0 then ([q1.1, q1.2, q2.1, q2.2], [q3.1, q3.2, q4.1, q4.2])
  else if g = 1 then ([q1.1, q1.2, q3.1, q3.2], [q2.1, q2.2, q4.1, q4.2])
  else ([q1.1, q1.2, q4.1, q4.2], [q2.1, q2.2, q3.1, q3.2])

/-- Following the claim's words, with the string-level scorer: the sum
of the pair scores of every cross-pair combination between the two
pairs sharing a court (four player combinations). -/
def specTeamCrossScoreS (idStr : Nat → List Char) (x y : Player × Player)
    (pairings : List MatchGenerator.PlayerPairingS)
    (pm : List MatchGenerator.PlayerParticipation) : Nat :=
  MatchGenerator.calculatePairScoreS idStr x.1 y.1 pairings pm +
    MatchGenerator.calculatePairScoreS idStr x.1 y.2 pairings pm +
    MatchGenerator.calculatePairScoreS idStr x.2 y.1 pairings pm +
    MatchGenerator.calculatePairScoreS idStr x.2 y.2 pairings pm

/-- Following the claim's words, with the string-level scorer: a
grouping's total is the sum of the cross-pair scores within each of
its two teams. -/
def specGroupingTotalS (idStr : Nat → List Char) (g : Nat) (q1 q2 q3 q4 : Player × Player)
    (pairings : List MatchGenerator.PlayerPairingS)
    (pm : List MatchGenerator.PlayerParticipation) : Nat :=
  if g = 0 then
    specTeamCrossScoreS idStr q1 q2 pairings pm + specTeamCrossScoreS idStr q3 q4 pairings pm
  else if g = 1 then
    specTeamCrossScoreS idStr q1 q3 pairings pm + specTeamCrossScoreS idStr q2 q4 pairings pm
  else
    specTeamCrossScoreS idStr q1 q4 pairings pm + specTeamCrossScoreS idStr q2 q3 pairings pm

/-- Following the claim's words, with the string-level scorer: the
greedy first-fit over the WHOLE sorted pair list, not only its first-4
slice. -/
def specPhase1S (idStr : Nat → List Char) (players : List Player)
    (pairings : List MatchGenerator.PlayerPairingS)
    (pm : List MatchGenerator.PlayerParticipation) :
    List (Player × Player) × List Nat :=
  MatchGenerator.selectDisjointPairs
    ((sortByKey (fun e => e.2)
        (MatchGenerator.scoredPairsS idStr players pairings pm)).map (fun e => e.1)) [] []

/-- UUID-style id strings for the test players: each contains a `'-'`,
as every `crypto.randomUUID()` value does. -/
def uuidIds (n : Nat) : List Char := ['u', Char.ofNat (48 + n % 10), '-', 'a', 'b']

/-- Hyphen-free id strings (inputs on which the `split('-')` readback
happens to be exact). -/
def plainIds (n : Nat) : List Char := ['p', Char.ofNat (48 + n % 10)]

/-- An 8-player roster used to exercise the 8-player branch. -/
def rosterC2 : List Player := [tp 0, tp 1, tp 2, tp 3, tp 4, tp 5, tp 6, tp 7]

/-- A one-match history (the doubles match 0,4 vs 1,5) used by the C3
counterexample. -/
def histC3 : List Match := [⟨9, [tp 0, tp 4, tp 1, tp 5], 1, Side.left⟩]

/-- All players of a pair list, in order. -/
def flattenPairs (l : List (Player × Player)) : List Player :=
  l.flatMap (fun pr => [pr.1, pr.2])

/-- All players appearing in a round's matches, in order. -/
def roundPlayers (ms : List Match) : List Player :=
  ms.flatMap (fun m => m.players)

/-- The ids of all players appearing in a round's matches. -/
def roundIds (ms : List Match) : List Nat :=
  (roundPlayers ms).map Player.id

namespace MatchGenerator


theorem lookupPairCount_addPairing (m : List ((Nat × Nat) × Nat)) (a b : Nat)
    (k : Nat × Nat) :
    lookupPairCount (addPairing m a b) k =
      lookupPairCount m k + (if pairKey a b = k then 1 else 0) := by
  induction m with
  | nil =>
    simp only [addPairing, lookupPairCount, List.find?]
    by_cases h : pairKey a b = k
    · simp [h]
    · simp [h, Ne.symm h]
  | cons e rest ih =>
    obtain ⟨k1, c⟩ := e
    by_cases he : k1 = pairKey a b
    · by_cases hk : k1 = k
      · have h2 : pairKey a b = k := he ▸ hk
        simp [addPairing, lookupPairCount, he, hk, h2, List.find?_cons]
      · have h2 : pairKey a b ≠ k := fun h => hk (he.trans h)
        simp [addPairing, lookupPairCount, he, hk, h2, List.find?_cons]
    · by_cases hk : k1 = k
      · have h2 : pairKey a b ≠ k := fun h => he (hk.trans h.symm)
        simp [addPairing, lookupPairCount, he, hk, h2, Ne.symm h2, List.find?_cons]
      · simp only [lookupPairCount] at ih
        simp [addPairing, lookupPairCount, he, hk, List.find?_cons, ih]

theorem lookupPairCount_addMatchPairings (m : List ((Nat × Nat) × Nat)) (mt : Match)
    (k : Nat × Nat) :
    lookupPairCount (addMatchPairings m mt) k =
      lookupPairCount m k + (matchKeys mt).count k := by
  rcases hmt : mt.players with _ | ⟨p0, _ | ⟨p1, _ | ⟨p2, _ | ⟨p3, _ | ⟨p4, rest⟩⟩⟩⟩⟩ <;>
    simp only [addMatchPairings, matchKeys, hmt, List.count_nil, List.count_cons,
      lookupPairCount_addPairing, beq_iff_eq, List.count_eq_zero_of_not_mem
        (List.not_mem_nil k)] <;>
    ring

theorem lookupPairCount_foldl (ms : List Match) (m0 : List ((Nat × Nat) × Nat))
    (k : Nat × Nat) :
    lookupPairCount (ms.foldl addMatchPairings m0) k =
      lookupPairCount m0 k + (ms.map (fun mt => (matchKeys mt).count k)).sum := by
  induction ms generalizing m0 with
  | nil => simp
  | cons mt rest ih =>
    simp only [List.foldl_cons, ih, lookupPairCount_addMatchPairings, List.map_cons,
      List.sum_cons]
    omega

theorem lookupPairCount_getPairingMap (ms : List Match) (a b : Nat) :
    lookupPairCount (getPairingMap ms) (pairKey a b) = pairFrequency ms a b := by
  rw [getPairingMap, lookupPairCount_foldl]
  simp [lookupPairCount, pairFrequency]

/-- `pairKey` is idempotent on its own output: stored keys are already
in canonical order. -/
theorem pairKey_canon (a b : Nat) : pairKey (pairKey a b).1 (pairKey a b).2 = pairKey a b := by
  simp only [pairKey, Prod.mk.injEq]
  constructor <;> omega

theorem canon_addPairing (m : List ((Nat × Nat) × Nat)) (a b : Nat)
    (hm : ∀ e ∈ m, pairKey e.1.1 e.1.2 = e.1) :
    ∀ e ∈ addPairing m a b, pairKey e.1.1 e.1.2 = e.1 := by
  induction m with
  | nil =>
    intro e he
    simp only [addPairing, List.mem_singleton] at he
    subst he
    exact pairKey_canon a b
  | cons f rest ih =>
    obtain ⟨k, c⟩ := f
    intro e he
    simp only [addPairing] at he
    by_cases hk : k = pairKey a b
    · rw [if_pos hk] at he
      rcases List.mem_cons.mp he with h | h
      · subst h
        exact hm (k, c) (List.mem_cons_self _ _)
      · exact hm e (List.mem_cons_of_mem _ h)
    · rw [if_neg hk] at he
      rcases List.mem_cons.mp he with h | h
      · subst h
        exact hm (k, c) (List.mem_cons_self _ _)
      · exact ih (fun e he => hm e (List.mem_cons_of_mem _ he)) e h

theorem canon_getPairingMap (ms : List Match) :
    ∀ e ∈ getPairingMap ms, pairKey e.1.1 e.1.2 = e.1 := by
  suffices h : ∀ m0, (∀ e ∈ m0, pairKey e.1.1 e.1.2 = e.1) →
      ∀ e ∈ ms.foldl addMatchPairings m0, pairKey e.1.1 e.1.2 = e.1 by
    exact h [] (by simp)
  induction ms with
  | nil => exact fun m0 hm0 => hm0
  | cons mt rest ih =>
    intro m0 hm0
    refine ih _ ?_
    rcases hmt : mt.players with _ | ⟨p0, _ | ⟨p1, _ | ⟨p2, _ | ⟨p3, _ | ⟨p4, r⟩⟩⟩⟩⟩ <;>
      simp only [addMatchPairings, hmt] <;>
      first
        | exact hm0
        | exact canon_addPairing _ _ _ (canon_addPairing _ _ _ (canon_addPairing _ _ _
            (canon_addPairing _ _ _ (canon_addPairing _ _ _ (canon_addPairing _ _ _ hm0)))))

theorem find?_canon_aux (l : List ((Nat × Nat) × Nat)) (k : Nat × Nat)
    (hl : ∀ e ∈ l, pairKey e.1.1 e.1.2 = e.1) :
    (l.map (fun e => (⟨e.1.1, e.1.2, e.2⟩ : PlayerPairing))).find?
        (fun p => pairKey p.player1Id p.player2Id = k) =
      (l.find? (fun e => e.1 = k)).map (fun e => (⟨e.1.1, e.1.2, e.2⟩ : PlayerPairing)) := by
  induction l with
  | nil => rfl
  | cons f rest ih =>
    have hf := hl f (List.mem_cons_self _ _)
    by_cases h : f.1 = k
    · have hk : pairKey k.1 k.2 = k := by rw [← h]; exact hf
      simp only [List.map_cons, List.find?_cons]
      simp [hf, h, hk]
    · simp only [List.map_cons, List.find?_cons]
      simp [hf, h, ih (fun e he => hl e (List.mem_cons_of_mem _ he))]

theorem find?_getPairings (ms : List Match) (k : Nat × Nat) :
    (getPairings ms).find? (fun p => pairKey p.player1Id p.player2Id = k) =
      ((getPairingMap ms).find? (fun e => e.1 = k)).map
        (fun e => (⟨e.1.1, e.1.2, e.2⟩ : PlayerPairing)) := by
  exact find?_canon_aux (getPairingMap ms) k (canon_getPairingMap ms)


theorem lookupPart_updAt (pm : List PlayerParticipation) (y x : Nat)
    (f : PlayerParticipation → PlayerParticipation)
    (hf : ∀ e, (f e).player = e.player) :
    lookupPart (updAt pm y f) x =
      (lookupPart pm x).map (fun e => if e.player.id = y then f e else e) := by
  induction pm with
  | nil => rfl
  | cons e rest ih =>
    have hg : ∀ a : PlayerParticipation,
        (if a.player.id = y then f a else a).player.id = a.player.id := by
      intro a
      by_cases h : a.player.id = y
      · simp [h, hf a]
      · simp [h]
    simp only [updAt, List.map_cons, lookupPart, List.find?_cons] at ih ⊢
    rw [hg e]
    by_cases hex : e.player.id = x
    · simp [hex]
    · simpa [hex] using ih

theorem lookupPart_setParticipation (pm : List PlayerParticipation)
    (e : PlayerParticipation) (x : Nat) :
    lookupPart (setParticipation pm e) x =
      if e.player.id = x then some e else lookupPart pm x := by
  induction pm with
  | nil =>
    simp only [setParticipation, lookupPart, List.find?]
    by_cases h : e.player.id = x <;> simp [h]
  | cons f rest ih =>
    simp only [setParticipation]
    by_cases hfe : f.player.id = e.player.id
    · rw [if_pos hfe]
      by_cases hx : e.player.id = x
      · simp [lookupPart, List.find?_cons, hx]
      · have hfx : ¬f.player.id = x := fun h => hx (hfe.symm.trans h)
        simp [lookupPart, List.find?_cons, hx, hfx]
    · rw [if_neg hfe]
      by_cases hfx : f.player.id = x
      · have hex : ¬e.player.id = x := fun h => hfe (hfx.trans h.symm)
        simp [lookupPart, List.find?_cons, hfx, hex]
      · simp only [lookupPart, List.find?_cons] at ih ⊢
        simp [hfx, ih]

theorem mem_setParticipation (pm : List PlayerParticipation)
    (f e : PlayerParticipation) (he : e ∈ setParticipation pm f) : e = f ∨ e ∈ pm := by
  induction pm with
  | nil =>
    simp only [setParticipation, List.mem_singleton] at he
    exact Or.inl he
  | cons g rest ih =>
    simp only [setParticipation] at he
    split at he
    · rcases List.mem_cons.mp he with h | h
      · exact Or.inl h
      · exact Or.inr (List.mem_cons_of_mem _ h)
    · rcases List.mem_cons.mp he with h | h
      · exact Or.inr (h ▸ List.mem_cons_self _ _)
      · rcases ih h with h | h
        · exact Or.inl h
        · exact Or.inr (List.mem_cons_of_mem _ h)

/-- Every entry of the initial participation map is zeroed. -/
theorem initParticipation_zeroed (roster : List Player) :
    ∀ e ∈ initParticipation roster,
      e.doublesMatchesPlayed = 0 ∧ e.singlesMatchesPlayed = 0 := by
  suffices h : ∀ pm0, (∀ e ∈ pm0, e.doublesMatchesPlayed = 0 ∧ e.singlesMatchesPlayed = 0) →
      ∀ e ∈ roster.foldl (fun pm p => setParticipation pm ⟨p, 0, 0, none, [], []⟩) pm0,
        e.doublesMatchesPlayed = 0 ∧ e.singlesMatchesPlayed = 0 by
    exact h [] (by simp)
  induction roster with
  | nil => exact fun pm0 h0 => h0
  | cons p rest ih =>
    intro pm0 h0
    refine ih _ ?_
    intro e he
    rcases mem_setParticipation _ _ _ he with h | h
    · subst h
      exact ⟨rfl, rfl⟩
    · exact h0 e h

/-- The initial map reports zero total matches for every id. -/
theorem totalOf_initParticipation (roster : List Player) (x : Nat) :
    totalOf (initParticipation roster) x = 0 := by
  unfold totalOf
  cases hfind : (initParticipation roster).find? (fun e => e.player.id = x) with
  | none => rfl
  | some e =>
    have hz := initParticipation_zeroed roster e (List.mem_of_find?_eq_some hfind)
    simp [hz.1, hz.2]

/-- An id has an entry in the initial map exactly when it is a roster
id. -/
theorem present_initParticipation (roster : List Player) (x : Nat) :
    (lookupPart (initParticipation roster) x).isSome = roster.any (fun p => p.id = x) := by
  suffices h : ∀ pm0,
      (lookupPart (roster.foldl (fun pm p => setParticipation pm ⟨p, 0, 0, none, [], []⟩) pm0) x).isSome =
        (roster.any (fun p => p.id = x) || (lookupPart pm0 x).isSome) by
    simpa [initParticipation, lookupPart] using h []
  induction roster with
  | nil => simp
  | cons p rest ih =>
    intro pm0
    simp only [List.foldl_cons, List.any_cons, ih, lookupPart_setParticipation]
    by_cases hp : p.id = x <;> simp [hp, Bool.or_comm, Bool.or_left_comm]

theorem totalOf_eq_lookup (pm : List PlayerParticipation) (x : Nat) :
    totalOf pm x =
      ((lookupPart pm x).map
        (fun q => q.doublesMatchesPlayed + q.singlesMatchesPlayed)).getD 0 := by
  unfold totalOf lookupPart
  cases pm.find? (fun e => decide (e.player.id = x)) <;> rfl

theorem present_updAt (pm : List PlayerParticipation) (y x : Nat)
    (f : PlayerParticipation → PlayerParticipation)
    (hf : ∀ e, (f e).player = e.player) :
    (lookupPart (updAt pm y f) x).isSome = (lookupPart pm x).isSome := by
  rw [lookupPart_updAt pm y x f hf]
  cases lookupPart pm x <;> rfl

theorem totalOf_updAt_preserve (pm : List PlayerParticipation) (y x : Nat)
    (f : PlayerParticipation → PlayerParticipation)
    (hf : ∀ e, (f e).player = e.player)
    (hd : ∀ e, (f e).doublesMatchesPlayed = e.doublesMatchesPlayed)
    (hs : ∀ e, (f e).singlesMatchesPlayed = e.singlesMatchesPlayed) :
    totalOf (updAt pm y f) x = totalOf pm x := by
  rw [totalOf_eq_lookup, totalOf_eq_lookup, lookupPart_updAt pm y x f hf]
  cases lookupPart pm x with
  | none => rfl
  | some e =>
    by_cases h : e.player.id = y <;> simp [h, hd, hs]

theorem present_addPartners (pm : List PlayerParticipation) (a b x : Nat) :
    (lookupPart (addPartners pm a b) x).isSome = (lookupPart pm x).isSome := by
  unfold addPartners
  split
  · rw [present_updAt, present_updAt] <;> (intro e; rfl)
  · rfl

theorem present_addOpponents (pm : List PlayerParticipation) (a b x : Nat) :
    (lookupPart (addOpponents pm a b) x).isSome = (lookupPart pm x).isSome := by
  unfold addOpponents
  split
  · rw [present_updAt, present_updAt] <;> (intro e; rfl)
  · rfl

theorem totalOf_addPartners (pm : List PlayerParticipation) (a b x : Nat) :
    totalOf (addPartners pm a b) x = totalOf pm x := by
  unfold addPartners
  split
  · rw [totalOf_updAt_preserve, totalOf_updAt_preserve] <;> (intro e; rfl)
  · rfl

theorem totalOf_addOpponents (pm : List PlayerParticipation) (a b x : Nat) :
    totalOf (addOpponents pm a b) x = totalOf pm x := by
  unfold addOpponents
  split
  · rw [totalOf_updAt_preserve, totalOf_updAt_preserve] <;> (intro e; rfl)
  · rfl

theorem present_partnerPhase (pm : List PlayerParticipation) (mt : Match) (x : Nat) :
    (lookupPart (partnerPhase pm mt) x).isSome = (lookupPart pm x).isSome := by
  unfold partnerPhase
  rcases mt.players with _ | ⟨p0, _ | ⟨p1, _ | ⟨p2, _ | ⟨p3, _ | ⟨p4, rest⟩⟩⟩⟩⟩ <;>
    simp [present_addPartners, present_addOpponents]

theorem totalOf_partnerPhase (pm : List PlayerParticipation) (mt : Match) (x : Nat) :
    totalOf (partnerPhase pm mt) x = totalOf pm x := by
  unfold partnerPhase
  rcases mt.players with _ | ⟨p0, _ | ⟨p1, _ | ⟨p2, _ | ⟨p3, _ | ⟨p4, rest⟩⟩⟩⟩⟩ <;>
    simp [totalOf_addPartners, totalOf_addOpponents]

theorem totalOf_foldl_bump (ps : List Player) (pm : List PlayerParticipation) (x : Nat)
    (now : Nat) (isD : Bool) :
    totalOf (ps.foldl (fun pm p => updAt pm p.id (bumpCount now isD)) pm) x =
      totalOf pm x +
        (if (lookupPart pm x).isSome then (ps.filter (fun p => p.id = x)).length else 0) := by
  have hfp : ∀ e, (bumpCount now isD e).player = e.player := by
    intro e
    unfold bumpCount
    split <;> rfl
  induction ps generalizing pm with
  | nil => simp
  | cons p rest ih =>
    rw [List.foldl_cons, ih]
    have hpres : (lookupPart (updAt pm p.id (bumpCount now isD)) x).isSome =
        (lookupPart pm x).isSome := present_updAt _ _ _ _ hfp
    have hstep : totalOf (updAt pm p.id (bumpCount now isD)) x =
        totalOf pm x + (if (lookupPart pm x).isSome ∧ p.id = x then 1 else 0) := by
      rw [totalOf_eq_lookup, totalOf_eq_lookup, lookupPart_updAt pm p.id x _ hfp]
      cases hl : lookupPart pm x with
      | none => simp
      | some e =>
        have hex : e.player.id = x := by
          have := List.find?_some hl
          simpa using this
        by_cases hpx : p.id = x
        · have hep : e.player.id = p.id := hex.trans hpx.symm
          have hval : (bumpCount now isD e).doublesMatchesPlayed +
              (bumpCount now isD e).singlesMatchesPlayed =
              e.doublesMatchesPlayed + e.singlesMatchesPlayed + 1 := by
            unfold bumpCount
            split <;> (try simp) <;> omega
          simp [hep, hpx, hval]
        · have hep : ¬e.player.id = p.id := fun h => hpx ((h.symm.trans hex))
          simp [hep, hpx]
    rw [hstep, hpres, List.filter_cons]
    by_cases hpx : p.id = x <;> by_cases hpr : (lookupPart pm x).isSome <;>
      simp [hpx, hpr] <;> omega

theorem totalOf_countMatch (now : Nat) (pm : List PlayerParticipation) (mt : Match)
    (x : Nat) :
    totalOf (countMatch now pm mt) x =
      totalOf pm x +
        (if (lookupPart pm x).isSome then (mt.players.filter (fun p => p.id = x)).length
         else 0) := by
  unfold countMatch
  rw [totalOf_foldl_bump, totalOf_partnerPhase, present_partnerPhase]

theorem present_foldl_bump (ps : List Player) (pm : List PlayerParticipation)
    (x now : Nat) (isD : Bool) :
    (lookupPart (ps.foldl (fun pm p => updAt pm p.id (bumpCount now isD)) pm) x).isSome =
      (lookupPart pm x).isSome := by
  have hfp : ∀ e, (bumpCount now isD e).player = e.player := by
    intro e
    unfold bumpCount
    split <;> rfl
  induction ps generalizing pm with
  | nil => rfl
  | cons p rest ih => rw [List.foldl_cons, ih, present_updAt _ _ _ _ hfp]

theorem present_countMatch (now : Nat) (pm : List PlayerParticipation) (mt : Match)
    (x : Nat) :
    (lookupPart (countMatch now pm mt) x).isSome = (lookupPart pm x).isSome := by
  unfold countMatch
  rw [present_foldl_bump, present_partnerPhase]

theorem totalOf_mkParticipationMap (roster : List Player) (ms : List Match) (now : Nat)
    (x : Nat) :
    totalOf (mkParticipationMap roster ms now) x = totalMatches roster ms x := by
  suffices h : ∀ pm0, totalOf (ms.foldl (countMatch now) pm0) x =
      totalOf pm0 x + (if (lookupPart pm0 x).isSome then occurrences ms x else 0) by
    rw [mkParticipationMap, h, totalOf_initParticipation, totalMatches,
      ← present_initParticipation roster x]
    cases hp : (lookupPart (initParticipation roster) x).isSome <;> simp [hp]
  induction ms with
  | nil =>
    intro pm0
    simp [occurrences]
  | cons mt rest ih =>
    intro pm0
    rw [List.foldl_cons, ih, totalOf_countMatch, present_countMatch]
    have : occurrences (mt :: rest) x =
        (mt.players.filter (fun p => p.id = x)).length + occurrences rest x := by
      simp [occurrences]
    rw [this]
    cases hp : (lookupPart pm0 x).isSome <;> simp [hp] <;> omega

end MatchGenerator

/-!
The claims.
-/

theorem findLeastPlayedPlayers_length (h : List RoundGenerator.PlayerHistory)
    (count : Nat) :
    (RoundGenerator.findLeastPlayedPlayers h count).length = min count h.length := by
  simp [RoundGenerator.findLeastPlayedPlayers, sortByKey, List.length_insertionSort]

theorem generateRoundGo_length (shuffled : List Player) (g : Nat → Nat → Nat → Nat)
    (sideRng : Nat → Bool) (idGen : Nat → Nat) :
    ∀ (fuel court : Nat) (h : List RoundGenerator.PlayerHistory),
      ((RoundGenerator.generateRoundGo shuffled g sideRng idGen fuel court h).1).length =
        fuel := by
  intro fuel
  induction fuel with
  | zero => intro court h; rfl
  | succ n ih =>
    intro court h
    simp only [RoundGenerator.generateRoundGo, List.length_cons, ih]

/-- C8 counterexample: with 4 players available and 2 courts
configured, the general-variant scheduler returns the empty round even
though one court could be filled — it does not return "as many
full-court matches as possible". -/
theorem c8_counterexample :
    (RoundGenerator.generateRound [tp 0, tp 1, tp 2, tp 3] 2
        [RoundGenerator.createPlayerHistory (tp 0), RoundGenerator.createPlayerHistory (tp 1),
         RoundGenerator.createPlayerHistory (tp 2), RoundGenerator.createPlayerHistory (tp 3)]
        (fun _ => 0) (fun _ _ _ => 0) (fun _ => true) (fun _ => 0)).1 = [] ∧
      4 ≤ [RoundGenerator.createPlayerHistory (tp 0), RoundGenerator.createPlayerHistory (tp 1),
         RoundGenerator.createPlayerHistory (tp 2),
         RoundGenerator.createPlayerHistory (tp 3)].length := by
  constructor
  · rfl
  · decide

/-- C8 amended: the general-variant scheduler never errors, but it
returns the empty round whenever fewer than `numberOfCourts × 4`
players are available (no partial rounds), and exactly
`numberOfCourts` four-player matches otherwise. -/
theorem c8_amended (players : List Player) (numberOfCourts : Nat)
    (h : List RoundGenerator.PlayerHistory) (roundRng : Nat → Nat)
    (g : Nat → Nat → Nat → Nat) (sideRng : Nat → Bool) (idGen : Nat → Nat) :
    (h.length < numberOfCourts * 4 →
      (RoundGenerator.generateRound players numberOfCourts h roundRng g sideRng idGen).1 =
        []) ∧
    (numberOfCourts * 4 ≤ h.length →
      ((RoundGenerator.generateRound players numberOfCourts h roundRng g sideRng
          idGen).1).length = numberOfCourts) := by
  constructor
  · intro hlt
    rw [RoundGenerator.generateRound]
    rw [if_pos (by rw [findLeastPlayedPlayers_length]; omega)]
  · intro hge
    rw [RoundGenerator.generateRound]
    rw [if_neg (by rw [findLeastPlayedPlayers_length]; omega)]
    exact generateRoundGo_length _ _ _ _ _ _ _

/-- Witness for C8 amended: 4 available players give an empty round on
2 courts and a single match on 1 court. -/
theorem c8_witness :
    (RoundGenerator.generateRound [] 2
        [RoundGenerator.createPlayerHistory (tp 4), RoundGenerator.createPlayerHistory (tp 5),
         RoundGenerator.createPlayerHistory (tp 6), RoundGenerator.createPlayerHistory (tp 7)]
        (fun _ => 1) (fun _ _ _ => 1) (fun _ => false) (fun _ => 1)).1 = [] ∧
    ((RoundGenerator.generateRound [] 1
        [RoundGenerator.createPlayerHistory (tp 4), RoundGenerator.createPlayerHistory (tp 5),
         RoundGenerator.createPlayerHistory (tp 6), RoundGenerator.createPlayerHistory (tp 7)]
        (fun _ => 1) (fun _ _ _ => 1) (fun _ => false) (fun _ => 1)).1).length = 1 := by
  constructor
  · exact (c8_amended [] 2 [RoundGenerator.createPlayerHistory (tp 4),
      RoundGenerator.createPlayerHistory (tp 5), RoundGenerator.createPlayerHistory (tp 6),
      RoundGenerator.createPlayerHistory (tp 7)] (fun _ => 1) (fun _ _ _ => 1)
      (fun _ => false) (fun _ => 1)).1 (by decide)
  · exact (c8_amended [] 1 [RoundGenerator.createPlayerHistory (tp 4),
      RoundGenerator.createPlayerHistory (tp 5), RoundGenerator.createPlayerHistory (tp 6),
      RoundGenerator.createPlayerHistory (tp 7)] (fun _ => 1) (fun _ _ _ => 1)
      (fun _ => false) (fun _ => 1)).2 (by decide)

/-- C9 counterexample: two runs of the general-variant scheduler with
identical rosters, histories and court counts produce different rounds
when the ambient `Math.random` draws differ — there is no seed
parameter that could fix them. -/
theorem c9_counterexample :
    (RoundGenerator.generateRound [] 1
        [RoundGenerator.createPlayerHistory (tp 0), RoundGenerator.createPlayerHistory (tp 1),
         RoundGenerator.createPlayerHistory (tp 2), RoundGenerator.createPlayerHistory (tp 3)]
        (fun _ => 0) (fun _ _ _ => 0) (fun _ => true) (fun _ => 0)).1 ≠
      (RoundGenerator.generateRound [] 1
        [RoundGenerator.createPlayerHistory (tp 0), RoundGenerator.createPlayerHistory (tp 1),
         RoundGenerator.createPlayerHistory (tp 2), RoundGenerator.createPlayerHistory (tp 3)]
        (fun _ => 0) (fun _ _ _ => 0) (fun _ => false) (fun _ => 0)).1 := by
  decide

/-- C9 amended: the scheduler is deterministic only as a function of
roster, histories, court count and the full ambient random stream
(shuffle draws, local-search draws, side draws) plus the id source;
fixing all of those fixes the round. -/
theorem c9_amended (players : List Player) (numberOfCourts : Nat)
    (h : List RoundGenerator.PlayerHistory) (r1 r2 : Nat → Nat)
    (g1 g2 : Nat → Nat → Nat → Nat) (s1 s2 : Nat → Bool) (id1 id2 : Nat → Nat)
    (hr : ∀ i, r1 i = r2 i) (hg : ∀ a b c, g1 a b c = g2 a b c)
    (hs : ∀ i, s1 i = s2 i) (hid : ∀ i, id1 i = id2 i) :
    RoundGenerator.generateRound players numberOfCourts h r1 g1 s1 id1 =
      RoundGenerator.generateRound players numberOfCourts h r2 g2 s2 id2 := by
  have h1 : r1 = r2 := funext hr
  have h2 : g1 = g2 := funext fun a => funext fun b => funext fun c => hg a b c
  have h3 : s1 = s2 := funext hs
  have h4 : id1 = id2 := funext hid
  rw [h1, h2, h3, h4]

/-- Witness for C9 amended at concrete equal streams. -/
theorem c9_witness :
    RoundGenerator.generateRound [] 1
        [RoundGenerator.createPlayerHistory (tp 0), RoundGenerator.createPlayerHistory (tp 1),
         RoundGenerator.createPlayerHistory (tp 2), RoundGenerator.createPlayerHistory (tp 3)]
        (fun _ => 3) (fun _ _ _ => 2) (fun _ => true) (fun _ => 7) =
      RoundGenerator.generateRound [] 1
        [RoundGenerator.createPlayerHistory (tp 0), RoundGenerator.createPlayerHistory (tp 1),
         RoundGenerator.createPlayerHistory (tp 2), RoundGenerator.createPlayerHistory (tp 3)]
        (fun i => 3 + 0 * i) (fun _ _ _ => 2) (fun i => true || decide (i = 0))
        (fun _ => 7) := by
  exact c9_amended [] 1
    [RoundGenerator.createPlayerHistory (tp 0), RoundGenerator.createPlayerHistory (tp 1),
     RoundGenerator.createPlayerHistory (tp 2), RoundGenerator.createPlayerHistory (tp 3)]
    (fun _ => 3) (fun i => 3 + 0 * i) (fun _ _ _ => 2) (fun _ _ _ => 2) (fun _ => true)
    (fun i => true || decide (i = 0)) (fun _ => 7) (fun _ => 7)
    (fun i => by simp) (fun a b c => rfl) (fun i => by simp) (fun i => rfl)

theorem mem_addId (s : List Nat) (z : Nat) : z ∈ addId s z := by
  unfold addId
  split <;> simp_all

theorem addId_mono (s : List Nat) (w z : Nat) (h : w ∈ s) : w ∈ addId s z := by
  unfold addId
  split
  · exact h
  · exact List.mem_append_left _ h

namespace RoundGenerator

theorem histLookup_updHist (h : List PlayerHistory) (y x : Nat)
    (f : PlayerHistory → PlayerHistory) (hf : ∀ e, (f e).player = e.player) :
    histLookup (updHist h y f) x =
      (histLookup h x).map (fun e => if e.player.id = y then f e else e) := by
  induction h with
  | nil => rfl
  | cons e rest ih =>
    have hg : ∀ a : PlayerHistory,
        (if a.player.id = y then f a else a).player.id = a.player.id := by
      intro a
      by_cases hcase : a.player.id = y
      · simp [hcase, hf a]
      · simp [hcase]
    simp only [updHist, List.map_cons, histLookup, List.find?_cons] at ih ⊢
    rw [hg e]
    by_cases hex : e.player.id = x
    · simp [hex]
    · simpa [hex] using ih

theorem present_updHist (h : List PlayerHistory) (y x : Nat)
    (f : PlayerHistory → PlayerHistory) (hf : ∀ e, (f e).player = e.player) :
    (histLookup (updHist h y f) x).isSome = (histLookup h x).isSome := by
  rw [histLookup_updHist h y x f hf]
  cases histLookup h x <;> rfl

theorem gamesOf_updHist_pres (h : List PlayerHistory) (y x : Nat)
    (f : PlayerHistory → PlayerHistory) (hf : ∀ e, (f e).player = e.player)
    (hg : ∀ e, (f e).gamesPlayed = e.gamesPlayed) :
    gamesOf (updHist h y f) x = gamesOf h x := by
  unfold gamesOf
  rw [histLookup_updHist h y x f hf]
  cases histLookup h x with
  | none => rfl
  | some e =>
    by_cases hcase : e.player.id = y <;> simp [hcase, hg]

theorem partnersOf_updHist_mono (h : List PlayerHistory) (y x : Nat)
    (f : PlayerHistory → PlayerHistory) (hf : ∀ e, (f e).player = e.player)
    (hp : ∀ e z, z ∈ e.partners → z ∈ (f e).partners) (z : Nat)
    (hz : z ∈ partnersOf h x) : z ∈ partnersOf (updHist h y f) x := by
  unfold partnersOf at hz ⊢
  rw [histLookup_updHist h y x f hf]
  cases hl : histLookup h x with
  | none => rw [hl] at hz; simp at hz
  | some e =>
    rw [hl] at hz
    by_cases hcase : e.player.id = y
    · simpa [hcase] using hp e z hz
    · simpa [hcase] using hz

theorem opponentsOf_updHist_mono (h : List PlayerHistory) (y x : Nat)
    (f : PlayerHistory → PlayerHistory) (hf : ∀ e, (f e).player = e.player)
    (hp : ∀ e z, z ∈ e.opponents → z ∈ (f e).opponents) (z : Nat)
    (hz : z ∈ opponentsOf h x) : z ∈ opponentsOf (updHist h y f) x := by
  unfold opponentsOf at hz ⊢
  rw [histLookup_updHist h y x f hf]
  cases hl : histLookup h x with
  | none => rw [hl] at hz; simp at hz
  | some e =>
    rw [hl] at hz
    by_cases hcase : e.player.id = y
    · simpa [hcase] using hp e z hz
    · simpa [hcase] using hz

theorem gamesOf_foldl_pres {β : Type} (l : List β)
    (step : List PlayerHistory → β → List PlayerHistory) (h : List PlayerHistory)
    (x : Nat) (hstep : ∀ h b, gamesOf (step h b) x = gamesOf h x) :
    gamesOf (l.foldl step h) x = gamesOf h x := by
  induction l generalizing h with
  | nil => rfl
  | cons b rest ih => rw [List.foldl_cons, ih, hstep]

theorem present_foldl_pres {β : Type} (l : List β)
    (step : List PlayerHistory → β → List PlayerHistory) (h : List PlayerHistory)
    (x : Nat) (hstep : ∀ h b, (histLookup (step h b) x).isSome = (histLookup h x).isSome) :
    (histLookup (l.foldl step h) x).isSome = (histLookup h x).isSome := by
  induction l generalizing h with
  | nil => rfl
  | cons b rest ih => rw [List.foldl_cons, ih, hstep]

theorem partnersOf_foldl_mono {β : Type} (l : List β)
    (step : List PlayerHistory → β → List PlayerHistory) (h : List PlayerHistory)
    (x z : Nat) (hstep : ∀ h b, z ∈ partnersOf h x → z ∈ partnersOf (step h b) x)
    (hz : z ∈ partnersOf h x) : z ∈ partnersOf (l.foldl step h) x := by
  induction l generalizing h with
  | nil => exact hz
  | cons b rest ih => exact ih _ (hstep _ _ hz)

theorem opponentsOf_foldl_mono {β : Type} (l : List β)
    (step : List PlayerHistory → β → List PlayerHistory) (h : List PlayerHistory)
    (x z : Nat) (hstep : ∀ h b, z ∈ opponentsOf h x → z ∈ opponentsOf (step h b) x)
    (hz : z ∈ opponentsOf h x) : z ∈ opponentsOf (l.foldl step h) x := by
  induction l generalizing h with
  | nil => exact hz
  | cons b rest ih => exact ih _ (hstep _ _ hz)

end RoundGenerator

namespace RoundGenerator

theorem gamesOf_addSidesStep (mt : Match) (h : List PlayerHistory) (i x : Nat) :
    gamesOf (addSidesStep mt h i) x = gamesOf h x := by
  simp only [addSidesStep]
  cases hget : mt.players.get? i with
  | none => rfl
  | some player =>
    dsimp only
    by_cases hh : hasHist h player.id = true
    case neg => rw [if_neg hh]
    rw [if_pos hh]
    refine Eq.trans (gamesOf_foldl_pres _ _ _ _ ?_) (gamesOf_foldl_pres _ _ _ _ ?_)
    · intro h' j
      cases mt.players.get? j with
      | none => rfl
      | some opp => exact gamesOf_updHist_pres _ _ _ _ (fun e => rfl) (fun e => rfl)
    · intro h' j
      by_cases hij : i ≠ j
      · simp only [if_pos hij]
        cases mt.players.get? j with
        | none => rfl
        | some partner => exact gamesOf_updHist_pres _ _ _ _ (fun e => rfl) (fun e => rfl)
      · simp only [if_neg hij]

theorem present_addSidesStep (mt : Match) (h : List PlayerHistory) (i x : Nat) :
    (histLookup (addSidesStep mt h i) x).isSome = (histLookup h x).isSome := by
  simp only [addSidesStep]
  cases hget : mt.players.get? i with
  | none => rfl
  | some player =>
    dsimp only
    by_cases hh : hasHist h player.id = true
    case neg => rw [if_neg hh]
    rw [if_pos hh]
    refine Eq.trans (present_foldl_pres _ _ _ _ ?_) (present_foldl_pres _ _ _ _ ?_)
    · intro h' j
      cases mt.players.get? j with
      | none => rfl
      | some opp => exact present_updHist _ _ _ _ (fun e => rfl)
    · intro h' j
      by_cases hij : i ≠ j
      · simp only [if_pos hij]
        cases mt.players.get? j with
        | none => rfl
        | some partner => exact present_updHist _ _ _ _ (fun e => rfl)
      · simp only [if_neg hij]

theorem partnersOf_addSidesStep_mono (mt : Match) (h : List PlayerHistory) (i x z : Nat)
    (hz : z ∈ partnersOf h x) : z ∈ partnersOf (addSidesStep mt h i) x := by
  simp only [addSidesStep]
  cases hget : mt.players.get? i with
  | none => exact hz
  | some player =>
    dsimp only
    by_cases hh : hasHist h player.id = true
    case neg => rw [if_neg hh]; exact hz
    rw [if_pos hh]
    refine partnersOf_foldl_mono _ _ _ _ _ ?_ (partnersOf_foldl_mono _ _ _ _ _ ?_ hz)
    · intro h' j hj
      cases mt.players.get? j with
      | none => exact hj
      | some opp =>
        dsimp only
        refine partnersOf_updHist_mono _ _ _ _ ?_ ?_ _ hj
        · intro e
          rfl
        · intro e z hm
          exact hm
    · intro h' j hj
      by_cases hij : i ≠ j
      · simp only [if_pos hij]
        cases mt.players.get? j with
        | none => exact hj
        | some partner =>
          dsimp only
          refine partnersOf_updHist_mono _ _ _ _ ?_ ?_ _ hj
          · intro e
            rfl
          · intro e z hm
            exact addId_mono _ _ _ hm
      · simpa only [if_neg hij] using hj

theorem opponentsOf_addSidesStep_mono (mt : Match) (h : List PlayerHistory) (i x z : Nat)
    (hz : z ∈ opponentsOf h x) : z ∈ opponentsOf (addSidesStep mt h i) x := by
  simp only [addSidesStep]
  cases hget : mt.players.get? i with
  | none => exact hz
  | some player =>
    dsimp only
    by_cases hh : hasHist h player.id = true
    case neg => rw [if_neg hh]; exact hz
    rw [if_pos hh]
    refine opponentsOf_foldl_mono _ _ _ _ _ ?_ (opponentsOf_foldl_mono _ _ _ _ _ ?_ hz)
    · intro h' j hj
      cases mt.players.get? j with
      | none => exact hj
      | some opp =>
        dsimp only
        refine opponentsOf_updHist_mono _ _ _ _ ?_ ?_ _ hj
        · intro e
          rfl
        · intro e z hm
          exact addId_mono _ _ _ hm
    · intro h' j hj
      by_cases hij : i ≠ j
      · simp only [if_pos hij]
        cases mt.players.get? j with
        | none => exact hj
        | some partner =>
          dsimp only
          refine opponentsOf_updHist_mono _ _ _ _ ?_ ?_ _ hj
          · intro e
            rfl
          · intro e z hm
            exact hm
      · simpa only [if_neg hij] using hj

theorem gamesOf_bumpGames (h : List PlayerHistory) (mt : Match) (x : Nat) :
    gamesOf (bumpGames h mt) x =
      gamesOf h x +
        (if (histLookup h x).isSome then (mt.players.filter (fun p => p.id = x)).length
         else 0) := by
  unfold bumpGames
  induction mt.players generalizing h with
  | nil => simp
  | cons p rest ih =>
    rw [List.foldl_cons, ih]
    have hfp : ∀ e : PlayerHistory,
        (({ e with gamesPlayed := e.gamesPlayed + 1 }) : PlayerHistory).player = e.player :=
      fun e => rfl
    have hpres := present_updHist h p.id x _ hfp
    have hstep : gamesOf (updHist h p.id
          (fun e => { e with gamesPlayed := e.gamesPlayed + 1 })) x =
        gamesOf h x + (if (histLookup h x).isSome ∧ p.id = x then 1 else 0) := by
      unfold gamesOf
      rw [histLookup_updHist h p.id x _ hfp]
      cases hl : histLookup h x with
      | none => simp
      | some e =>
        have hex : e.player.id = x := by
          have := List.find?_some hl
          simpa using this
        by_cases hpx : p.id = x
        · have hep : e.player.id = p.id := hex.trans hpx.symm
          simp [hep, hpx]
        · have hep : ¬e.player.id = p.id := fun hcase => hpx (hcase.symm.trans hex)
          simp [hep, hpx]
    rw [hstep, hpres, List.filter_cons]
    by_cases hpx : p.id = x <;> by_cases hpr : (histLookup h x).isSome <;>
      simp [hpx, hpr] <;> omega

theorem present_bumpGames (h : List PlayerHistory) (mt : Match) (x : Nat) :
    (histLookup (bumpGames h mt) x).isSome = (histLookup h x).isSome := by
  unfold bumpGames
  exact present_foldl_pres _ _ _ _ (fun h' p => present_updHist _ _ _ _ (fun e => rfl))

theorem partnersOf_bumpGames_mono (h : List PlayerHistory) (mt : Match) (x z : Nat)
    (hz : z ∈ partnersOf h x) : z ∈ partnersOf (bumpGames h mt) x := by
  unfold bumpGames
  refine partnersOf_foldl_mono _ _ _ _ _ ?_ hz
  intro h' p hj
  refine partnersOf_updHist_mono _ _ _ _ ?_ ?_ _ hj
  · intro e
    rfl
  · intro e z hm
    exact hm

theorem opponentsOf_bumpGames_mono (h : List PlayerHistory) (mt : Match) (x z : Nat)
    (hz : z ∈ opponentsOf h x) : z ∈ opponentsOf (bumpGames h mt) x := by
  unfold bumpGames
  refine opponentsOf_foldl_mono _ _ _ _ _ ?_ hz
  intro h' p hj
  refine opponentsOf_updHist_mono _ _ _ _ ?_ ?_ _ hj
  · intro e
    rfl
  · intro e z hm
    exact hm

theorem gamesOf_updatePlayerHistories (h : List PlayerHistory) (mt : Match) (x : Nat) :
    gamesOf (updatePlayerHistories h mt) x =
      gamesOf h x +
        (if (histLookup h x).isSome then (mt.players.filter (fun p => p.id = x)).length
         else 0) := by
  unfold updatePlayerHistories addSides
  rw [gamesOf_foldl_pres _ _ _ _ (fun h' i => gamesOf_addSidesStep mt h' i x),
    gamesOf_bumpGames]

theorem present_updatePlayerHistories (h : List PlayerHistory) (mt : Match) (x : Nat) :
    (histLookup (updatePlayerHistories h mt) x).isSome = (histLookup h x).isSome := by
  unfold updatePlayerHistories addSides
  rw [present_foldl_pres _ _ _ _ (fun h' i => present_addSidesStep mt h' i x),
    present_bumpGames]

theorem partnersOf_updatePlayerHistories_mono (h : List PlayerHistory) (mt : Match)
    (x z : Nat) (hz : z ∈ partnersOf h x) :
    z ∈ partnersOf (updatePlayerHistories h mt) x := by
  unfold updatePlayerHistories addSides
  exact partnersOf_foldl_mono _ _ _ _ _
    (fun h' i => partnersOf_addSidesStep_mono mt h' i x z)
    (partnersOf_bumpGames_mono h mt x z hz)

theorem opponentsOf_updatePlayerHistories_mono (h : List PlayerHistory) (mt : Match)
    (x z : Nat) (hz : z ∈ opponentsOf h x) :
    z ∈ opponentsOf (updatePlayerHistories h mt) x := by
  unfold updatePlayerHistories addSides
  exact opponentsOf_foldl_mono _ _ _ _ _
    (fun h' i => opponentsOf_addSidesStep_mono mt h' i x z)
    (opponentsOf_bumpGames_mono h mt x z hz)

end RoundGenerator

namespace RoundGenerator

theorem hasHist_eq_isSome (h : List PlayerHistory) (x : Nat) :
    hasHist h x = (histLookup h x).isSome := by
  induction h with
  | nil => rfl
  | cons e rest ih =>
    simp only [hasHist, histLookup, List.any_cons, List.find?_cons] at ih ⊢
    by_cases he : e.player.id = x <;> simp [he, ih]

theorem generateRoundGo_histories (shuffled : List Player) (g : Nat → Nat → Nat → Nat)
    (sideRng : Nat → Bool) (idGen : Nat → Nat) :
    ∀ (fuel court : Nat) (h : List PlayerHistory),
      (generateRoundGo shuffled g sideRng idGen fuel court h).2 =
        ((generateRoundGo shuffled g sideRng idGen fuel court h).1).foldl
          updatePlayerHistories h := by
  intro fuel
  induction fuel with
  | zero => intro court h; rfl
  | succ n ih =>
    intro court h
    simp only [generateRoundGo, List.foldl_cons]
    exact ih (court + 1) _

theorem present_fold_matches (ms : List Match) (H : List PlayerHistory) (x : Nat) :
    (histLookup (ms.foldl updatePlayerHistories H) x).isSome =
      (histLookup H x).isSome := by
  induction ms generalizing H with
  | nil => rfl
  | cons mt rest ih => rw [List.foldl_cons, ih, present_updatePlayerHistories]

theorem gamesOf_fold_matches (ms : List Match) (H : List PlayerHistory) (x : Nat)
    (hx : (histLookup H x).isSome = true) :
    gamesOf (ms.foldl updatePlayerHistories H) x = gamesOf H x + occurrences ms x := by
  induction ms generalizing H with
  | nil => simp [occurrences]
  | cons mt rest ih =>
    rw [List.foldl_cons, ih _ (by rw [present_updatePlayerHistories, hx]),
      gamesOf_updatePlayerHistories, if_pos hx]
    have hocc : occurrences (mt :: rest) x =
        (mt.players.filter (fun p => p.id = x)).length + occurrences rest x := by
      simp [occurrences]
    rw [hocc]
    omega

theorem partnersOf_fold_matches_mono (ms : List Match) (H : List PlayerHistory)
    (x z : Nat) (hz : z ∈ partnersOf H x) :
    z ∈ partnersOf (ms.foldl updatePlayerHistories H) x := by
  induction ms generalizing H with
  | nil => exact hz
  | cons mt rest ih =>
    rw [List.foldl_cons]
    exact ih _ (partnersOf_updatePlayerHistories_mono H mt x z hz)

theorem opponentsOf_fold_matches_mono (ms : List Match) (H : List PlayerHistory)
    (x z : Nat) (hz : z ∈ opponentsOf H x) :
    z ∈ opponentsOf (ms.foldl updatePlayerHistories H) x := by
  induction ms generalizing H with
  | nil => exact hz
  | cons mt rest ih =>
    rw [List.foldl_cons]
    exact ih _ (opponentsOf_updatePlayerHistories_mono H mt x z hz)

theorem partnersOf_updHist_self (h : List PlayerHistory) (x z : Nat)
    (hx : (histLookup h x).isSome = true) :
    z ∈ partnersOf (updHist h x (fun e => { e with partners := addId e.partners z })) x := by
  unfold partnersOf
  rw [histLookup_updHist h x x (fun e => { e with partners := addId e.partners z })
    (fun e => rfl)]
  cases hl : histLookup h x with
  | none => rw [hl] at hx; simp at hx
  | some e =>
    have hex : e.player.id = x := by
      have := List.find?_some hl
      simpa using this
    simp [hex, mem_addId]

theorem opponentsOf_updHist_self (h : List PlayerHistory) (x z : Nat)
    (hx : (histLookup h x).isSome = true) :
    z ∈ opponentsOf (updHist h x (fun e => { e with opponents := addId e.opponents z })) x := by
  unfold opponentsOf
  rw [histLookup_updHist h x x (fun e => { e with opponents := addId e.opponents z })
    (fun e => rfl)]
  cases hl : histLookup h x with
  | none => rw [hl] at hx; simp at hx
  | some e =>
    have hex : e.player.id = x := by
      have := List.find?_some hl
      simpa using this
    simp [hex, mem_addId]

end RoundGenerator

namespace RoundGenerator

/-- Folding a doubles match `[a, b, c, d]` into the histories records
`b` as partner and `c`, `d` as opponents on `a`'s own entry. -/
theorem updatePlayerHistories_abcd (h : List PlayerHistory) (mt : Match)
    (a b c d : Player) (hmt : mt.players = [a, b, c, d])
    (ha : (histLookup h a.id).isSome = true) :
    b.id ∈ partnersOf (updatePlayerHistories h mt) a.id ∧
      c.id ∈ opponentsOf (updatePlayerHistories h mt) a.id ∧
      d.id ∈ opponentsOf (updatePlayerHistories h mt) a.id := by
  have hrange : List.range mt.players.length = [0, 1, 2, 3] := by
    rw [hmt]
    rfl
  have hupd : updatePlayerHistories h mt =
      addSidesStep mt (addSidesStep mt (addSidesStep mt
        (addSidesStep mt (bumpGames h mt) 0) 1) 2) 3 := by
    rw [updatePlayerHistories, addSides, hrange]
    rfl
  have hpres : (histLookup (bumpGames h mt) a.id).isSome = true := by
    rw [present_bumpGames, ha]
  have hh : hasHist (bumpGames h mt) a.id = true := by
    rw [hasHist_eq_isSome, hpres]
  have h0 : addSidesStep mt (bumpGames h mt) 0 =
      updHist (updHist (updHist (bumpGames h mt) a.id
        (fun e => { e with partners := addId e.partners b.id })) a.id
        (fun e => { e with opponents := addId e.opponents c.id })) a.id
        (fun e => { e with opponents := addId e.opponents d.id }) := by
    simp only [addSidesStep, hmt]
    norm_num [hh, List.range', List.getElem?_cons_zero, List.getElem?_cons_succ]
  have hpres1 : (histLookup (updHist (bumpGames h mt) a.id
      (fun e => { e with partners := addId e.partners b.id })) a.id).isSome = true := by
    rw [present_updHist (bumpGames h mt) a.id a.id
      (fun e => { e with partners := addId e.partners b.id }) (fun e => rfl), hpres]
  have hpres2 : (histLookup (updHist (updHist (bumpGames h mt) a.id
      (fun e => { e with partners := addId e.partners b.id })) a.id
      (fun e => { e with opponents := addId e.opponents c.id })) a.id).isSome = true := by
    rw [present_updHist _ a.id a.id
      (fun e => { e with opponents := addId e.opponents c.id }) (fun e => rfl), hpres1]
  have hb : b.id ∈ partnersOf (addSidesStep mt (bumpGames h mt) 0) a.id := by
    rw [h0]
    refine partnersOf_updHist_mono _ _ _ _ ?_ ?_ _ ?_
    · intro e
      rfl
    · intro e z hm
      exact hm
    refine partnersOf_updHist_mono _ _ _ _ ?_ ?_ _ ?_
    · intro e
      rfl
    · intro e z hm
      exact hm
    exact partnersOf_updHist_self _ _ _ hpres
  have hc : c.id ∈ opponentsOf (addSidesStep mt (bumpGames h mt) 0) a.id := by
    rw [h0]
    refine opponentsOf_updHist_mono _ _ _ _ ?_ ?_ _ ?_
    · intro e
      rfl
    · intro e z hm
      exact addId_mono _ _ _ hm
    exact opponentsOf_updHist_self _ _ _ hpres1
  have hd : d.id ∈ opponentsOf (addSidesStep mt (bumpGames h mt) 0) a.id := by
    rw [h0]
    exact opponentsOf_updHist_self _ _ _ hpres2
  rw [hupd]
  refine ⟨?_, ?_, ?_⟩
  · exact partnersOf_addSidesStep_mono _ _ _ _ _
      (partnersOf_addSidesStep_mono _ _ _ _ _ (partnersOf_addSidesStep_mono _ _ _ _ _ hb))
  · exact opponentsOf_addSidesStep_mono _ _ _ _ _
      (opponentsOf_addSidesStep_mono _ _ _ _ _ (opponentsOf_addSidesStep_mono _ _ _ _ _ hc))
  · exact opponentsOf_addSidesStep_mono _ _ _ _ _
      (opponentsOf_addSidesStep_mono _ _ _ _ _ (opponentsOf_addSidesStep_mono _ _ _ _ _ hd))

/-- Folding a list of matches records the sides of any member doubles
match. -/
theorem fold_matches_abcd (ms : List Match) (H : List PlayerHistory) (mt : Match)
    (hm : mt ∈ ms) (a b c d : Player) (hmt : mt.players = [a, b, c, d])
    (ha : (histLookup H a.id).isSome = true) :
    b.id ∈ partnersOf (ms.foldl updatePlayerHistories H) a.id ∧
      c.id ∈ opponentsOf (ms.foldl updatePlayerHistories H) a.id ∧
      d.id ∈ opponentsOf (ms.foldl updatePlayerHistories H) a.id := by
  obtain ⟨l1, l2, rfl⟩ := List.append_of_mem hm
  rw [List.foldl_append, List.foldl_cons]
  have ha1 : (histLookup (l1.foldl updatePlayerHistories H) a.id).isSome = true := by
    rw [present_fold_matches, ha]
  have habcd := updatePlayerHistories_abcd (l1.foldl updatePlayerHistories H) mt a b c d
    hmt ha1
  exact ⟨partnersOf_fold_matches_mono _ _ _ _ habcd.1,
    opponentsOf_fold_matches_mono _ _ _ _ habcd.2.1,
    opponentsOf_fold_matches_mono _ _ _ _ habcd.2.2⟩

end RoundGenerator

namespace RoundGenerator

/-- C10: generating a round already folds every produced match into the
player histories (games-played incremented by the player's occurrences,
the teammate recorded as partner and the cross-side players as
opponents), so folding the same matches again when the round is
advanced — as `generateNextRound` does with the completed matches —
counts each match twice. -/
theorem c10_generation_mutates_histories (players : List Player) (numberOfCourts : Nat)
    (h0 : List PlayerHistory) (roundRng : Nat → Nat) (g : Nat → Nat → Nat → Nat)
    (sideRng : Nat → Bool) (idGen : Nat → Nat) (x : Nat)
    (hx : (histLookup h0 x).isSome = true) (mt : Match) (a b c d : Player)
    (hm : mt ∈ (generateRound players numberOfCourts h0 roundRng g sideRng idGen).1)
    (hmt : mt.players = [a, b, c, d])
    (hax : (histLookup h0 a.id).isSome = true) :
    gamesOf (generateRound players numberOfCourts h0 roundRng g sideRng idGen).2 x =
        gamesOf h0 x +
          occurrences (generateRound players numberOfCourts h0 roundRng g sideRng idGen).1
            x ∧
      b.id ∈ partnersOf
        (generateRound players numberOfCourts h0 roundRng g sideRng idGen).2 a.id ∧
      c.id ∈ opponentsOf
        (generateRound players numberOfCourts h0 roundRng g sideRng idGen).2 a.id ∧
      d.id ∈ opponentsOf
        (generateRound players numberOfCourts h0 roundRng g sideRng idGen).2 a.id ∧
      gamesOf
          (((generateRound players numberOfCourts h0 roundRng g sideRng idGen).1).foldl
            updatePlayerHistories
            (generateRound players numberOfCourts h0 roundRng g sideRng idGen).2) x =
        gamesOf h0 x +
          2 * occurrences
            (generateRound players numberOfCourts h0 roundRng g sideRng idGen).1 x := by
  have hfold : (generateRound players numberOfCourts h0 roundRng g sideRng idGen).2 =
      ((generateRound players numberOfCourts h0 roundRng g sideRng idGen).1).foldl
        updatePlayerHistories h0 := by
    simp only [generateRound]
    split
    · rfl
    · exact generateRoundGo_histories _ _ _ _ _ _ _
  refine ⟨?_, ?_, ?_, ?_, ?_⟩
  · rw [hfold]
    exact gamesOf_fold_matches _ _ _ hx
  · rw [hfold]
    exact (fold_matches_abcd _ _ _ hm _ _ _ _ hmt hax).1
  · rw [hfold]
    exact (fold_matches_abcd _ _ _ hm _ _ _ _ hmt hax).2.1
  · rw [hfold]
    exact (fold_matches_abcd _ _ _ hm _ _ _ _ hmt hax).2.2
  · rw [hfold]
    rw [gamesOf_fold_matches _ _ _ (by rw [present_fold_matches, hx]),
      gamesOf_fold_matches _ _ _ hx]
    omega

end RoundGenerator

/-- Witness for C10 at a concrete one-court round over four fresh
players. -/
theorem c10_witness :
    RoundGenerator.gamesOf (RoundGenerator.generateRound [] 1
        [RoundGenerator.createPlayerHistory (tp 0), RoundGenerator.createPlayerHistory (tp 1),
         RoundGenerator.createPlayerHistory (tp 2), RoundGenerator.createPlayerHistory (tp 3)]
        (fun _ => 0) (fun _ _ _ => 0) (fun _ => true) (fun c => c)).2 0 =
      RoundGenerator.gamesOf
          [RoundGenerator.createPlayerHistory (tp 0), RoundGenerator.createPlayerHistory (tp 1),
           RoundGenerator.createPlayerHistory (tp 2), RoundGenerator.createPlayerHistory (tp 3)]
          0 +
        occurrences (RoundGenerator.generateRound [] 1
          [RoundGenerator.createPlayerHistory (tp 0), RoundGenerator.createPlayerHistory (tp 1),
           RoundGenerator.createPlayerHistory (tp 2), RoundGenerator.createPlayerHistory (tp 3)]
          (fun _ => 0) (fun _ _ _ => 0) (fun _ => true) (fun c => c)).1 0 ∧
      (tp 3).id ∈ RoundGenerator.partnersOf (RoundGenerator.generateRound [] 1
        [RoundGenerator.createPlayerHistory (tp 0), RoundGenerator.createPlayerHistory (tp 1),
         RoundGenerator.createPlayerHistory (tp 2), RoundGenerator.createPlayerHistory (tp 3)]
        (fun _ => 0) (fun _ _ _ => 0) (fun _ => true) (fun c => c)).2 (tp 2).id ∧
      (tp 0).id ∈ RoundGenerator.opponentsOf (RoundGenerator.generateRound [] 1
        [RoundGenerator.createPlayerHistory (tp 0), RoundGenerator.createPlayerHistory (tp 1),
         RoundGenerator.createPlayerHistory (tp 2), RoundGenerator.createPlayerHistory (tp 3)]
        (fun _ => 0) (fun _ _ _ => 0) (fun _ => true) (fun c => c)).2 (tp 2).id ∧
      (tp 1).id ∈ RoundGenerator.opponentsOf (RoundGenerator.generateRound [] 1
        [RoundGenerator.createPlayerHistory (tp 0), RoundGenerator.createPlayerHistory (tp 1),
         RoundGenerator.createPlayerHistory (tp 2), RoundGenerator.createPlayerHistory (tp 3)]
        (fun _ => 0) (fun _ _ _ => 0) (fun _ => true) (fun c => c)).2 (tp 2).id ∧
      RoundGenerator.gamesOf
          (((RoundGenerator.generateRound [] 1
            [RoundGenerator.createPlayerHistory (tp 0), RoundGenerator.createPlayerHistory (tp 1),
             RoundGenerator.createPlayerHistory (tp 2), RoundGenerator.createPlayerHistory (tp 3)]
            (fun _ => 0) (fun _ _ _ => 0) (fun _ => true) (fun c => c)).1).foldl
            RoundGenerator.updatePlayerHistories
            (RoundGenerator.generateRound [] 1
              [RoundGenerator.createPlayerHistory (tp 0), RoundGenerator.createPlayerHistory (tp 1),
               RoundGenerator.createPlayerHistory (tp 2), RoundGenerator.createPlayerHistory (tp 3)]
              (fun _ => 0) (fun _ _ _ => 0) (fun _ => true) (fun c => c)).2) 0 =
        RoundGenerator.gamesOf
            [RoundGenerator.createPlayerHistory (tp 0), RoundGenerator.createPlayerHistory (tp 1),
             RoundGenerator.createPlayerHistory (tp 2), RoundGenerator.createPlayerHistory (tp 3)]
            0 +
          2 * occurrences (RoundGenerator.generateRound [] 1
            [RoundGenerator.createPlayerHistory (tp 0), RoundGenerator.createPlayerHistory (tp 1),
             RoundGenerator.createPlayerHistory (tp 2), RoundGenerator.createPlayerHistory (tp 3)]
            (fun _ => 0) (fun _ _ _ => 0) (fun _ => true) (fun c => c)).1 0 := by
  exact RoundGenerator.c10_generation_mutates_histories [] 1
    [RoundGenerator.createPlayerHistory (tp 0), RoundGenerator.createPlayerHistory (tp 1),
     RoundGenerator.createPlayerHistory (tp 2), RoundGenerator.createPlayerHistory (tp 3)]
    (fun _ => 0) (fun _ _ _ => 0) (fun _ => true) (fun c => c) 0 (by decide)
    ⟨1, [tp 2, tp 3, tp 0, tp 1], 1, Side.left⟩ (tp 2) (tp 3) (tp 0) (tp 1)
    (by decide) rfl (by decide)

/-- C5: completing a match and then undoing it restores the page
ledger exactly: the doubles/singles counts, the completed-match list,
the per-match states, and hence the derived pairing frequencies and
partner/opponent sets, all equal their prior values.  The hypotheses
say the id names a pending match (with no completion timestamp) and
does not occur among the already-completed matches, which is how the
page maintains its state. -/
theorem c5_record_unrecord (s : MatchesPage.PageState) (matchId now nowL : Nat)
    (roster : List Player) (ms0 : MatchesPage.MatchState)
    (hfind : s.matchStates.find? (fun ms => ms.matchVal.id = matchId) = some ms0)
    (hpend : ms0.completed = false)
    (hall : ∀ ms ∈ s.matchStates, ms.matchVal.id = matchId →
      ms.completed = false ∧ ms.completedAt = none)
    (hnotin : ∀ m ∈ s.allCompletedMatches, m.id ≠ matchId) :
    (MatchesPage.handleUndo (MatchesPage.handleMatchComplete s matchId now)).playerStats =
        s.playerStats ∧
      (MatchesPage.handleUndo
          (MatchesPage.handleMatchComplete s matchId now)).allCompletedMatches =
        s.allCompletedMatches ∧
      (MatchesPage.handleUndo (MatchesPage.handleMatchComplete s matchId now)).matchStates =
        s.matchStates ∧
      (∀ a b : Nat,
        pairFrequency
            (MatchesPage.handleUndo
              (MatchesPage.handleMatchComplete s matchId now)).allCompletedMatches a b =
          pairFrequency s.allCompletedMatches a b) ∧
      MatchGenerator.mkParticipationMap roster
          (MatchesPage.handleUndo
            (MatchesPage.handleMatchComplete s matchId now)).allCompletedMatches nowL =
        MatchGenerator.mkParticipationMap roster s.allCompletedMatches nowL := by
  have hid : ms0.matchVal.id = matchId := by
    have := List.find?_some hfind
    simpa using this
  have hnc : ¬ms0.completed = true := by
    rw [hpend]
    simp
  rw [MatchesPage.handleMatchComplete, hfind]
  dsimp only
  rw [if_neg hnc]
  rw [MatchesPage.handleUndo]
  dsimp only
  have hstats : (s.playerStats.map (fun stat =>
        if ms0.matchVal.players.any (fun p => p.id = stat.player.id) = true then
          if ms0.matchVal.players.length = 4 then
            { stat with doublesMatchesPlayed := stat.doublesMatchesPlayed + 1 }
          else { stat with singlesMatchesPlayed := stat.singlesMatchesPlayed + 1 }
        else stat)).map (fun stat =>
        if ms0.matchVal.players.any (fun p => p.id = stat.player.id) = true then
          if ms0.matchVal.players.length = 4 then
            { stat with doublesMatchesPlayed := stat.doublesMatchesPlayed - 1 }
          else { stat with singlesMatchesPlayed := stat.singlesMatchesPlayed - 1 }
        else stat) = s.playerStats := by
    rw [List.map_map]
    have hpt : ∀ stat ∈ s.playerStats,
        ((fun stat : MatchesPage.PlayerStats =>
          if ms0.matchVal.players.any (fun p => p.id = stat.player.id) = true then
            if ms0.matchVal.players.length = 4 then
              { stat with doublesMatchesPlayed := stat.doublesMatchesPlayed - 1 }
            else { stat with singlesMatchesPlayed := stat.singlesMatchesPlayed - 1 }
          else stat) ∘ (fun stat =>
          if ms0.matchVal.players.any (fun p => p.id = stat.player.id) = true then
            if ms0.matchVal.players.length = 4 then
              { stat with doublesMatchesPlayed := stat.doublesMatchesPlayed + 1 }
            else { stat with singlesMatchesPlayed := stat.singlesMatchesPlayed + 1 }
          else stat)) stat = stat := by
      intro stat hstat
      obtain ⟨pl, dd, ss⟩ := stat
      simp only [Function.comp]
      by_cases hin : ms0.matchVal.players.any (fun p => p.id = pl.id) = true
      · by_cases h4 : ms0.matchVal.players.length = 4
        · simp [hin, h4]
        · simp [hin, h4]
      · simp [hin]
    rw [List.map_congr_left hpt]
    simp
  have hmatches : ((s.allCompletedMatches ++ [ms0.matchVal]).filter
      (fun m => m.id ≠ ms0.matchVal.id)) = s.allCompletedMatches := by
    rw [List.filter_append]
    have h1 : s.allCompletedMatches.filter (fun m => m.id ≠ ms0.matchVal.id) =
        s.allCompletedMatches := by
      refine List.filter_eq_self.mpr ?_
      intro m hmem
      have := hnotin m hmem
      simp [hid, this]
    have h2 : ([ms0.matchVal].filter (fun m => m.id ≠ ms0.matchVal.id)) = [] := by
      simp
    rw [h1, h2, List.append_nil]
  have hms : (s.matchStates.map (fun ms =>
        if ms.matchVal.id = matchId then
          { ms with completed := true, completedAt := some now }
        else ms)).map (fun ms =>
        if ms.matchVal.id = ms0.matchVal.id then
          { ms with completed := false, completedAt := none }
        else ms) = s.matchStates := by
    rw [List.map_map]
    have hpt : ∀ ms ∈ s.matchStates,
        ((fun ms : MatchesPage.MatchState =>
          if ms.matchVal.id = ms0.matchVal.id then
            { ms with completed := false, completedAt := none }
          else ms) ∘ (fun ms =>
          if ms.matchVal.id = matchId then
            { ms with completed := true, completedAt := some now }
          else ms)) ms = ms := by
      intro ms hmem
      obtain ⟨mv, cflag, cat, rnd⟩ := ms
      simp only [Function.comp]
      by_cases hcase : mv.id = matchId
      · have hflags := hall ⟨mv, cflag, cat, rnd⟩ hmem hcase
        have hc2 : mv.id = ms0.matchVal.id := hcase.trans hid.symm
        simp only at hflags
        simp [hcase, hc2, hflags.1, hflags.2, hid.symm]
      · have hc2 : ¬mv.id = ms0.matchVal.id := fun hcontra => hcase (hcontra.trans hid)
        simp [hcase, hc2]
    rw [List.map_congr_left hpt]
    simp
  refine ⟨hstats, hmatches, hms, ?_, ?_⟩
  · intro a b
    rw [hmatches]
  · rw [hmatches]

/-- Witness for C5 at a concrete page state with one pending singles
match. -/
theorem c5_witness :
    (MatchesPage.handleUndo (MatchesPage.handleMatchComplete
        ⟨[⟨⟨5, [tp 0, tp 1], 1, Side.left⟩, false, none, 1⟩],
         [⟨tp 0, 0, 0⟩, ⟨tp 1, 0, 0⟩], [], none⟩ 5 77)).playerStats =
        [⟨tp 0, 0, 0⟩, ⟨tp 1, 0, 0⟩] ∧
      (MatchesPage.handleUndo (MatchesPage.handleMatchComplete
        ⟨[⟨⟨5, [tp 0, tp 1], 1, Side.left⟩, false, none, 1⟩],
         [⟨tp 0, 0, 0⟩, ⟨tp 1, 0, 0⟩], [], none⟩ 5 77)).allCompletedMatches = [] ∧
      (MatchesPage.handleUndo (MatchesPage.handleMatchComplete
        ⟨[⟨⟨5, [tp 0, tp 1], 1, Side.left⟩, false, none, 1⟩],
         [⟨tp 0, 0, 0⟩, ⟨tp 1, 0, 0⟩], [], none⟩ 5 77)).matchStates =
        [⟨⟨5, [tp 0, tp 1], 1, Side.left⟩, false, none, 1⟩] ∧
      (∀ a b : Nat,
        pairFrequency (MatchesPage.handleUndo (MatchesPage.handleMatchComplete
          ⟨[⟨⟨5, [tp 0, tp 1], 1, Side.left⟩, false, none, 1⟩],
           [⟨tp 0, 0, 0⟩, ⟨tp 1, 0, 0⟩], [], none⟩ 5 77)).allCompletedMatches a b =
          pairFrequency ([] : List Match) a b) ∧
      MatchGenerator.mkParticipationMap [tp 0, tp 1]
          (MatchesPage.handleUndo (MatchesPage.handleMatchComplete
            ⟨[⟨⟨5, [tp 0, tp 1], 1, Side.left⟩, false, none, 1⟩],
             [⟨tp 0, 0, 0⟩, ⟨tp 1, 0, 0⟩], [], none⟩ 5 77)).allCompletedMatches 9 =
        MatchGenerator.mkParticipationMap [tp 0, tp 1] ([] : List Match) 9 := by
  exact c5_record_unrecord
    ⟨[⟨⟨5, [tp 0, tp 1], 1, Side.left⟩, false, none, 1⟩],
     [⟨tp 0, 0, 0⟩, ⟨tp 1, 0, 0⟩], [], none⟩ 5 77 9 [tp 0, tp 1]
    ⟨⟨5, [tp 0, tp 1], 1, Side.left⟩, false, none, 1⟩ (by decide) rfl (by decide)
    (by decide)

namespace MatchGenerator

theorem hasId_eq_isSome (pm : List PlayerParticipation) (x : Nat) :
    hasId pm x = (lookupPart pm x).isSome := by
  induction pm with
  | nil => rfl
  | cons e rest ih =>
    simp only [hasId, lookupPart, List.any_cons, List.find?_cons] at ih ⊢
    by_cases he : e.player.id = x <;> simp [he, ih]

theorem lookupPart_updAt_eq (pm : List PlayerParticipation) (y a : Nat)
    (f : PlayerParticipation → PlayerParticipation)
    (hf : ∀ e, (f e).player = e.player) :
    lookupPart (updAt pm y f) a =
      if a = y then (lookupPart pm a).map f else lookupPart pm a := by
  rw [lookupPart_updAt pm y a f hf]
  cases hl : lookupPart pm a with
  | none => cases hay : decide (a = y) <;> simp
  | some e =>
    have hea : e.player.id = a := by
      have := List.find?_some hl
      simpa using this
    by_cases hay : a = y
    · simp [hea, hay]
    · simp [hea, hay]

theorem lookupPart_addPartners (pm : List PlayerParticipation) (x y a : Nat)
    (hguard : (hasId pm x && hasId pm y) = true) (hxy : x ≠ y) :
    lookupPart (addPartners pm x y) a =
      if a = y then (lookupPart pm a).map (fun e => { e with partners := addId e.partners x })
      else if a = x then
        (lookupPart pm a).map (fun e => { e with partners := addId e.partners y })
      else lookupPart pm a := by
  rw [addPartners, if_pos hguard]
  rw [lookupPart_updAt_eq _ y a (fun e => { e with partners := addId e.partners x })
    (fun e => rfl)]
  rw [lookupPart_updAt_eq _ x a (fun e => { e with partners := addId e.partners y })
    (fun e => rfl)]
  by_cases hay : a = y
  · have hax : ¬a = x := fun hcontra => hxy (hcontra.symm.trans hay)
    simp [hay, hax, Ne.symm hxy]
  · by_cases hax : a = x <;> simp [hay, hax, hxy]

theorem lookupPart_addOpponents (pm : List PlayerParticipation) (x y a : Nat)
    (hguard : (hasId pm x && hasId pm y) = true) (hxy : x ≠ y) :
    lookupPart (addOpponents pm x y) a =
      if a = y then
        (lookupPart pm a).map (fun e => { e with opponents := addId e.opponents x })
      else if a = x then
        (lookupPart pm a).map (fun e => { e with opponents := addId e.opponents y })
      else lookupPart pm a := by
  rw [addOpponents, if_pos hguard]
  rw [lookupPart_updAt_eq _ y a (fun e => { e with opponents := addId e.opponents x })
    (fun e => rfl)]
  rw [lookupPart_updAt_eq _ x a (fun e => { e with opponents := addId e.opponents y })
    (fun e => rfl)]
  by_cases hay : a = y
  · have hax : ¬a = x := fun hcontra => hxy (hcontra.symm.trans hay)
    simp [hay, hax, Ne.symm hxy]
  · by_cases hax : a = x <;> simp [hay, hax, hxy]

theorem present_mkParticipationMap (roster : List Player) (ms : List Match) (now x : Nat) :
    (lookupPart (mkParticipationMap roster ms now) x).isSome =
      roster.any (fun p => p.id = x) := by
  rw [mkParticipationMap]
  have h : ∀ pm0, (lookupPart (ms.foldl (countMatch now) pm0) x).isSome =
      (lookupPart pm0 x).isSome := by
    induction ms with
    | nil => intro pm0; rfl
    | cons mt rest ih =>
      intro pm0
      rw [List.foldl_cons, ih, present_countMatch]
  rw [h, present_initParticipation]

end MatchGenerator

theorem pairKey_eq_iff (a b c d : Nat) :
    pairKey a b = pairKey c d ↔ ((a = c ∧ b = d) ∨ (a = d ∧ b = c)) := by
  unfold pairKey
  rw [Prod.mk.injEq]
  constructor
  · intro h
    omega
  · intro h
    rcases h with ⟨h1, h2⟩ | ⟨h1, h2⟩ <;> subst h1 <;> subst h2 <;> constructor <;> omega

namespace MatchGenerator

theorem bumpCount_player (now : Nat) (isD : Bool) :
    ∀ e, (bumpCount now isD e).player = e.player := by
  intro e
  unfold bumpCount
  split <;> rfl

/-- Counting one doubles match `[a, b, c, d]` (distinct ids, all
present): each participant's entry gains a doubles game, the teammate
as partner, the cross-side players as opponents, and the timestamp;
every other entry is untouched. -/
theorem lookupPart_countMatch_abcd (pm : List PlayerParticipation) (now : Nat)
    (mt : Match) (a b c d : Player) (hmt : mt.players = [a, b, c, d])
    (hab : a.id ≠ b.id) (hac : a.id ≠ c.id) (had : a.id ≠ d.id)
    (hbc : b.id ≠ c.id) (hbd : b.id ≠ d.id) (hcd : c.id ≠ d.id)
    (hpa : (lookupPart pm a.id).isSome = true) (hpb : (lookupPart pm b.id).isSome = true)
    (hpc : (lookupPart pm c.id).isSome = true)
    (hpd : (lookupPart pm d.id).isSome = true) :
    lookupPart (countMatch now pm mt) a.id =
        (lookupPart pm a.id).map (fun e =>
          { e with doublesMatchesPlayed := e.doublesMatchesPlayed + 1,
                   lastPlayed := some now,
                   partners := addId e.partners b.id,
                   opponents := addId (addId e.opponents c.id) d.id }) ∧
      lookupPart (countMatch now pm mt) b.id =
        (lookupPart pm b.id).map (fun e =>
          { e with doublesMatchesPlayed := e.doublesMatchesPlayed + 1,
                   lastPlayed := some now,
                   partners := addId e.partners a.id,
                   opponents := addId (addId e.opponents c.id) d.id }) ∧
      lookupPart (countMatch now pm mt) c.id =
        (lookupPart pm c.id).map (fun e =>
          { e with doublesMatchesPlayed := e.doublesMatchesPlayed + 1,
                   lastPlayed := some now,
                   partners := addId e.partners d.id,
                   opponents := addId (addId e.opponents a.id) b.id }) ∧
      lookupPart (countMatch now pm mt) d.id =
        (lookupPart pm d.id).map (fun e =>
          { e with doublesMatchesPlayed := e.doublesMatchesPlayed + 1,
                   lastPlayed := some now,
                   partners := addId e.partners c.id,
                   opponents := addId (addId e.opponents a.id) b.id }) ∧
      (∀ x, x ≠ a.id → x ≠ b.id → x ≠ c.id → x ≠ d.id →
        lookupPart (countMatch now pm mt) x = lookupPart pm x) := by
  refine ⟨?_, ?_, ?_, ?_, ?_⟩
  · cases hl : lookupPart pm a.id with
    | none => rw [hl] at hpa; simp at hpa
    | some e =>
      simp [countMatch, hmt, partnerPhase, List.foldl_cons, List.foldl_nil,
        lookupPart_addPartners, lookupPart_addOpponents, lookupPart_updAt_eq,
        bumpCount_player, hab, hac, had, hbc, hbd, hcd, Ne.symm hab, Ne.symm hac,
        Ne.symm had, Ne.symm hbc, Ne.symm hbd, Ne.symm hcd, hasId_eq_isSome,
        present_addPartners, present_addOpponents, hpa, hpb, hpc, hpd, hl, bumpCount]
  · cases hl : lookupPart pm b.id with
    | none => rw [hl] at hpb; simp at hpb
    | some e =>
      simp [countMatch, hmt, partnerPhase, List.foldl_cons, List.foldl_nil,
        lookupPart_addPartners, lookupPart_addOpponents, lookupPart_updAt_eq,
        bumpCount_player, hab, hac, had, hbc, hbd, hcd, Ne.symm hab, Ne.symm hac,
        Ne.symm had, Ne.symm hbc, Ne.symm hbd, Ne.symm hcd, hasId_eq_isSome,
        present_addPartners, present_addOpponents, hpa, hpb, hpc, hpd, hl, bumpCount]
  · cases hl : lookupPart pm c.id with
    | none => rw [hl] at hpc; simp at hpc
    | some e =>
      simp [countMatch, hmt, partnerPhase, List.foldl_cons, List.foldl_nil,
        lookupPart_addPartners, lookupPart_addOpponents, lookupPart_updAt_eq,
        bumpCount_player, hab, hac, had, hbc, hbd, hcd, Ne.symm hab, Ne.symm hac,
        Ne.symm had, Ne.symm hbc, Ne.symm hbd, Ne.symm hcd, hasId_eq_isSome,
        present_addPartners, present_addOpponents, hpa, hpb, hpc, hpd, hl, bumpCount]
  · cases hl : lookupPart pm d.id with
    | none => rw [hl] at hpd; simp at hpd
    | some e =>
      simp [countMatch, hmt, partnerPhase, List.foldl_cons, List.foldl_nil,
        lookupPart_addPartners, lookupPart_addOpponents, lookupPart_updAt_eq,
        bumpCount_player, hab, hac, had, hbc, hbd, hcd, Ne.symm hab, Ne.symm hac,
        Ne.symm had, Ne.symm hbc, Ne.symm hbd, Ne.symm hcd, hasId_eq_isSome,
        present_addPartners, present_addOpponents, hpa, hpb, hpc, hpd, hl, bumpCount]
  · intro x hxa hxb hxc hxd
    simp only [countMatch, hmt, partnerPhase, List.foldl_cons, List.foldl_nil]
    rw [lookupPart_updAt_eq _ d.id x _ (bumpCount_player now _), if_neg hxd,
      lookupPart_updAt_eq _ c.id x _ (bumpCount_player now _), if_neg hxc,
      lookupPart_updAt_eq _ b.id x _ (bumpCount_player now _), if_neg hxb,
      lookupPart_updAt_eq _ a.id x _ (bumpCount_player now _), if_neg hxa]
    rw [lookupPart_addOpponents _ b.id d.id x
        (by simp [hasId_eq_isSome, present_addPartners, present_addOpponents, hpb, hpd]) hbd,
      if_neg hxd, if_neg hxb,
      lookupPart_addOpponents _ b.id c.id x
        (by simp [hasId_eq_isSome, present_addPartners, present_addOpponents, hpb, hpc]) hbc,
      if_neg hxc, if_neg hxb,
      lookupPart_addOpponents _ a.id d.id x
        (by simp [hasId_eq_isSome, present_addPartners, present_addOpponents, hpa, hpd]) had,
      if_neg hxd, if_neg hxa,
      lookupPart_addOpponents _ a.id c.id x
        (by simp [hasId_eq_isSome, present_addPartners, present_addOpponents, hpa, hpc]) hac,
      if_neg hxc, if_neg hxa,
      lookupPart_addPartners _ c.id d.id x
        (by simp [hasId_eq_isSome, present_addPartners, hpc, hpd]) hcd,
      if_neg hxd, if_neg hxc,
      lookupPart_addPartners _ a.id b.id x
        (by simp [hasId_eq_isSome, hpa, hpb]) hab,
      if_neg hxb, if_neg hxa]

end MatchGenerator

theorem count_eq_ite {α : Type} [BEq α] [LawfulBEq α] (l : List α) (hl : l.Nodup)
    (k : α) : l.count k = if k ∈ l then 1 else 0 := by
  induction l with
  | nil => simp
  | cons e rest ih =>
    rw [List.count_cons]
    simp only [List.nodup_cons] at hl
    by_cases hk : k = e
    · subst hk
      simp [List.count_eq_zero_of_not_mem hl.1]
    · simp [hk, Ne.symm hk, ih hl.2]

/-- C4 counterexample: recording a 2-player match leaves the pairing
frequency of the cross-side pair at zero and records no opponents —
the ledger derives pairings and partner/opponent sets only from
4-player matches, contradicting the claim for 2- and 3-player
matches. -/
theorem c4_counterexample :
    pairFrequency [(⟨5, [tp 0, tp 1], 1, Side.left⟩ : Match)] 0 1 = 0 ∧
      MatchGenerator.lookupPart
          (MatchGenerator.mkParticipationMap [tp 0, tp 1]
            [⟨5, [tp 0, tp 1], 1, Side.left⟩] 3) 0 =
        some ⟨tp 0, 0, 1, some 3, [], []⟩ := by
  decide

/-- C4 amended: recording a doubles match `[a, b, c, d]` of roster
players with distinct ids updates EVERY participant's entry — doubles
count `+1`, the same-side player added to `partners`, the two
cross-side players to `opponents`, `lastPlayed` stamped — and raises
the pairing frequency by exactly one for each of the six pairs of the
match and by zero for every other pair, leaving non-participants
unchanged.  Recording a 2-player or a 3-player match increments only
each participant's singles count and timestamp: partner/opponent sets
and pairing frequencies are untouched, and non-participants are
unchanged. -/
theorem c4_amended (roster : List Player) (ms : List Match) (a b c d : Player)
    (mid crt mid2 crt2 mid3 crt3 : Nat) (sd sd2 sd3 : Side) (now : Nat)
    (hab : a.id ≠ b.id) (hac : a.id ≠ c.id) (had : a.id ≠ d.id)
    (hbc : b.id ≠ c.id) (hbd : b.id ≠ d.id) (hcd : c.id ≠ d.id)
    (hra : roster.any (fun p => p.id = a.id) = true)
    (hrb : roster.any (fun p => p.id = b.id) = true)
    (hrc : roster.any (fun p => p.id = c.id) = true)
    (hrd : roster.any (fun p => p.id = d.id) = true) :
    MatchGenerator.lookupPart
        (MatchGenerator.mkParticipationMap roster
          (ms ++ [⟨mid, [a, b, c, d], crt, sd⟩]) now) a.id =
      (MatchGenerator.lookupPart (MatchGenerator.mkParticipationMap roster ms now)
        a.id).map (fun e =>
          { e with doublesMatchesPlayed := e.doublesMatchesPlayed + 1,
                   lastPlayed := some now,
                   partners := addId e.partners b.id,
                   opponents := addId (addId e.opponents c.id) d.id }) ∧
    MatchGenerator.lookupPart
        (MatchGenerator.mkParticipationMap roster
          (ms ++ [⟨mid, [a, b, c, d], crt, sd⟩]) now) b.id =
      (MatchGenerator.lookupPart (MatchGenerator.mkParticipationMap roster ms now)
        b.id).map (fun e =>
          { e with doublesMatchesPlayed := e.doublesMatchesPlayed + 1,
                   lastPlayed := some now,
                   partners := addId e.partners a.id,
                   opponents := addId (addId e.opponents c.id) d.id }) ∧
    MatchGenerator.lookupPart
        (MatchGenerator.mkParticipationMap roster
          (ms ++ [⟨mid, [a, b, c, d], crt, sd⟩]) now) c.id =
      (MatchGenerator.lookupPart (MatchGenerator.mkParticipationMap roster ms now)
        c.id).map (fun e =>
          { e with doublesMatchesPlayed := e.doublesMatchesPlayed + 1,
                   lastPlayed := some now,
                   partners := addId e.partners d.id,
                   opponents := addId (addId e.opponents a.id) b.id }) ∧
    MatchGenerator.lookupPart
        (MatchGenerator.mkParticipationMap roster
          (ms ++ [⟨mid, [a, b, c, d], crt, sd⟩]) now) d.id =
      (MatchGenerator.lookupPart (MatchGenerator.mkParticipationMap roster ms now)
        d.id).map (fun e =>
          { e with doublesMatchesPlayed := e.doublesMatchesPlayed + 1,
                   lastPlayed := some now,
                   partners := addId e.partners c.id,
                   opponents := addId (addId e.opponents a.id) b.id }) ∧
    (∀ x, x ≠ a.id → x ≠ b.id → x ≠ c.id → x ≠ d.id →
      MatchGenerator.lookupPart
          (MatchGenerator.mkParticipationMap roster
            (ms ++ [⟨mid, [a, b, c, d], crt, sd⟩]) now) x =
        MatchGenerator.lookupPart (MatchGenerator.mkParticipationMap roster ms now) x) ∧
    (∀ x y, pairFrequency (ms ++ [⟨mid, [a, b, c, d], crt, sd⟩]) x y =
      pairFrequency ms x y +
        (if pairKey x y ∈ [pairKey a.id b.id, pairKey c.id d.id, pairKey a.id c.id,
            pairKey a.id d.id, pairKey b.id c.id, pairKey b.id d.id] then 1 else 0)) ∧
    MatchGenerator.lookupPart
        (MatchGenerator.mkParticipationMap roster
          (ms ++ [⟨mid2, [a, b], crt2, sd2⟩]) now) a.id =
      (MatchGenerator.lookupPart (MatchGenerator.mkParticipationMap roster ms now)
        a.id).map (fun e =>
          { e with singlesMatchesPlayed := e.singlesMatchesPlayed + 1,
                   lastPlayed := some now }) ∧
    MatchGenerator.lookupPart
        (MatchGenerator.mkParticipationMap roster
          (ms ++ [⟨mid2, [a, b], crt2, sd2⟩]) now) b.id =
      (MatchGenerator.lookupPart (MatchGenerator.mkParticipationMap roster ms now)
        b.id).map (fun e =>
          { e with singlesMatchesPlayed := e.singlesMatchesPlayed + 1,
                   lastPlayed := some now }) ∧
    (∀ x, x ≠ a.id → x ≠ b.id →
      MatchGenerator.lookupPart
          (MatchGenerator.mkParticipationMap roster
            (ms ++ [⟨mid2, [a, b], crt2, sd2⟩]) now) x =
        MatchGenerator.lookupPart (MatchGenerator.mkParticipationMap roster ms now) x) ∧
    (∀ x y, pairFrequency (ms ++ [⟨mid2, [a, b], crt2, sd2⟩]) x y =
      pairFrequency ms x y) ∧
    MatchGenerator.lookupPart
        (MatchGenerator.mkParticipationMap roster
          (ms ++ [⟨mid3, [a, b, c], crt3, sd3⟩]) now) a.id =
      (MatchGenerator.lookupPart (MatchGenerator.mkParticipationMap roster ms now)
        a.id).map (fun e =>
          { e with singlesMatchesPlayed := e.singlesMatchesPlayed + 1,
                   lastPlayed := some now }) ∧
    MatchGenerator.lookupPart
        (MatchGenerator.mkParticipationMap roster
          (ms ++ [⟨mid3, [a, b, c], crt3, sd3⟩]) now) b.id =
      (MatchGenerator.lookupPart (MatchGenerator.mkParticipationMap roster ms now)
        b.id).map (fun e =>
          { e with singlesMatchesPlayed := e.singlesMatchesPlayed + 1,
                   lastPlayed := some now }) ∧
    MatchGenerator.lookupPart
        (MatchGenerator.mkParticipationMap roster
          (ms ++ [⟨mid3, [a, b, c], crt3, sd3⟩]) now) c.id =
      (MatchGenerator.lookupPart (MatchGenerator.mkParticipationMap roster ms now)
        c.id).map (fun e =>
          { e with singlesMatchesPlayed := e.singlesMatchesPlayed + 1,
                   lastPlayed := some now }) ∧
    (∀ x, x ≠ a.id → x ≠ b.id → x ≠ c.id →
      MatchGenerator.lookupPart
          (MatchGenerator.mkParticipationMap roster
            (ms ++ [⟨mid3, [a, b, c], crt3, sd3⟩]) now) x =
        MatchGenerator.lookupPart (MatchGenerator.mkParticipationMap roster ms now) x) ∧
    (∀ x y, pairFrequency (ms ++ [⟨mid3, [a, b, c], crt3, sd3⟩]) x y =
      pairFrequency ms x y) := by
  have happ : ∀ mt : Match, MatchGenerator.mkParticipationMap roster (ms ++ [mt]) now =
      MatchGenerator.countMatch now (MatchGenerator.mkParticipationMap roster ms now) mt := by
    intro mt
    rw [MatchGenerator.mkParticipationMap, MatchGenerator.mkParticipationMap,
      List.foldl_append, List.foldl_cons, List.foldl_nil]
  have hpa : (MatchGenerator.lookupPart (MatchGenerator.mkParticipationMap roster ms now)
      a.id).isSome = true := by
    rw [MatchGenerator.present_mkParticipationMap]
    exact hra
  have hpb : (MatchGenerator.lookupPart (MatchGenerator.mkParticipationMap roster ms now)
      b.id).isSome = true := by
    rw [MatchGenerator.present_mkParticipationMap]
    exact hrb
  have hpc : (MatchGenerator.lookupPart (MatchGenerator.mkParticipationMap roster ms now)
      c.id).isSome = true := by
    rw [MatchGenerator.present_mkParticipationMap]
    exact hrc
  have hpd : (MatchGenerator.lookupPart (MatchGenerator.mkParticipationMap roster ms now)
      d.id).isSome = true := by
    rw [MatchGenerator.present_mkParticipationMap]
    exact hrd
  have habcd := MatchGenerator.lookupPart_countMatch_abcd
    (MatchGenerator.mkParticipationMap roster ms now) now
    ⟨mid, [a, b, c, d], crt, sd⟩ a b c d rfl hab hac had hbc hbd hcd hpa hpb hpc hpd
  have hkeysnodup : ([pairKey a.id b.id, pairKey c.id d.id, pairKey a.id c.id,
      pairKey a.id d.id, pairKey b.id c.id, pairKey b.id d.id]).Nodup := by
    simp only [List.nodup_cons, List.mem_cons, List.mem_singleton, List.not_mem_nil,
      List.nodup_nil, pairKey_eq_iff, not_false_eq_true, and_true, List.mem_nil_iff,
      or_false]
    refine ⟨?_, ?_, ?_, ?_, ?_⟩ <;> omega
  refine ⟨?_, ?_, ?_, ?_, ?_, ?_, ?_, ?_, ?_, ?_, ?_, ?_, ?_, ?_, ?_⟩
  · rw [happ]
    exact habcd.1
  · rw [happ]
    exact habcd.2.1
  · rw [happ]
    exact habcd.2.2.1
  · rw [happ]
    exact habcd.2.2.2.1
  · intro x hxa hxb hxc hxd
    rw [happ]
    exact habcd.2.2.2.2 x hxa hxb hxc hxd
  · intro x y
    have h1 : pairFrequency (ms ++ [(⟨mid, [a, b, c, d], crt, sd⟩ : Match)]) x y =
        pairFrequency ms x y +
          (matchKeys ⟨mid, [a, b, c, d], crt, sd⟩).count (pairKey x y) := by
      simp [pairFrequency, List.map_append, List.sum_append]
    rw [h1]
    have h2 : matchKeys ⟨mid, [a, b, c, d], crt, sd⟩ =
        [pairKey a.id b.id, pairKey c.id d.id, pairKey a.id c.id,
         pairKey a.id d.id, pairKey b.id c.id, pairKey b.id d.id] := rfl
    rw [h2, count_eq_ite _ hkeysnodup (pairKey x y)]
  · rw [happ]
    cases hl : MatchGenerator.lookupPart (MatchGenerator.mkParticipationMap roster ms now)
        a.id with
    | none => rw [hl] at hpa; simp at hpa
    | some e =>
      simp [MatchGenerator.countMatch, MatchGenerator.partnerPhase, List.foldl_cons,
        List.foldl_nil, MatchGenerator.lookupPart_updAt_eq, MatchGenerator.bumpCount_player,
        hab, Ne.symm hab, hl, MatchGenerator.bumpCount]
  · rw [happ]
    cases hl : MatchGenerator.lookupPart (MatchGenerator.mkParticipationMap roster ms now)
        b.id with
    | none => rw [hl] at hpb; simp at hpb
    | some e =>
      simp [MatchGenerator.countMatch, MatchGenerator.partnerPhase, List.foldl_cons,
        List.foldl_nil, MatchGenerator.lookupPart_updAt_eq, MatchGenerator.bumpCount_player,
        hab, Ne.symm hab, hl, MatchGenerator.bumpCount]
  · intro x hxa hxb
    rw [happ]
    simp [MatchGenerator.countMatch, MatchGenerator.partnerPhase, List.foldl_cons,
      List.foldl_nil, MatchGenerator.lookupPart_updAt_eq, MatchGenerator.bumpCount_player,
      hxa, hxb]
  · intro x y
    simp [pairFrequency, List.map_append, List.sum_append, matchKeys]
  · rw [happ]
    cases hl : MatchGenerator.lookupPart (MatchGenerator.mkParticipationMap roster ms now)
        a.id with
    | none => rw [hl] at hpa; simp at hpa
    | some e =>
      simp [MatchGenerator.countMatch, MatchGenerator.partnerPhase, List.foldl_cons,
        List.foldl_nil, MatchGenerator.lookupPart_updAt_eq, MatchGenerator.bumpCount_player,
        hab, hac, hbc, Ne.symm hab, Ne.symm hac, Ne.symm hbc, hl, MatchGenerator.bumpCount]
  · rw [happ]
    cases hl : MatchGenerator.lookupPart (MatchGenerator.mkParticipationMap roster ms now)
        b.id with
    | none => rw [hl] at hpb; simp at hpb
    | some e =>
      simp [MatchGenerator.countMatch, MatchGenerator.partnerPhase, List.foldl_cons,
        List.foldl_nil, MatchGenerator.lookupPart_updAt_eq, MatchGenerator.bumpCount_player,
        hab, hac, hbc, Ne.symm hab, Ne.symm hac, Ne.symm hbc, hl, MatchGenerator.bumpCount]
  · rw [happ]
    cases hl : MatchGenerator.lookupPart (MatchGenerator.mkParticipationMap roster ms now)
        c.id with
    | none => rw [hl] at hpc; simp at hpc
    | some e =>
      simp [MatchGenerator.countMatch, MatchGenerator.partnerPhase, List.foldl_cons,
        List.foldl_nil, MatchGenerator.lookupPart_updAt_eq, MatchGenerator.bumpCount_player,
        hab, hac, hbc, Ne.symm hab, Ne.symm hac, Ne.symm hbc, hl, MatchGenerator.bumpCount]
  · intro x hxa hxb hxc
    rw [happ]
    simp [MatchGenerator.countMatch, MatchGenerator.partnerPhase, List.foldl_cons,
      List.foldl_nil, MatchGenerator.lookupPart_updAt_eq, MatchGenerator.bumpCount_player,
      hxa, hxb, hxc]
  · intro x y
    simp [pairFrequency, List.map_append, List.sum_append, matchKeys]

/-- Witness for C4 amended at a concrete doubles match, a concrete
singles match and a concrete 3-player match over a 5-player roster. -/
theorem c4_witness :
    MatchGenerator.lookupPart
        (MatchGenerator.mkParticipationMap [tp 0, tp 1, tp 2, tp 3, tp 4]
          ([] ++ [⟨9, [tp 0, tp 1, tp 2, tp 3], 1, Side.left⟩]) 7) (tp 3).id =
      (MatchGenerator.lookupPart
        (MatchGenerator.mkParticipationMap [tp 0, tp 1, tp 2, tp 3, tp 4] [] 7)
        (tp 3).id).map (fun e =>
          { e with doublesMatchesPlayed := e.doublesMatchesPlayed + 1,
                   lastPlayed := some 7,
                   partners := addId e.partners (tp 2).id,
                   opponents := addId (addId e.opponents (tp 0).id) (tp 1).id }) ∧
    pairFrequency ([] ++ [⟨9, [tp 0, tp 1, tp 2, tp 3], 1, Side.left⟩]) 0 2 =
      pairFrequency [] 0 2 +
        (if pairKey 0 2 ∈ [pairKey (tp 0).id (tp 1).id, pairKey (tp 2).id (tp 3).id,
            pairKey (tp 0).id (tp 2).id, pairKey (tp 0).id (tp 3).id,
            pairKey (tp 1).id (tp 2).id, pairKey (tp 1).id (tp 3).id] then 1 else 0) ∧
    MatchGenerator.lookupPart
        (MatchGenerator.mkParticipationMap [tp 0, tp 1, tp 2, tp 3, tp 4]
          ([] ++ [⟨10, [tp 0, tp 1], 2, Side.right⟩]) 7) (tp 0).id =
      (MatchGenerator.lookupPart
        (MatchGenerator.mkParticipationMap [tp 0, tp 1, tp 2, tp 3, tp 4] [] 7)
        (tp 0).id).map (fun e =>
          { e with singlesMatchesPlayed := e.singlesMatchesPlayed + 1,
                   lastPlayed := some 7 }) ∧
    MatchGenerator.lookupPart
        (MatchGenerator.mkParticipationMap [tp 0, tp 1, tp 2, tp 3, tp 4]
          ([] ++ [⟨11, [tp 0, tp 1, tp 2], 1, Side.left⟩]) 7) (tp 2).id =
      (MatchGenerator.lookupPart
        (MatchGenerator.mkParticipationMap [tp 0, tp 1, tp 2, tp 3, tp 4] [] 7)
        (tp 2).id).map (fun e =>
          { e with singlesMatchesPlayed := e.singlesMatchesPlayed + 1,
                   lastPlayed := some 7 }) ∧
    (∀ x y, pairFrequency ([] ++ [⟨11, [tp 0, tp 1, tp 2], 1, Side.left⟩]) x y =
      pairFrequency [] x y) := by
  have h := c4_amended [tp 0, tp 1, tp 2, tp 3, tp 4] [] (tp 0) (tp 1) (tp 2) (tp 3)
    9 1 10 2 11 1 Side.left Side.right Side.left 7 (by decide) (by decide) (by decide)
    (by decide) (by decide) (by decide) (by decide) (by decide) (by decide) (by decide)
  exact ⟨h.2.2.2.1, h.2.2.2.2.2.1 0 2, h.2.2.2.2.2.2.1, h.2.2.2.2.2.2.2.2.2.2.2.2.1,
    h.2.2.2.2.2.2.2.2.2.2.2.2.2.2⟩

theorem allPairsAux_length {α : Type} (l : List α) :
    (allPairsAux l).length = Nat.choose l.length 2 := by
  induction l with
  | nil => rfl
  | cons x xs ih =>
    simp [allPairsAux, ih, Nat.choose_succ_succ, Nat.choose_one_right]

theorem swapIdx_perm {α : Type} [DecidableEq α] (l : List α) (i j : Nat) :
    (swapIdx l i j).Perm l := by
  unfold swapIdx
  cases hi : l.get? i with
  | none => exact List.Perm.refl l
  | some a =>
    cases hj : l.get? j with
    | none => exact List.Perm.refl l
    | some b =>
      rw [List.get?_eq_getElem?] at hi hj
      obtain ⟨hi', ha⟩ := List.getElem?_eq_some.mp hi
      obtain ⟨hj', hb⟩ := List.getElem?_eq_some.mp hj
      have hmema : a ∈ l := ha ▸ l.getElem_mem hi'
      have hmemb : b ∈ l := hb ▸ l.getElem_mem hj'
      rw [List.perm_iff_count]
      intro x
      have hjlen : j < (l.set i b).length := by simpa using hj'
      have e1 := List.count_set a x (l.set i b) j hjlen
      have e2 := List.count_set b x l i hi'
      simp only [List.getElem_set, hb, ite_self] at e1
      simp only [ha] at e2
      rw [e1, e2]
      simp only [beq_iff_eq]
      by_cases hax : a = x
      · have h1 : 0 < List.count x l := List.count_pos_iff.mpr (hax ▸ hmema)
        by_cases hbx : b = x
        · simp only [if_pos hax, if_pos hbx]
          omega
        · simp only [if_pos hax, if_neg hbx]
          omega
      · by_cases hbx : b = x
        · have h2 : 0 < List.count x l := List.count_pos_iff.mpr (hbx ▸ hmemb)
          simp only [if_neg hax, if_pos hbx]
          omega
        · simp only [if_neg hax, if_neg hbx]
          omega

theorem shuffleGo_perm {α : Type} [DecidableEq α] (g : Nat → Nat) (arr : List α) (k : Nat) :
    (shuffleGo g arr k).Perm arr := by
  induction k generalizing arr with
  | zero => exact List.Perm.refl arr
  | succ i ih =>
    exact (ih _).trans (swapIdx_perm arr (i + 1) (g (i + 1) % (i + 2)))

theorem shuffleArray_perm {α : Type} [DecidableEq α] (g : Nat → Nat) (l : List α) :
    (shuffleArray g l).Perm l :=
  shuffleGo_perm g l (l.length - 1)

theorem sortByKey_perm {α : Type} (key : α → Nat) (l : List α) :
    (sortByKey key l).Perm l :=
  List.perm_insertionSort _ l

namespace RoundGenerator

theorem foPGo_perm (players : List Player) (h : List PlayerHistory)
    (g : Nat → Nat → Nat) :
    ∀ (fuel i : Nat) (best : List Player) (bestCnt : Option Nat),
      best.Perm players → (foPGo players h g fuel i best bestCnt).Perm players
  | 0, _, best, _, hb => hb
  | fuel + 1, i, best, bestCnt, hb => by
    have hsh : (shuffleArray (g i) players).Perm players := shuffleArray_perm _ _
    cases bestCnt with
    | none =>
      unfold foPGo
      dsimp only
      rw [if_pos rfl]
      split
      · exact hsh
      · exact foPGo_perm players h g fuel (i + 1) _ _ hsh
    | some bcur =>
      unfold foPGo
      dsimp only
      split
      · split
        · exact hsh
        · exact foPGo_perm players h g fuel (i + 1) _ _ hsh
      · exact foPGo_perm players h g fuel (i + 1) best _ hb

theorem findOptimalPairing_perm (players : List Player) (h : List PlayerHistory)
    (g : Nat → Nat → Nat) : (findOptimalPairing players h g).Perm players :=
  foPGo_perm players h g 100 0 players none (List.Perm.refl players)

end RoundGenerator

theorem perm_of_nodup_mem_iff {α : Type} [DecidableEq α] (l1 l2 : List α)
    (h1 : l1.Nodup) (h2 : l2.Nodup) (hm : ∀ x, x ∈ l1 ↔ x ∈ l2) : l1.Perm l2 :=
  List.perm_of_nodup_nodup_toFinset_eq h1 h2 (Finset.ext fun x => by
    simp only [List.mem_toFinset]
    exact hm x)

theorem flattenPairs_cons (pr : Player × Player) (l : List (Player × Player)) :
    flattenPairs (pr :: l) = pr.1 :: pr.2 :: flattenPairs l := rfl

theorem flattenPairs_append (a b : List (Player × Player)) :
    flattenPairs (a ++ b) = flattenPairs a ++ flattenPairs b := by
  simp [flattenPairs]

theorem flattenPairs_length (l : List (Player × Player)) :
    (flattenPairs l).length = 2 * l.length := by
  induction l with
  | nil => rfl
  | cons pr rest ih => simp [flattenPairs_cons, ih]; omega

theorem pairConsecutive_length {α : Type} : ∀ (l : List α),
    (pairConsecutive l).length = l.length / 2
  | [] => by simp [pairConsecutive]
  | [_] => by simp [pairConsecutive]
  | _ :: _ :: rest => by
    simp only [pairConsecutive, List.length_cons]
    rw [pairConsecutive_length rest]
    omega

theorem flattenPairs_pairConsecutive : ∀ (l : List Player), l.length % 2 = 0 →
    flattenPairs (pairConsecutive l) = l
  | [], _ => rfl
  | [_], h => by simp at h
  | p :: q :: rest, h => by
    have ih := flattenPairs_pairConsecutive rest (by
      simp only [List.length_cons] at h
      omega)
    rw [show pairConsecutive (p :: q :: rest) = (p, q) :: pairConsecutive rest from rfl,
      flattenPairs_cons, ih]

theorem allPairsAux_mem : ∀ (l : List Player), (l.map Player.id).Nodup →
    ∀ pr ∈ allPairsAux l, pr.1 ∈ l ∧ pr.2 ∈ l ∧ pr.1.id ≠ pr.2.id
  | [], _, pr, hpr => by simp [allPairsAux] at hpr
  | p :: rest, hnd, pr, hpr => by
    simp only [allPairsAux, List.mem_append, List.mem_map] at hpr
    simp only [List.map_cons, List.nodup_cons] at hnd
    rcases hpr with ⟨q, hq, hpq⟩ | hpr
    · subst hpq
      refine ⟨List.mem_cons_self _ _, List.mem_cons_of_mem _ hq, ?_⟩
      intro he
      simp only at he
      exact hnd.1 (by rw [he]; exact List.mem_map_of_mem Player.id hq)
    · have ih := allPairsAux_mem rest hnd.2 pr hpr
      exact ⟨List.mem_cons_of_mem _ ih.1, List.mem_cons_of_mem _ ih.2.1, ih.2.2⟩

namespace MatchGenerator

theorem selectDisjointPairs_spec :
    ∀ (cand : List (Player × Player)) (used : List Nat) (acc : List (Player × Player)),
      (∀ pr ∈ cand, pr.1.id ≠ pr.2.id) →
      used = (flattenPairs acc).map Player.id →
      used.Nodup →
      (selectDisjointPairs cand used acc).2 =
          (flattenPairs (selectDisjointPairs cand used acc).1).map Player.id ∧
        (selectDisjointPairs cand used acc).2.Nodup ∧
        (∃ ext, (selectDisjointPairs cand used acc).1 = acc ++ ext ∧
          ∀ pr ∈ ext, pr ∈ cand) ∧
        (selectDisjointPairs cand used acc).1.length ≤ acc.length + cand.length
  | [], used, acc, _, hua, hnd => by
    refine ⟨hua, hnd, ⟨[], by simp [selectDisjointPairs], by simp⟩, ?_⟩
    simp [selectDisjointPairs]
  | pr :: rest, used, acc, hcand, hua, hnd => by
    have hprd : pr.1.id ≠ pr.2.id := hcand pr (List.mem_cons_self _ _)
    have hcand' : ∀ q ∈ rest, q.1.id ≠ q.2.id := fun q hq =>
      hcand q (List.mem_cons_of_mem _ hq)
    have hred : selectDisjointPairs (pr :: rest) used acc =
        if pr.1.id ∈ used ∨ pr.2.id ∈ used then selectDisjointPairs rest used acc
        else if (acc ++ [pr]).length = 4 then (acc ++ [pr], used ++ [pr.1.id, pr.2.id])
        else selectDisjointPairs rest (used ++ [pr.1.id, pr.2.id]) (acc ++ [pr]) := rfl
    by_cases hmem : pr.1.id ∈ used ∨ pr.2.id ∈ used
    · rw [hred, if_pos hmem]
      obtain ⟨a1, a2, ⟨ext, hext, hextm⟩, a4⟩ :=
        selectDisjointPairs_spec rest used acc hcand' hua hnd
      refine ⟨a1, a2, ⟨ext, hext, fun q hq => List.mem_cons_of_mem _ (hextm q hq)⟩, ?_⟩
      simp only [List.length_cons]
      omega
    · have h1 : pr.1.id ∉ used := fun hc => hmem (Or.inl hc)
      have h2 : pr.2.id ∉ used := fun hc => hmem (Or.inr hc)
      have hua' : used ++ [pr.1.id, pr.2.id] = (flattenPairs (acc ++ [pr])).map Player.id := by
        rw [flattenPairs_append, List.map_append, ← hua]
        rfl
      have hnd' : (used ++ [pr.1.id, pr.2.id]).Nodup := by
        rw [List.nodup_append]
        refine ⟨hnd, by simp [hprd], ?_⟩
        intro x hx hx2
        simp only [List.mem_cons, List.mem_singleton] at hx2
        rcases hx2 with hx2 | hx2 | hx2
        · exact h1 (hx2 ▸ hx)
        · exact h2 (hx2 ▸ hx)
        · simp at hx2
      by_cases hlen : (acc ++ [pr]).length = 4
      · rw [hred, if_neg hmem, if_pos hlen]
        refine ⟨hua', hnd', ⟨[pr], rfl, by simp⟩, ?_⟩
        simp only [List.length_append, List.length_cons, List.length_nil]
        omega
      · rw [hred, if_neg hmem, if_neg hlen]
        obtain ⟨a1, a2, ⟨ext, hext, hextm⟩, a4⟩ :=
          selectDisjointPairs_spec rest (used ++ [pr.1.id, pr.2.id]) (acc ++ [pr])
            hcand' hua' hnd'
        refine ⟨a1, a2, ⟨pr :: ext, by rw [hext]; simp, ?_⟩, ?_⟩
        · intro q hq
          rcases List.mem_cons.mp hq with hq | hq
          · exact hq ▸ List.mem_cons_self _ _
          · exact List.mem_cons_of_mem _ (hextm q hq)
        · simp only [List.length_append, List.length_cons, List.length_nil] at a4 ⊢
          omega

end MatchGenerator

theorem roundPlayers_cons (m : Match) (ms : List Match) :
    roundPlayers (m :: ms) = m.players ++ roundPlayers ms := rfl

namespace RoundGenerator

theorem generateRoundGo_players (shuffled : List Player) (g : Nat → Nat → Nat → Nat)
    (sideRng : Nat → Bool) (idGen : Nat → Nat) :
    ∀ (fuel court : Nat) (h : List PlayerHistory), 1 ≤ court →
      (roundPlayers (generateRoundGo shuffled g sideRng idGen fuel court h).1).Perm
        ((shuffled.drop ((court - 1) * 4)).take (4 * fuel))
  | 0, court, h, hc => by simp [generateRoundGo, roundPlayers]
  | fuel + 1, court, h, hc => by
    have hperm : (findOptimalPairing ((shuffled.drop ((court - 1) * 4)).take 4) h
        (g court)).Perm ((shuffled.drop ((court - 1) * 4)).take 4) :=
      findOptimalPairing_perm _ _ _
    have ih := generateRoundGo_players shuffled g sideRng idGen fuel (court + 1)
      (updatePlayerHistories h
        ⟨idGen court, findOptimalPairing ((shuffled.drop ((court - 1) * 4)).take 4) h (g court),
          court, if sideRng court then Side.left else Side.right⟩)
      (by omega)
    rw [show generateRoundGo shuffled g sideRng idGen (fuel + 1) court h =
      (⟨idGen court, findOptimalPairing ((shuffled.drop ((court - 1) * 4)).take 4) h (g court),
          court, if sideRng court then Side.left else Side.right⟩ ::
        (generateRoundGo shuffled g sideRng idGen fuel (court + 1)
          (updatePlayerHistories h
            ⟨idGen court,
             findOptimalPairing ((shuffled.drop ((court - 1) * 4)).take 4) h (g court),
             court, if sideRng court then Side.left else Side.right⟩)).1,
       (generateRoundGo shuffled g sideRng idGen fuel (court + 1)
          (updatePlayerHistories h
            ⟨idGen court,
             findOptimalPairing ((shuffled.drop ((court - 1) * 4)).take 4) h (g court),
             court, if sideRng court then Side.left else Side.right⟩)).2) from rfl]
    rw [roundPlayers_cons]
    have hidx : (court + 1 - 1) * 4 = (court - 1) * 4 + 4 := by omega
    rw [hidx] at ih
    rw [show 4 * (fuel + 1) = 4 + 4 * fuel from by ring, List.take_add, List.drop_drop]
    exact List.Perm.append hperm ih

theorem findLeastPlayedPlayers_le (h : List PlayerHistory) (c : Nat) :
    (findLeastPlayedPlayers h c).length ≤ c := by
  simp only [findLeastPlayedPlayers, List.length_map, List.length_take]
  omega

theorem findLeastPlayedPlayers_nodup (h : List PlayerHistory) (c : Nat)
    (hnd : (h.map (fun e => e.player.id)).Nodup) :
    ((findLeastPlayedPlayers h c).map Player.id).Nodup := by
  have hperm : ((sortByKey (fun e => e.gamesPlayed) h).map
      (fun e => e.player.id)).Perm (h.map (fun e => e.player.id)) :=
    (sortByKey_perm _ h).map _
  have hnds : ((sortByKey (fun e => e.gamesPlayed) h).map
      (fun e => e.player.id)).Nodup := hperm.nodup_iff.mpr hnd
  have : (findLeastPlayedPlayers h c).map Player.id =
      ((sortByKey (fun e => e.gamesPlayed) h).map (fun e => e.player.id)).take c := by
    simp [findLeastPlayedPlayers, List.map_map, List.map_take]
    rfl
  rw [this]
  exact (List.take_sublist _ _).nodup hnds

theorem findLeastPlayedPlayers_mem (h : List PlayerHistory) (c : Nat) (p : Player)
    (hp : p ∈ findLeastPlayedPlayers h c) : p ∈ h.map (fun e => e.player) := by
  simp only [findLeastPlayedPlayers, List.mem_map] at hp
  obtain ⟨e, he, hep⟩ := hp
  have he2 : e ∈ sortByKey (fun e => e.gamesPlayed) h := List.mem_of_mem_take he
  have he3 : e ∈ h := (sortByKey_perm _ h).mem_iff.mp he2
  exact List.mem_map.mpr ⟨e, he3, hep⟩

theorem generateRound_valid (players : List Player) (n : Nat) (h : List PlayerHistory)
    (roundRng : Nat → Nat) (g : Nat → Nat → Nat → Nat) (sideRng : Nat → Bool)
    (idGen : Nat → Nat)
    (hnd : (h.map (fun e => e.player.id)).Nodup) :
    (roundIds (generateRound players n h roundRng g sideRng idGen).1).Nodup ∧
    ∀ p ∈ roundPlayers (generateRound players n h roundRng g sideRng idGen).1,
      p ∈ h.map (fun e => e.player) := by
  rw [show generateRound players n h roundRng g sideRng idGen =
    (if (findLeastPlayedPlayers h (n * 4)).length < n * 4 then ([], h)
     else generateRoundGo (shuffleArray roundRng (findLeastPlayedPlayers h (n * 4)))
       g sideRng idGen n 1 h) from rfl]
  split
  · exact ⟨by simp [roundIds, roundPlayers], by simp [roundPlayers]⟩
  · rename_i hlen
    have hlen2 : (findLeastPlayedPlayers h (n * 4)).length = n * 4 := by
      have := findLeastPlayedPlayers_le h (n * 4)
      omega
    have hsh : (shuffleArray roundRng (findLeastPlayedPlayers h (n * 4))).Perm
        (findLeastPlayedPlayers h (n * 4)) := shuffleArray_perm _ _
    have hshlen : (shuffleArray roundRng (findLeastPlayedPlayers h (n * 4))).length =
        n * 4 := by rw [hsh.length_eq, hlen2]
    have hgo := generateRoundGo_players
      (shuffleArray roundRng (findLeastPlayedPlayers h (n * 4))) g sideRng idGen n 1 h
      (by omega)
    rw [show (1 - 1) * 4 = 0 from rfl, List.drop_zero,
      List.take_of_length_le (by omega)] at hgo
    have hperm : (roundPlayers (generateRoundGo
        (shuffleArray roundRng (findLeastPlayedPlayers h (n * 4))) g sideRng idGen
          n 1 h).1).Perm (findLeastPlayedPlayers h (n * 4)) := hgo.trans hsh
    constructor
    · have : (roundIds (generateRoundGo
          (shuffleArray roundRng (findLeastPlayedPlayers h (n * 4))) g sideRng idGen
            n 1 h).1).Perm ((findLeastPlayedPlayers h (n * 4)).map Player.id) :=
        hperm.map _
      exact this.nodup_iff.mpr (findLeastPlayedPlayers_nodup h (n * 4) hnd)
    · intro p hp
      exact findLeastPlayedPlayers_mem h (n * 4) p (hperm.mem_iff.mp hp)

end RoundGenerator

theorem list_eq_four {α : Type} (l : List α) (h : l.length = 4) :
    ∃ a b c d, l = [a, b, c, d] := by
  cases l with
  | nil => simp at h
  | cons a t =>
    cases t with
    | nil => simp at h
    | cons b t =>
      cases t with
      | nil => simp at h
      | cons c t =>
        cases t with
        | nil => simp at h
        | cons d t =>
          cases t with
          | nil => exact ⟨a, b, c, d, rfl⟩
          | cons e t => simp at h

theorem flattenPairs_mem (l : List (Player × Player)) (x : Player) :
    x ∈ flattenPairs l ↔ ∃ pr ∈ l, x = pr.1 ∨ x = pr.2 := by
  simp only [flattenPairs, List.mem_flatMap, List.mem_cons, List.mem_singleton,
    List.not_mem_nil, or_false]

namespace MatchGenerator

theorem chooseCourts_spec (q1 q2 q3 q4 : Player × Player)
    (pairings : List PlayerPairing) (pm : List PlayerParticipation) :
    (chooseCourts q1 q2 q3 q4 pairings pm).1.length = 4 ∧
    (chooseCourts q1 q2 q3 q4 pairings pm).2.length = 4 ∧
    ((chooseCourts q1 q2 q3 q4 pairings pm).1 ++
      (chooseCourts q1 q2 q3 q4 pairings pm).2).Perm (flattenPairs [q1, q2, q3, q4]) := by
  simp only [chooseCourts]
  split_ifs <;> refine ⟨rfl, rfl, ?_⟩
  all_goals rw [List.perm_iff_count]
  all_goals intro x
  all_goals simp only [flattenPairs, List.flatMap_cons, List.flatMap_nil, List.append_nil,
    List.cons_append, List.nil_append, List.count_cons, List.count_nil, beq_iff_eq]
  all_goals try ring

end MatchGenerator

namespace MatchGenerator

theorem generateDoublesMatches_eight (players : List Player) (n : Nat)
    (previousMatches : List Match) (now : Nat) (idGen rng1 rng2 : Nat → Nat)
    (h8 : players.length = 8) (hnd : (players.map Player.id).Nodup) :
    ∃ m1 m2, generateDoublesMatches players n previousMatches now idGen rng1 rng2 = [m1, m2] ∧
      m1.players.length = 4 ∧ m2.players.length = 4 ∧
      (m1.players ++ m2.players).Perm players := by
  have hplayersnd : players.Nodup := List.Nodup.of_map _ hnd
  simp only [generateDoublesMatches, h8]
  norm_num
  set pairings := getPairings previousMatches with hpairings
  set pm := mkParticipationMap players previousMatches now with hpm
  set sel := phase1 players pairings pm with hsel
  set cand := ((sortByKey (fun e => e.2) (scoredPairs players pairings pm)).take 4).map
    (fun e => e.1) with hcanddef
  have hcand : ∀ pr ∈ cand, pr.1 ∈ players ∧ pr.2 ∈ players ∧ pr.1.id ≠ pr.2.id := by
    intro pr hpr
    apply allPairsAux_mem players hnd
    rw [hcanddef] at hpr
    obtain ⟨e, he, hpe⟩ := List.mem_map.mp hpr
    have he2 := List.mem_of_mem_take he
    have he3 : e ∈ scoredPairs players pairings pm := (sortByKey_perm _ _).mem_iff.mp he2
    obtain ⟨pr0, hpr0, hpe0⟩ := List.mem_map.mp he3
    rw [← hpe, ← hpe0]
    exact hpr0
  have hsel2 : sel = selectDisjointPairs cand [] [] := by
    rw [hsel, hcanddef]
    rfl
  obtain ⟨hused, hndused, ⟨ext, hext, hextm⟩, hlen4⟩ :
      sel.2 = (flattenPairs sel.1).map Player.id ∧ sel.2.Nodup ∧
        (∃ ext, sel.1 = [] ++ ext ∧ ∀ pr ∈ ext, pr ∈ cand) ∧
        sel.1.length ≤ [].length + cand.length := by
    rw [hsel2]
    exact selectDisjointPairs_spec cand [] []
      (fun pr h => (hcand pr h).2.2) rfl List.nodup_nil
  rw [List.nil_append] at hext
  have hcandlen : cand.length ≤ 4 := by
    rw [hcanddef]
    simp only [List.length_map, List.length_take]
    omega
  have hklen : sel.1.length ≤ 4 := by
    simp only [List.length_nil] at hlen4
    omega
  have hmemsel : ∀ pr ∈ sel.1, pr.1 ∈ players ∧ pr.2 ∈ players ∧ pr.1.id ≠ pr.2.id := by
    intro pr hpr
    exact hcand pr (hextm pr (hext ▸ hpr))
  have hndF1 : ((flattenPairs sel.1).map Player.id).Nodup := hused ▸ hndused
  have hF1sub : ∀ x ∈ flattenPairs sel.1, x ∈ players := by
    intro x hx
    obtain ⟨pr, hpr, hor⟩ := (flattenPairs_mem _ _).mp hx
    rcases hor with h | h
    · exact h ▸ (hmemsel pr hpr).1
    · exact h ▸ (hmemsel pr hpr).2.1
  have hF1filter : (flattenPairs sel.1).Perm
      (players.filter (fun p => decide (p.id ∈ sel.2))) := by
    apply perm_of_nodup_mem_iff
    · exact List.Nodup.of_map _ hndF1
    · exact (List.filter_sublist players).nodup hplayersnd
    · intro x
      constructor
      · intro hx
        refine List.mem_filter.mpr ⟨hF1sub x hx, ?_⟩
        have : x.id ∈ sel.2 := hused ▸ List.mem_map_of_mem Player.id hx
        exact decide_eq_true this
      · intro hx
        obtain ⟨hxp, hxc⟩ := List.mem_filter.mp hx
        have hxid : x.id ∈ sel.2 := of_decide_eq_true hxc
        rw [hused] at hxid
        obtain ⟨y, hy, hyx⟩ := List.mem_map.mp hxid
        have : y = x := List.inj_on_of_nodup_map hnd (hF1sub y hy) hxp hyx
        exact this ▸ hy
  have hlenF1 : (flattenPairs sel.1).length = 2 * sel.1.length := flattenPairs_length _
  have hfiltlen : (players.filter (fun p => decide (p.id ∈ sel.2))).length =
      2 * sel.1.length := by
    rw [← hF1filter.length_eq, hlenF1]
  have hsplit : (players.filter (fun p => decide (p.id ∈ sel.2)) ++
      players.filter (fun p => !decide (p.id ∈ sel.2))).Perm players := by
    simpa using List.filter_append_perm (fun p => decide (p.id ∈ sel.2)) players
  have hlen8 : (players.filter (fun p => decide (p.id ∈ sel.2))).length +
      (players.filter (fun p => !decide (p.id ∈ sel.2))).length = 8 := by
    have := hsplit.length_eq
    simp only [List.length_append] at this
    rw [this, h8]
  have hremlen : (players.filter (fun p => !decide (p.id ∈ sel.2))).length =
      8 - 2 * sel.1.length := by omega
  by_cases hk : sel.1.length < 4
  · rw [if_pos hk, if_pos (show 2 ≤ (players.filter
        (fun p => !decide (p.id ∈ sel.2))).length by omega)]
    have hshlen : (shuffleArray rng1 (players.filter
        (fun p => !decide (p.id ∈ sel.2)))).length = 8 - 2 * sel.1.length := by
      rw [(shuffleArray_perm rng1 _).length_eq, hremlen]
    have hpclen : (pairConsecutive (shuffleArray rng1 (players.filter
        (fun p => !decide (p.id ∈ sel.2))))).length = 4 - sel.1.length := by
      rw [pairConsecutive_length, hshlen]
      omega
    rw [List.take_of_length_le (le_of_eq hpclen)]
    have hfplen : (sel.1 ++ pairConsecutive (shuffleArray rng1 (players.filter
        (fun p => !decide (p.id ∈ sel.2))))).length = 4 := by
      rw [List.length_append, hpclen]
      omega
    rw [if_neg (by omega)]
    obtain ⟨q1, q2, q3, q4, hq⟩ := list_eq_four _ hfplen
    have hflat : (flattenPairs [q1, q2, q3, q4]).Perm players := by
      rw [← hq, flattenPairs_append,
        flattenPairs_pairConsecutive _ (by rw [hshlen]; omega)]
      exact (hF1filter.append (shuffleArray_perm rng1 _)).trans hsplit
    rw [hq]
    refine ⟨_, _, rfl, (chooseCourts_spec q1 q2 q3 q4 pairings pm).1,
      (chooseCourts_spec q1 q2 q3 q4 pairings pm).2.1,
      ((chooseCourts_spec q1 q2 q3 q4 pairings pm).2.2).trans hflat⟩
  · rw [if_neg hk, if_neg hk]
    have hkeq : sel.1.length = 4 := by omega
    obtain ⟨q1, q2, q3, q4, hq⟩ := list_eq_four _ hkeq
    have hfilt_eq : players.filter (fun p => decide (p.id ∈ sel.2)) = players := by
      apply (List.filter_sublist players).eq_of_length
      rw [hfiltlen, hkeq, h8]
    have hflat : (flattenPairs [q1, q2, q3, q4]).Perm players := by
      rw [← hq]
      exact hfilt_eq ▸ hF1filter
    rw [hq]
    refine ⟨_, _, rfl, (chooseCourts_spec q1 q2 q3 q4 pairings pm).1,
      (chooseCourts_spec q1 q2 q3 q4 pairings pm).2.1,
      ((chooseCourts_spec q1 q2 q3 q4 pairings pm).2.2).trans hflat⟩

end MatchGenerator

theorem single_slice_valid (players : List Player) (key : Player → Nat) (k : Nat)
    (hnd : (players.map Player.id).Nodup) :
    (((sortByKey key players).take k).map Player.id).Nodup ∧
    ∀ p ∈ (sortByKey key players).take k, p ∈ players := by
  have hsortnd : ((sortByKey key players).map Player.id).Nodup :=
    ((sortByKey_perm key players).map _).nodup_iff.mpr hnd
  constructor
  · rw [List.map_take]
    exact (List.take_sublist _ _).nodup hsortnd
  · intro p hp
    exact (sortByKey_perm key players).mem_iff.mp (List.mem_of_mem_take hp)

theorem two_slice_valid (players : List Player) (key1 key2 : Player → Nat) (j : Nat)
    (hnd : (players.map Player.id).Nodup) :
    ((((sortByKey key1 players).take 4) ++
        ((sortByKey key2 ((sortByKey key1 players).drop 4)).take j)).map Player.id).Nodup ∧
    ∀ p ∈ ((sortByKey key1 players).take 4) ++
        ((sortByKey key2 ((sortByKey key1 players).drop 4)).take j), p ∈ players := by
  have hsortnd : ((sortByKey key1 players).map Player.id).Nodup :=
    ((sortByKey_perm key1 players).map _).nodup_iff.mpr hnd
  have hBperm : ((sortByKey key2 ((sortByKey key1 players).drop 4)).map Player.id).Perm
      (((sortByKey key1 players).map Player.id).drop 4) := by
    rw [← List.map_drop]
    exact (sortByKey_perm key2 _).map _
  have hdropnd : (((sortByKey key1 players).map Player.id).drop 4).Nodup :=
    (List.drop_sublist _ _).nodup hsortnd
  have hBnd : (((sortByKey key2 ((sortByKey key1 players).drop 4)).take j).map
      Player.id).Nodup := by
    rw [List.map_take]
    exact (List.take_sublist _ _).nodup (hBperm.nodup_iff.mpr hdropnd)
  have hBin : ∀ x ∈ ((sortByKey key2 ((sortByKey key1 players).drop 4)).take j).map
      Player.id, x ∈ ((sortByKey key1 players).map Player.id).drop 4 := by
    intro x hx
    rw [List.map_take] at hx
    exact hBperm.mem_iff.mp (List.mem_of_mem_take hx)
  constructor
  · rw [List.map_append, List.nodup_append]
    refine ⟨by rw [List.map_take]; exact (List.take_sublist _ _).nodup hsortnd, hBnd, ?_⟩
    intro x hxA hxB
    have hx1 : x ∈ ((sortByKey key1 players).map Player.id).take 4 := by
      rwa [List.map_take] at hxA
    have hx2 : x ∈ ((sortByKey key1 players).map Player.id).drop 4 := hBin x hxB
    have := List.take_append_drop 4 ((sortByKey key1 players).map Player.id)
    rw [← this, List.nodup_append] at hsortnd
    exact hsortnd.2.2 hx1 hx2
  · intro p hp
    rcases List.mem_append.mp hp with hp | hp
    · exact (sortByKey_perm key1 players).mem_iff.mp (List.mem_of_mem_take hp)
    · have h1 : p ∈ sortByKey key2 ((sortByKey key1 players).drop 4) :=
        List.mem_of_mem_take hp
      have h2 : p ∈ (sortByKey key1 players).drop 4 := (sortByKey_perm key2 _).mem_iff.mp h1
      have h3 : p ∈ sortByKey key1 players := (List.drop_sublist _ _).mem h2
      exact (sortByKey_perm key1 players).mem_iff.mp h3

namespace MatchGenerator

theorem generateDoublesMatches_valid (players : List Player) (n : Nat)
    (previousMatches : List Match) (now : Nat) (idGen rng1 rng2 : Nat → Nat)
    (hnd : (players.map Player.id).Nodup) :
    (roundIds (generateDoublesMatches players n previousMatches now idGen rng1 rng2)).Nodup ∧
    ∀ p ∈ roundPlayers (generateDoublesMatches players n previousMatches now idGen rng1 rng2),
      p ∈ players := by
  by_cases h4 : players.length = 4
  · simp only [generateDoublesMatches, h4]
    norm_num
    simp only [roundIds, roundPlayers, List.flatMap_cons, List.flatMap_nil, List.append_nil]
    exact single_slice_valid players _ 4 hnd
  · by_cases h5 : players.length = 5
    · simp only [generateDoublesMatches, h5]
      norm_num
      simp only [roundIds, roundPlayers, List.flatMap_cons, List.flatMap_nil, List.append_nil]
      exact single_slice_valid players _ 4 hnd
    · by_cases h6 : players.length = 6
      · simp only [generateDoublesMatches, h6]
        norm_num
        by_cases hc : n = 1
        · rw [if_pos hc]
          simp only [roundIds, roundPlayers, List.flatMap_cons, List.flatMap_nil,
            List.append_nil]
          exact single_slice_valid players _ 4 hnd
        · rw [if_neg hc]
          simp only [roundIds, roundPlayers, List.flatMap_cons, List.flatMap_nil,
            List.append_nil]
          exact two_slice_valid players _ _ 2 hnd
      · by_cases h7 : players.length = 7
        · simp only [generateDoublesMatches, h7]
          norm_num
          by_cases hc : n = 1
          · rw [if_pos hc]
            simp only [roundIds, roundPlayers, List.flatMap_cons, List.flatMap_nil,
              List.append_nil]
            exact single_slice_valid players _ 4 hnd
          · rw [if_neg hc]
            simp only [roundIds, roundPlayers, List.flatMap_cons, List.flatMap_nil,
              List.append_nil]
            exact two_slice_valid players _ _ 3 hnd
        · by_cases h8 : players.length = 8
          · obtain ⟨m1, m2, heq, hl1, hl2, hperm⟩ :=
              generateDoublesMatches_eight players n previousMatches now idGen rng1 rng2
                h8 hnd
            rw [heq]
            constructor
            · simp only [roundIds, roundPlayers, List.flatMap_cons, List.flatMap_nil,
                List.append_nil]
              exact (hperm.map Player.id).nodup_iff.mpr hnd
            · intro p hp
              simp only [roundPlayers, List.flatMap_cons, List.flatMap_nil,
                List.append_nil, List.mem_append] at hp
              exact hperm.mem_iff.mp (List.mem_append.mpr hp)
          · rw [show generateDoublesMatches players n previousMatches now idGen rng1 rng2 =
                [] from by
              simp only [generateDoublesMatches,
                if_neg h4, if_neg h5, if_neg h6, if_neg h7, if_neg h8]]
            exact ⟨by simp [roundIds, roundPlayers], by simp [roundPlayers]⟩

end MatchGenerator

/-- C6: over a duplicate-free roster (and a duplicate-free history map),
every round of either scheduler variant assigns each player id to at
most one match and each match's players are pairwise distinct and drawn
from the roster (for the general variant, from the history's players);
for an 8-player roster the fixed-case scheduler returns exactly two
matches of four players each, the eight ids appearing across the two
matches with no repeats. -/
theorem c6_round_validity (players : List Player) (n : Nat) (previousMatches : List Match)
    (now : Nat) (idGen rng1 rng2 : Nat → Nat) (h : List RoundGenerator.PlayerHistory)
    (roundRng : Nat → Nat) (g : Nat → Nat → Nat → Nat) (sideRng : Nat → Bool)
    (idGen2 : Nat → Nat)
    (hnd : (players.map Player.id).Nodup)
    (hnd2 : (h.map (fun e => e.player.id)).Nodup) :
    (roundIds (MatchGenerator.generateDoublesMatches players n previousMatches now idGen
        rng1 rng2)).Nodup ∧
    (∀ p ∈ roundPlayers (MatchGenerator.generateDoublesMatches players n previousMatches now
        idGen rng1 rng2), p ∈ players) ∧
    (players.length = 8 →
      ∃ m1 m2, MatchGenerator.generateDoublesMatches players n previousMatches now idGen
          rng1 rng2 = [m1, m2] ∧ m1.players.length = 4 ∧ m2.players.length = 4 ∧
        ((m1.players ++ m2.players).map Player.id).Perm (players.map Player.id)) ∧
    (roundIds (RoundGenerator.generateRound players n h roundRng g sideRng idGen2).1).Nodup ∧
    ∀ p ∈ roundPlayers (RoundGenerator.generateRound players n h roundRng g sideRng
        idGen2).1, p ∈ h.map (fun e => e.player) := by
  obtain ⟨a1, a2⟩ := MatchGenerator.generateDoublesMatches_valid players n previousMatches
    now idGen rng1 rng2 hnd
  obtain ⟨b1, b2⟩ := RoundGenerator.generateRound_valid players n h roundRng g sideRng
    idGen2 hnd2
  refine ⟨a1, a2, ?_, b1, b2⟩
  intro h8
  obtain ⟨m1, m2, heq, hl1, hl2, hperm⟩ := MatchGenerator.generateDoublesMatches_eight
    players n previousMatches now idGen rng1 rng2 h8 hnd
  exact ⟨m1, m2, heq, hl1, hl2, hperm.map _⟩

theorem c6_witness :
    (roundIds (MatchGenerator.generateDoublesMatches rosterC2 2 [] 0 (fun i => i)
        (fun z => 0) (fun z => 0))).Nodup ∧
    (∀ p ∈ roundPlayers (MatchGenerator.generateDoublesMatches rosterC2 2 [] 0 (fun i => i)
        (fun z => 0) (fun z => 0)), p ∈ rosterC2) ∧
    (rosterC2.length = 8 →
      ∃ m1 m2, MatchGenerator.generateDoublesMatches rosterC2 2 [] 0 (fun i => i)
          (fun z => 0) (fun z => 0) = [m1, m2] ∧ m1.players.length = 4 ∧
        m2.players.length = 4 ∧
        ((m1.players ++ m2.players).map Player.id).Perm (rosterC2.map Player.id)) ∧
    (roundIds (RoundGenerator.generateRound rosterC2 2
        (rosterC2.map RoundGenerator.createPlayerHistory) (fun z => 0)
        (fun a b c => 0) (fun z => true) (fun c => c)).1).Nodup ∧
    ∀ p ∈ roundPlayers (RoundGenerator.generateRound rosterC2 2
        (rosterC2.map RoundGenerator.createPlayerHistory) (fun z => 0)
        (fun a b c => 0) (fun z => true) (fun c => c)).1,
      p ∈ (rosterC2.map RoundGenerator.createPlayerHistory).map (fun e => e.player) :=
  c6_round_validity rosterC2 2 [] 0 (fun i => i) (fun z => 0) (fun z => 0)
    (rosterC2.map RoundGenerator.createPlayerHistory) (fun z => 0) (fun a b c => 0)
    (fun z => true) (fun c => c) (by decide) (by decide)

theorem count_dash_pairKeyS (a b : List Char) :
    (pairKeyS a b).count '-' = a.count '-' + b.count '-' + 1 := by
  unfold pairKeyS
  split <;> simp [List.count_append, List.count_cons] <;> omega

theorem splitDashGo_dash_free :
    ∀ (s cur : List Char), '-' ∉ cur → ∀ f ∈ splitDashGo cur s, '-' ∉ f
  | [], cur, hcur, f, hf => by
    simp only [splitDashGo, List.mem_singleton] at hf
    subst hf
    simpa using hcur
  | c :: rest, cur, hcur, f, hf => by
    simp only [splitDashGo] at hf
    by_cases hc : c = '-'
    · rw [if_pos hc] at hf
      rcases List.mem_cons.mp hf with hf | hf
      · subst hf
        simpa using hcur
      · exact splitDashGo_dash_free rest [] (by simp) f hf
    · rw [if_neg hc] at hf
      refine splitDashGo_dash_free rest (c :: cur) ?_ f hf
      intro hmem
      rcases List.mem_cons.mp hmem with h | h
      · exact hc h.symm
      · exact hcur h

namespace MatchGenerator

theorem getPairingsS_dash_free (idStr : Nat → List Char) (ms : List Match) :
    ∀ p ∈ getPairingsS idStr ms, '-' ∉ p.player1Id ∧ '-' ∉ p.player2Id := by
  intro p hp
  simp only [getPairingsS, List.mem_map] at hp
  obtain ⟨e, he, hpe⟩ := hp
  have hall : ∀ f ∈ splitDash e.1, '-' ∉ f :=
    splitDashGo_dash_free e.1 [] (by simp)
  cases hs : splitDash e.1 with
  | nil =>
    rw [hs] at hpe
    simp only at hpe
    subst hpe
    simp
  | cons a t =>
    cases t with
    | nil =>
      rw [hs] at hpe
      simp only at hpe
      subst hpe
      refine ⟨hall a (by rw [hs]; exact List.mem_cons_self _ _), by simp⟩
    | cons b t2 =>
      rw [hs] at hpe
      simp only at hpe
      subst hpe
      exact ⟨hall a (by rw [hs]; exact List.mem_cons_self _ _),
        hall b (by rw [hs]; exact List.mem_cons_of_mem _ (List.mem_cons_self _ _))⟩

theorem find_pairKeyS_fails (idStr : Nat → List Char) (p1 p2 : Player)
    (pairings : List PlayerPairingS)
    (hdf : ∀ p ∈ pairings, '-' ∉ p.player1Id ∧ '-' ∉ p.player2Id)
    (h1 : '-' ∈ idStr p1.id) (h2 : '-' ∈ idStr p2.id) :
    pairings.find? (fun p =>
      pairKeyS p.player1Id p.player2Id = pairKeyS (idStr p1.id) (idStr p2.id)) = none := by
  rw [List.find?_eq_none]
  intro p hp
  simp only [decide_eq_true_eq]
  intro hcontra
  have hc1 : (pairKeyS p.player1Id p.player2Id).count '-' = 1 := by
    rw [count_dash_pairKeyS, List.count_eq_zero_of_not_mem (hdf p hp).1,
      List.count_eq_zero_of_not_mem (hdf p hp).2]
  have hc2 : 3 ≤ (pairKeyS (idStr p1.id) (idStr p2.id)).count '-' := by
    rw [count_dash_pairKeyS]
    have ha : 0 < (idStr p1.id).count '-' := List.count_pos_iff.mpr h1
    have hb : 0 < (idStr p2.id).count '-' := List.count_pos_iff.mpr h2
    omega
  rw [hcontra] at hc1
  omega

/-- The string-level score with UUID-style ids: the `find` never
matches, so the frequency term is dead and the score is the two
players' total match counts. -/
theorem calculatePairScoreS_dead (idStr : Nat → List Char) (p1 p2 : Player)
    (ms : List Match) (pm : List PlayerParticipation)
    (h1 : '-' ∈ idStr p1.id) (h2 : '-' ∈ idStr p2.id) :
    calculatePairScoreS idStr p1 p2 (getPairingsS idStr ms) pm =
      totalOf pm p1.id + totalOf pm p2.id := by
  simp only [calculatePairScoreS]
  rw [find_pairKeyS_fails idStr p1 p2 (getPairingsS idStr ms)
    (getPairingsS_dash_free idStr ms) h1 h2]
  simp

end MatchGenerator

/-- C1 (code bug): with the app's `crypto.randomUUID()` player ids —
every such id contains `'-'` — the program's pair score is NOT
`10 × pairFrequency + totals`: `getPairings` mangles the stored ids
through `key.split('-')`, `calculatePairScore`'s `find` never matches,
and the score is just the two players' total match counts for every
ledger state. -/
theorem c1_dead_frequency (idStr : Nat → List Char) (p1 p2 : Player)
    (roster : List Player) (ms : List Match) (now : Nat)
    (h1 : '-' ∈ idStr p1.id) (h2 : '-' ∈ idStr p2.id) :
    MatchGenerator.calculatePairScoreS idStr p1 p2 (MatchGenerator.getPairingsS idStr ms)
        (MatchGenerator.mkParticipationMap roster ms now) =
      totalMatches roster ms p1.id + totalMatches roster ms p2.id := by
  rw [MatchGenerator.calculatePairScoreS_dead idStr p1 p2 ms _ h1 h2,
    MatchGenerator.totalOf_mkParticipationMap, MatchGenerator.totalOf_mkParticipationMap]

/-- Witness for C1: after one doubles match 0,1 vs 2,3 with UUID-style
ids, the program scores the pair {0, 1} at `2` (their totals), while
the claimed formula `10 × frequency + totals` gives `12`. -/
theorem c1_dead_frequency_witness :
    MatchGenerator.calculatePairScoreS uuidIds (tp 0) (tp 1)
        (MatchGenerator.getPairingsS uuidIds [⟨9, [tp 0, tp 1, tp 2, tp 3], 1, Side.left⟩])
        (MatchGenerator.mkParticipationMap [tp 0, tp 1, tp 2, tp 3]
          [⟨9, [tp 0, tp 1, tp 2, tp 3], 1, Side.left⟩] 0) =
      totalMatches [tp 0, tp 1, tp 2, tp 3] [⟨9, [tp 0, tp 1, tp 2, tp 3], 1, Side.left⟩]
          (tp 0).id +
        totalMatches [tp 0, tp 1, tp 2, tp 3] [⟨9, [tp 0, tp 1, tp 2, tp 3], 1, Side.left⟩]
          (tp 1).id ∧
    totalMatches [tp 0, tp 1, tp 2, tp 3] [⟨9, [tp 0, tp 1, tp 2, tp 3], 1, Side.left⟩]
        (tp 0).id +
      totalMatches [tp 0, tp 1, tp 2, tp 3] [⟨9, [tp 0, tp 1, tp 2, tp 3], 1, Side.left⟩]
        (tp 1).id = 2 ∧
    pairFrequency [⟨9, [tp 0, tp 1, tp 2, tp 3], 1, Side.left⟩] (tp 0).id (tp 1).id * 10 +
      totalMatches [tp 0, tp 1, tp 2, tp 3] [⟨9, [tp 0, tp 1, tp 2, tp 3], 1, Side.left⟩]
        (tp 0).id +
      totalMatches [tp 0, tp 1, tp 2, tp 3] [⟨9, [tp 0, tp 1, tp 2, tp 3], 1, Side.left⟩]
        (tp 1).id = 12 :=
  ⟨c1_dead_frequency uuidIds (tp 0) (tp 1) [tp 0, tp 1, tp 2, tp 3]
      [⟨9, [tp 0, tp 1, tp 2, tp 3], 1, Side.left⟩] 0 (by decide) (by decide),
   by decide, by decide⟩

namespace RoundGenerator

theorem hasHist_updatePlayerHistories (h : List PlayerHistory) (mt : Match) (x : Nat) :
    hasHist (updatePlayerHistories h mt) x = hasHist h x := by
  rw [hasHist_eq_isSome, hasHist_eq_isSome, present_updatePlayerHistories]

theorem hasHist_setHistory_iff (h : List PlayerHistory) (e : PlayerHistory) (x : Nat) :
    hasHist (setHistory h e) x = true ↔ (hasHist h x = true ∨ e.player.id = x) := by
  induction h with
  | nil => simp [setHistory, hasHist]
  | cons f rest ih =>
    simp only [setHistory]
    by_cases hf : f.player.id = e.player.id
    · rw [if_pos hf]
      simp only [hasHist, List.any_cons, Bool.or_eq_true, decide_eq_true_eq] at ih ⊢
      constructor
      · rintro (hx | hx)
        · exact Or.inr hx
        · exact Or.inl (Or.inr hx)
      · rintro ((hx | hx) | hx)
        · exact Or.inl (hf ▸ hx)
        · exact Or.inr hx
        · exact Or.inl hx
    · rw [if_neg hf]
      simp only [hasHist, List.any_cons, Bool.or_eq_true, decide_eq_true_eq] at ih ⊢
      constructor
      · rintro (hx | hx)
        · exact Or.inl (Or.inl hx)
        · rcases ih.mp hx with hx | hx
          · exact Or.inl (Or.inr hx)
          · exact Or.inr hx
      · rintro ((hx | hx) | hx)
        · exact Or.inl hx
        · exact Or.inr (ih.mpr (Or.inl hx))
        · exact Or.inr (ih.mpr (Or.inr hx))

theorem hasHist_initHistories (players : List Player) (x : Nat) :
    hasHist (players.foldl (fun h p => setHistory h (createPlayerHistory p)) []) x = true ↔
      ∃ p ∈ players, p.id = x := by
  suffices hgen : ∀ (ps : List Player) (h : List PlayerHistory),
      hasHist (ps.foldl (fun h p => setHistory h (createPlayerHistory p)) h) x = true ↔
        (hasHist h x = true ∨ ∃ p ∈ ps, p.id = x) by
    rw [hgen players []]
    simp [hasHist]
  intro ps
  induction ps with
  | nil => simp
  | cons q rest ih =>
    intro h
    rw [List.foldl_cons, ih]
    rw [hasHist_setHistory_iff]
    simp only [createPlayerHistory, List.mem_cons]
    constructor
    · rintro ((hx | hx) | hx)
      · exact Or.inl hx
      · exact Or.inr ⟨q, Or.inl rfl, hx⟩
      · obtain ⟨p, hp, hpx⟩ := hx
        exact Or.inr ⟨p, Or.inr hp, hpx⟩
    · rintro (hx | ⟨p, hp | hp, hpx⟩)
      · exact Or.inl (Or.inl hx)
      · exact Or.inl (Or.inr (hp ▸ hpx))
      · exact Or.inr ⟨p, hp, hpx⟩

theorem foldHistoriesE_ok_iff (ms : List Match) : ∀ (h : List PlayerHistory),
    isOkE (foldHistoriesE h ms) = true ↔
      ∀ mt ∈ ms, mt.players.length % 2 = 1 →
        ∀ p ∈ mt.players, hasHist h p.id = false := by
  induction ms with
  | nil => intro h; simp [foldHistoriesE, isOkE]
  | cons mt rest ih =>
    intro h
    simp only [foldHistoriesE, updatePlayerHistoriesE]
    by_cases hc : mt.players.length % 2 = 1 ∧ mt.players.any (fun p => hasHist h p.id) = true
    · rw [if_pos hc]
      simp only [isOkE, Bool.false_eq_true, false_iff]
      intro hall
      obtain ⟨p, hp, hph⟩ := List.any_eq_true.mp hc.2
      rw [hall mt (List.mem_cons_self _ _) hc.1 p hp] at hph
      simp at hph
    · rw [if_neg hc]
      rw [ih (updatePlayerHistories h mt)]
      constructor
      · intro hall mt2 hmt2 hodd p hp
        rcases List.mem_cons.mp hmt2 with hmt2 | hmt2
        · subst hmt2
          by_contra hph
          exact hc ⟨hodd, List.any_eq_true.mpr ⟨p, hp,
            by simpa using Bool.of_not_eq_false hph⟩⟩
        · have := hall mt2 hmt2 hodd p hp
          rwa [hasHist_updatePlayerHistories] at this
      · intro hall mt2 hmt2 hodd p hp
        rw [hasHist_updatePlayerHistories]
        exact hall mt2 (List.mem_cons_of_mem _ hmt2) hodd p hp

end RoundGenerator

namespace RoundGenerator

theorem generateSession_isOkE (players : List Player) (numberOfCourts : Nat)
    (prev : List Match) (roundRng : Nat → Nat) (g : Nat → Nat → Nat → Nat)
    (sideRng : Nat → Bool) (idGen : Nat → Nat) (h4 : ¬players.length < 4) :
    isOkE (generateSession players numberOfCourts prev roundRng g sideRng idGen) =
      isOkE (foldHistoriesE
        (players.foldl (fun h p => setHistory h (createPlayerHistory p)) []) prev) := by
  rw [generateSession, if_neg h4]
  cases foldHistoriesE
    (players.foldl (fun h p => setHistory h (createPlayerHistory p)) []) prev <;> rfl

end RoundGenerator

/-- The general variant's crash path exhibited: a 4-player roster
passes validation, but a 3-player previous match containing a rostered
player makes the general variant throw a TypeError (the fractional
`midPoint` indexes `players[1.5]`) — a different error from the
validation message, and no session is produced. -/
theorem generateSession_crash_example :
    (match RoundGenerator.generateSession [tp 0, tp 1, tp 2, tp 3] 1
        [⟨9, [tp 0, tp 4, tp 5], 1, Side.left⟩] (fun z => 0) (fun a b c => 0)
        (fun z => true) (fun c => c) with
      | Except.error e => e
      | Except.ok _ => "") =
      "TypeError: Cannot read properties of undefined (reading 'id')" ∧
    4 ≤ ([tp 0, tp 1, tp 2, tp 3] : List Player).length ∧
    isOkE (RoundGenerator.generateSession [tp 0, tp 1, tp 2, tp 3] 1
        [⟨9, [tp 0, tp 4, tp 5], 1, Side.left⟩] (fun z => 0) (fun a b c => 0)
        (fun z => true) (fun c => c)) = false := by
  refine ⟨?_, by decide, ?_⟩ <;> rfl

theorem foldHistoriesE_error_msg :
    ∀ (ms : List Match) (h : List RoundGenerator.PlayerHistory) (e : String),
      RoundGenerator.foldHistoriesE h ms = Except.error e →
        e = "TypeError: Cannot read properties of undefined (reading 'id')"
  | [], h, e, he => by simp [RoundGenerator.foldHistoriesE] at he
  | mt :: rest, h, e, he => by
    simp only [RoundGenerator.foldHistoriesE, RoundGenerator.updatePlayerHistoriesE] at he
    by_cases hc : mt.players.length % 2 = 1 ∧
        mt.players.any (fun p => RoundGenerator.hasHist h p.id) = true
    · rw [if_pos hc] at he
      dsimp only at he
      injection he with h1
      exact h1.symm
    · rw [if_neg hc] at he
      dsimp only at he
      exact foldHistoriesE_error_msg rest _ e he

/-- C7: below 4 players both variants fail with exactly the
descriptive validation error and produce no session.  From 4 players
on, that validation error is never raised: the fixed-case variant
always succeeds, and the general variant succeeds precisely when no
previous match has an odd number of players among whom one is
rostered — in the remaining case the float midpoint of
`updatePlayerHistories` reads `players[midPoint]` = `undefined` and a
TypeError (a different error) escapes instead. -/
theorem c7_validation_boundary (players : List Player) (numberOfCourts : Nat)
    (prev : List Match) (now : Nat) (idGen rng1 rng2 roundRng : Nat → Nat)
    (g : Nat → Nat → Nat → Nat) (sideRng : Nat → Bool) (idGen2 : Nat → Nat) :
    (players.length < 4 →
      MatchGenerator.generateSession players numberOfCourts prev now idGen rng1 rng2 =
        Except.error "Need at least 4 players to generate matches" ∧
      RoundGenerator.generateSession players numberOfCourts prev roundRng g sideRng idGen2 =
        Except.error "Need at least 4 players to generate matches") ∧
    (4 ≤ players.length →
      isOkE (MatchGenerator.generateSession players numberOfCourts prev now idGen rng1 rng2) =
          true ∧
      RoundGenerator.generateSession players numberOfCourts prev roundRng g sideRng idGen2 ≠
        Except.error "Need at least 4 players to generate matches" ∧
      (isOkE (RoundGenerator.generateSession players numberOfCourts prev roundRng g sideRng
          idGen2) = true ↔
        ∀ mt ∈ prev, mt.players.length % 2 = 1 →
          ∀ p ∈ mt.players, players.any (fun q => q.id = p.id) = false)) := by
  constructor
  · intro h
    constructor
    · rw [MatchGenerator.generateSession, if_pos h]
    · rw [RoundGenerator.generateSession, if_pos h]
  · intro h
    refine ⟨?_, ?_, ?_⟩
    · rw [MatchGenerator.generateSession, if_neg (by omega)]
      rfl
    · rw [RoundGenerator.generateSession, if_neg (by omega)]
      cases hfe : RoundGenerator.foldHistoriesE
          (players.foldl (fun h p =>
            RoundGenerator.setHistory h (RoundGenerator.createPlayerHistory p)) []) prev with
      | error e =>
        have hmsg := foldHistoriesE_error_msg prev _ e hfe
        subst hmsg
        intro hcontra
        dsimp only at hcontra
        injection hcontra with h1
        exact absurd h1 (by decide)
      | ok histories =>
        intro hcontra
        dsimp only at hcontra
        exact Except.noConfusion hcontra
    · have hinit : ∀ x, RoundGenerator.hasHist
          (players.foldl (fun h p =>
            RoundGenerator.setHistory h (RoundGenerator.createPlayerHistory p)) []) x =
          players.any (fun q => q.id = x) := by
        intro x
        cases hany : players.any (fun q => q.id = x) with
        | true =>
          obtain ⟨q, hq, hqx⟩ := List.any_eq_true.mp hany
          exact (RoundGenerator.hasHist_initHistories players x).mpr
            ⟨q, hq, by simpa using hqx⟩
        | false =>
          cases hh : RoundGenerator.hasHist
              (players.foldl (fun h p =>
                RoundGenerator.setHistory h (RoundGenerator.createPlayerHistory p)) []) x with
          | false => rfl
          | true =>
            obtain ⟨p, hp, hpx⟩ := (RoundGenerator.hasHist_initHistories players x).mp hh
            have hcontra : players.any (fun q => q.id = x) = true :=
              List.any_eq_true.mpr ⟨p, hp, by simpa using hpx⟩
            rw [hcontra] at hany
            simp at hany
      rw [RoundGenerator.generateSession_isOkE _ _ _ _ _ _ _ (by omega),
        RoundGenerator.foldHistoriesE_ok_iff]
      simp only [hinit]

/-- Witness for C7 at a 3-player roster (validation error), and a
4-player roster with a 4-player previous match (success — in
particular the validation error is not raised). -/
theorem c7_witness :
    MatchGenerator.generateSession [tp 0, tp 1, tp 2] 1 [] 0 (fun z => 0) (fun z => 0)
        (fun z => 0) = Except.error "Need at least 4 players to generate matches" ∧
    RoundGenerator.generateSession [tp 0, tp 1, tp 2, tp 3] 1
        [⟨9, [tp 0, tp 1, tp 2, tp 3], 1, Side.left⟩] (fun z => 0) (fun a b c => 0)
        (fun z => true) (fun c => c) ≠
      Except.error "Need at least 4 players to generate matches" ∧
    isOkE (RoundGenerator.generateSession [tp 0, tp 1, tp 2, tp 3] 1
        [⟨9, [tp 0, tp 1, tp 2, tp 3], 1, Side.left⟩] (fun z => 0) (fun a b c => 0)
        (fun z => true) (fun c => c)) = true := by
  refine ⟨?_, ?_, ?_⟩
  · exact ((c7_validation_boundary [tp 0, tp 1, tp 2] 1 [] 0 (fun z => 0) (fun z => 0)
      (fun z => 0) (fun z => 0) (fun a b c => 0) (fun z => true) (fun c => c)).1
        (by decide)).1
  · exact ((c7_validation_boundary [tp 0, tp 1, tp 2, tp 3] 1
      [⟨9, [tp 0, tp 1, tp 2, tp 3], 1, Side.left⟩] 0 (fun z => 0) (fun z => 0) (fun z => 0)
      (fun z => 0) (fun a b c => 0) (fun z => true) (fun c => c)).2 (by decide)).2.1
  · exact ((c7_validation_boundary [tp 0, tp 1, tp 2, tp 3] 1
      [⟨9, [tp 0, tp 1, tp 2, tp 3], 1, Side.left⟩] 0 (fun z => 0) (fun z => 0) (fun z => 0)
      (fun z => 0) (fun a b c => 0) (fun z => true) (fun c => c)).2
        (by decide)).2.2.mpr (by decide)

theorem orderedInsert_const {α : Type} (key : α → Nat) (c : Nat) (x : α) (l : List α)
    (hx : key x = c) (hl : ∀ a ∈ l, key a = c) :
    l.orderedInsert (fun a b => key a ≤ key b) x = x :: l := by
  cases l with
  | nil => rfl
  | cons y ys =>
    rw [List.orderedInsert]
    rw [if_pos]
    rw [hx, hl y (List.mem_cons_self _ _)]

theorem sortByKey_const {α : Type} (key : α → Nat) (c : Nat) :
    ∀ (l : List α), (∀ a ∈ l, key a = c) → sortByKey key l = l := by
  intro l
  induction l with
  | nil => intro _; rfl
  | cons x xs ih =>
    intro hl
    have hxs : ∀ a ∈ xs, key a = c := fun a ha => hl a (List.mem_cons_of_mem _ ha)
    simp only [sortByKey, List.insertionSort] at ih ⊢
    rw [ih hxs]
    exact orderedInsert_const key c x xs (hl x (List.mem_cons_self _ _)) hxs

namespace MatchGenerator

theorem selectDisjointPairs_skip (p0 : Player) :
    ∀ (l : List Player) (used : List Nat) (acc : List (Player × Player)), p0.id ∈ used →
      selectDisjointPairs (l.map (fun q => (p0, q))) used acc = (acc, used)
  | [], _, _, _ => rfl
  | q :: rest, used, acc, hmem => by
    rw [List.map_cons]
    have hred : selectDisjointPairs ((p0, q) :: rest.map (fun r => (p0, r))) used acc =
        if (p0, q).1.id ∈ used ∨ (p0, q).2.id ∈ used then
          selectDisjointPairs (rest.map (fun r => (p0, r))) used acc
        else if (acc ++ [(p0, q)]).length = 4 then
          (acc ++ [(p0, q)], used ++ [(p0, q).1.id, (p0, q).2.id])
        else selectDisjointPairs (rest.map (fun r => (p0, r)))
          (used ++ [(p0, q).1.id, (p0, q).2.id]) (acc ++ [(p0, q)]) := rfl
    rw [hred, if_pos (Or.inl hmem)]
    exact selectDisjointPairs_skip p0 rest used acc hmem

theorem selectDisjointPairs_head (p0 p1 : Player) (qs : List Player) :
    selectDisjointPairs ((p0, p1) :: qs.map (fun q => (p0, q))) [] [] =
      ([(p0, p1)], [p0.id, p1.id]) := by
  have hred : selectDisjointPairs ((p0, p1) :: qs.map (fun q => (p0, q))) [] [] =
      if (p0, p1).1.id ∈ ([] : List Nat) ∨ (p0, p1).2.id ∈ ([] : List Nat) then
        selectDisjointPairs (qs.map (fun q => (p0, q))) [] []
      else if (([] : List (Player × Player)) ++ [(p0, p1)]).length = 4 then
        ([] ++ [(p0, p1)], [] ++ [(p0, p1).1.id, (p0, p1).2.id])
      else selectDisjointPairs (qs.map (fun q => (p0, q)))
        ([] ++ [(p0, p1).1.id, (p0, p1).2.id]) ([] ++ [(p0, p1)]) := rfl
  rw [hred, if_neg (by simp), if_neg (by simp)]
  rw [selectDisjointPairs_skip p0 qs _ _ (by simp)]
  simp

end MatchGenerator

/-- C2 counterexample: 8 players with UUID-style ids and an empty
history.  First-fit over the whole sorted list (the claim's reading)
finds 4 disjoint pairs — so per the claim no randomness would be used —
yet the program's first-fit over `slice(0, 4)` keeps only one pair and
the emitted round depends on the ambient random draws. -/
theorem c2_counterexample :
    (specPhase1S uuidIds rosterC2 (MatchGenerator.getPairingsS uuidIds [])
        (MatchGenerator.mkParticipationMap rosterC2 [] 0)).1.length = 4 ∧
    (MatchGenerator.phase1S uuidIds rosterC2 (MatchGenerator.getPairingsS uuidIds [])
        (MatchGenerator.mkParticipationMap rosterC2 [] 0)).1.length = 1 ∧
    MatchGenerator.generateDoublesMatchesS uuidIds rosterC2 2 [] 0 (fun i => i)
        (fun z => 0) (fun z => 0) ≠
      MatchGenerator.generateDoublesMatchesS uuidIds rosterC2 2 [] 0 (fun i => i)
        (fun i => i) (fun i => i) := by
  decide

/-- C2 amended: for an 8-player roster the scheduler enumerates all 28
unordered pairs, scores each and stably sorts ascending, but then
greedily first-fits only the FIRST FOUR entries of the sorted list
(the `slice(0, 4)`).  Whenever all 28 pair scores are equal — as at an
empty history, and in general whenever all totals agree, since with
the app's UUID ids the frequency term of the scorer is dead — the
stable sort keeps enumeration order, the slice is the four pairs
(p0,p1) (p0,p2) (p0,p3) (p0,p4) all sharing the first player, the
first-fit keeps exactly the single pair (p0,p1), and the random
fallback fires, so the emitted round depends on the ambient random
draws. -/
theorem c2_amended (idStr : Nat → List Char) (players : List Player)
    (previousMatches : List Match) (now : Nat) (p0 p1 : Player) (rest : List Player)
    (c : Nat) (hps : players = p0 :: p1 :: rest) (h8 : players.length = 8)
    (heq : ∀ pr ∈ allPairsAux players,
      MatchGenerator.calculatePairScoreS idStr pr.1 pr.2
          (MatchGenerator.getPairingsS idStr previousMatches)
          (MatchGenerator.mkParticipationMap players previousMatches now) = c) :
    MatchGenerator.phase1S idStr players (MatchGenerator.getPairingsS idStr previousMatches)
        (MatchGenerator.mkParticipationMap players previousMatches now) =
      MatchGenerator.selectDisjointPairs
        (((sortByKey (fun e => e.2)
            (MatchGenerator.scoredPairsS idStr players
              (MatchGenerator.getPairingsS idStr previousMatches)
              (MatchGenerator.mkParticipationMap players previousMatches now))).take 4).map
          (fun e => e.1)) [] [] ∧
    (MatchGenerator.scoredPairsS idStr players
        (MatchGenerator.getPairingsS idStr previousMatches)
        (MatchGenerator.mkParticipationMap players previousMatches now)).length = 28 ∧
    MatchGenerator.phase1S idStr players (MatchGenerator.getPairingsS idStr previousMatches)
        (MatchGenerator.mkParticipationMap players previousMatches now) =
      ([(p0, p1)], [p0.id, p1.id]) := by
  refine ⟨rfl, ?_, ?_⟩
  · simp [MatchGenerator.scoredPairsS, allPairsAux_length, h8]
    decide
  · have hconst : ∀ e ∈ MatchGenerator.scoredPairsS idStr players
        (MatchGenerator.getPairingsS idStr previousMatches)
        (MatchGenerator.mkParticipationMap players previousMatches now),
        (fun (e : (Player × Player) × Nat) => e.2) e = c := by
      intro e he
      obtain ⟨pr, hpr, hpe⟩ := List.mem_map.mp he
      rw [← hpe]
      exact heq pr hpr
    simp only [MatchGenerator.phase1S]
    rw [sortByKey_const _ c _ hconst]
    subst hps
    rcases rest with _ | ⟨r0, _ | ⟨r1, _ | ⟨r2, rest3⟩⟩⟩
    · simp at h8
    · simp at h8
    · simp at h8
    · have htake : ((MatchGenerator.scoredPairsS idStr (p0 :: p1 :: r0 :: r1 :: r2 :: rest3)
          (MatchGenerator.getPairingsS idStr previousMatches)
          (MatchGenerator.mkParticipationMap (p0 :: p1 :: r0 :: r1 :: r2 :: rest3)
            previousMatches now)).take 4).map (fun e => e.1) =
          (p0, p1) :: [r0, r1, r2].map (fun q => (p0, q)) := by
        simp [MatchGenerator.scoredPairsS, allPairsAux]
      rw [htake, MatchGenerator.selectDisjointPairs_head]

set_option maxRecDepth 10000 in
/-- Witness for C2 amended at the UUID-id 8-player roster with empty
history: all 28 scores are 0, the slice first-fit keeps exactly
(p0, p1). -/
theorem c2_witness :
    MatchGenerator.phase1S uuidIds rosterC2 (MatchGenerator.getPairingsS uuidIds [])
        (MatchGenerator.mkParticipationMap rosterC2 [] 0) =
      MatchGenerator.selectDisjointPairs
        (((sortByKey (fun e => e.2)
            (MatchGenerator.scoredPairsS uuidIds rosterC2
              (MatchGenerator.getPairingsS uuidIds [])
              (MatchGenerator.mkParticipationMap rosterC2 [] 0))).take 4).map
          (fun e => e.1)) [] [] ∧
    (MatchGenerator.scoredPairsS uuidIds rosterC2 (MatchGenerator.getPairingsS uuidIds [])
        (MatchGenerator.mkParticipationMap rosterC2 [] 0)).length = 28 ∧
    MatchGenerator.phase1S uuidIds rosterC2 (MatchGenerator.getPairingsS uuidIds [])
        (MatchGenerator.mkParticipationMap rosterC2 [] 0) =
      ([(tp 0, tp 1)], [(tp 0).id, (tp 1).id]) :=
  c2_amended uuidIds rosterC2 [] 0 (tp 0) (tp 1) [tp 2, tp 3, tp 4, tp 5, tp 6, tp 7] 0
    rfl (by decide) (by decide)

/-- C3 counterexample.  With hyphen-free ids (inputs where the key
readback is exact) and the history 0,4 vs 1,5: the code emits grouping
3 while the claim's totals select grouping 1 — the emitted groupings
genuinely diverge.  With UUID-style ids the code's computed option
score is not the claim's total (4 against 8): the program does not
compute the claimed quantity, even though both tie and emit grouping 1
there. -/
theorem c3_counterexample :
    MatchGenerator.chooseCourtsS plainIds (tp 0, tp 1) (tp 2, tp 3) (tp 4, tp 5) (tp 6, tp 7)
        (MatchGenerator.getPairingsS plainIds histC3)
        (MatchGenerator.mkParticipationMap rosterC2 histC3 0) =
      ([tp 0, tp 1, tp 6, tp 7], [tp 2, tp 3, tp 4, tp 5]) ∧
    specFirstMinIdx
        (specGroupingTotalS plainIds 0 (tp 0, tp 1) (tp 2, tp 3) (tp 4, tp 5) (tp 6, tp 7)
          (MatchGenerator.getPairingsS plainIds histC3)
          (MatchGenerator.mkParticipationMap rosterC2 histC3 0))
        (specGroupingTotalS plainIds 1 (tp 0, tp 1) (tp 2, tp 3) (tp 4, tp 5) (tp 6, tp 7)
          (MatchGenerator.getPairingsS plainIds histC3)
          (MatchGenerator.mkParticipationMap rosterC2 histC3 0))
        (specGroupingTotalS plainIds 2 (tp 0, tp 1) (tp 2, tp 3) (tp 4, tp 5) (tp 6, tp 7)
          (MatchGenerator.getPairingsS plainIds histC3)
          (MatchGenerator.mkParticipationMap rosterC2 histC3 0)) = 0 ∧
    ([tp 0, tp 1, tp 6, tp 7], [tp 2, tp 3, tp 4, tp 5]) ≠
      groupingOf 0 (tp 0, tp 1) (tp 2, tp 3) (tp 4, tp 5) (tp 6, tp 7) ∧
    MatchGenerator.option2ScoreS uuidIds (tp 0, tp 1) (tp 2, tp 3) (tp 4, tp 5) (tp 6, tp 7)
        (MatchGenerator.getPairingsS uuidIds histC3)
        (MatchGenerator.mkParticipationMap rosterC2 histC3 0) = 4 ∧
    specGroupingTotalS uuidIds 1 (tp 0, tp 1) (tp 2, tp 3) (tp 4, tp 5) (tp 6, tp 7)
        (MatchGenerator.getPairingsS uuidIds histC3)
        (MatchGenerator.mkParticipationMap rosterC2 histC3 0) = 8 ∧
    MatchGenerator.chooseCourtsS uuidIds (tp 0, tp 1) (tp 2, tp 3) (tp 4, tp 5) (tp 6, tp 7)
        (MatchGenerator.getPairingsS uuidIds histC3)
        (MatchGenerator.mkParticipationMap rosterC2 histC3 0) =
      ([tp 0, tp 1, tp 2, tp 3], [tp 4, tp 5, tp 6, tp 7]) := by
  decide

/-- C3 amended: the source does not compute the claim's totals.  It
scores option 1 as the four pairs' internal scores and options 2/3 as
only the two index-aligned cross scores per team, emitting the first
minimum in order 1,2,3 (first conjunct, any inputs).  Under the app's
UUID ids every frequency lookup dies, all three option scores collapse
to the same participation sum, and the code always emits grouping 1 —
which coincides with the claim's (equally tied) choice, so the two
procedures agree on the emitted grouping only by mutual
degeneration. -/
theorem c3_amended (idStr : Nat → List Char) (q1 q2 q3 q4 : Player × Player)
    (ms : List Match) (pm : List MatchGenerator.PlayerParticipation)
    (h11 : '-' ∈ idStr q1.1.id) (h12 : '-' ∈ idStr q1.2.id)
    (h21 : '-' ∈ idStr q2.1.id) (h22 : '-' ∈ idStr q2.2.id)
    (h31 : '-' ∈ idStr q3.1.id) (h32 : '-' ∈ idStr q3.2.id)
    (h41 : '-' ∈ idStr q4.1.id) (h42 : '-' ∈ idStr q4.2.id) :
    MatchGenerator.chooseCourtsS idStr q1 q2 q3 q4
        (MatchGenerator.getPairingsS idStr ms) pm =
      groupingOf (specFirstMinIdx
        (MatchGenerator.option1ScoreS idStr q1 q2 q3 q4
          (MatchGenerator.getPairingsS idStr ms) pm)
        (MatchGenerator.option2ScoreS idStr q1 q2 q3 q4
          (MatchGenerator.getPairingsS idStr ms) pm)
        (MatchGenerator.option3ScoreS idStr q1 q2 q3 q4
          (MatchGenerator.getPairingsS idStr ms) pm)) q1 q2 q3 q4 ∧
    MatchGenerator.chooseCourtsS idStr q1 q2 q3 q4
        (MatchGenerator.getPairingsS idStr ms) pm =
      ([q1.1, q1.2, q2.1, q2.2], [q3.1, q3.2, q4.1, q4.2]) ∧
    specFirstMinIdx
      (specGroupingTotalS idStr 0 q1 q2 q3 q4 (MatchGenerator.getPairingsS idStr ms) pm)
      (specGroupingTotalS idStr 1 q1 q2 q3 q4 (MatchGenerator.getPairingsS idStr ms) pm)
      (specGroupingTotalS idStr 2 q1 q2 q3 q4 (MatchGenerator.getPairingsS idStr ms) pm) =
      0 := by
  have hd : ∀ (x y : Player), '-' ∈ idStr x.id → '-' ∈ idStr y.id →
      MatchGenerator.calculatePairScoreS idStr x y
          (MatchGenerator.getPairingsS idStr ms) pm =
        MatchGenerator.totalOf pm x.id + MatchGenerator.totalOf pm y.id :=
    fun x y hx hy => MatchGenerator.calculatePairScoreS_dead idStr x y ms pm hx hy
  have ho12 : MatchGenerator.option1ScoreS idStr q1 q2 q3 q4
      (MatchGenerator.getPairingsS idStr ms) pm =
      MatchGenerator.option2ScoreS idStr q1 q2 q3 q4
        (MatchGenerator.getPairingsS idStr ms) pm := by
    simp only [MatchGenerator.option1ScoreS, MatchGenerator.option2ScoreS,
      hd q1.1 q1.2 h11 h12, hd q2.1 q2.2 h21 h22, hd q3.1 q3.2 h31 h32,
      hd q4.1 q4.2 h41 h42, hd q1.1 q3.1 h11 h31, hd q1.2 q3.2 h12 h32,
      hd q2.1 q4.1 h21 h41, hd q2.2 q4.2 h22 h42]
    ring
  have ho13 : MatchGenerator.option1ScoreS idStr q1 q2 q3 q4
      (MatchGenerator.getPairingsS idStr ms) pm =
      MatchGenerator.option3ScoreS idStr q1 q2 q3 q4
        (MatchGenerator.getPairingsS idStr ms) pm := by
    simp only [MatchGenerator.option1ScoreS, MatchGenerator.option3ScoreS,
      hd q1.1 q1.2 h11 h12, hd q2.1 q2.2 h21 h22, hd q3.1 q3.2 h31 h32,
      hd q4.1 q4.2 h41 h42, hd q1.1 q4.1 h11 h41, hd q1.2 q4.2 h12 h42,
      hd q2.1 q3.1 h21 h31, hd q2.2 q3.2 h22 h32]
    ring
  refine ⟨?_, ?_, ?_⟩
  · simp only [MatchGenerator.chooseCourtsS]
    unfold specFirstMinIdx
    set o1 := MatchGenerator.option1ScoreS idStr q1 q2 q3 q4
      (MatchGenerator.getPairingsS idStr ms) pm with hso1
    set o2 := MatchGenerator.option2ScoreS idStr q1 q2 q3 q4
      (MatchGenerator.getPairingsS idStr ms) pm with hso2
    set o3 := MatchGenerator.option3ScoreS idStr q1 q2 q3 q4
      (MatchGenerator.getPairingsS idStr ms) pm with hso3
    by_cases hA : o1 ≤ o2 ∧ o1 ≤ o3
    · rw [if_pos hA, if_pos (show o1 ≤ min o2 o3 by omega)]
      rfl
    · rw [if_neg hA]
      by_cases hB : o2 ≤ o1 ∧ o2 ≤ o3
      · rw [if_pos hB, if_neg (show ¬o1 ≤ min o2 o3 by omega), if_pos hB.2]
        rfl
      · rw [if_neg hB, if_neg (show ¬o1 ≤ min o2 o3 by omega),
          if_neg (show ¬o2 ≤ o3 by omega)]
        rfl
  · simp only [MatchGenerator.chooseCourtsS]
    rw [if_pos ⟨le_of_eq ho12, le_of_eq ho13⟩]
  · have hteam : ∀ (x y : Player × Player), '-' ∈ idStr x.1.id → '-' ∈ idStr x.2.id →
        '-' ∈ idStr y.1.id → '-' ∈ idStr y.2.id →
        specTeamCrossScoreS idStr x y (MatchGenerator.getPairingsS idStr ms) pm =
          2 * (MatchGenerator.totalOf pm x.1.id + MatchGenerator.totalOf pm x.2.id +
            MatchGenerator.totalOf pm y.1.id + MatchGenerator.totalOf pm y.2.id) := by
      intro x y hx1 hx2 hy1 hy2
      simp only [specTeamCrossScoreS, hd x.1 y.1 hx1 hy1, hd x.1 y.2 hx1 hy2,
        hd x.2 y.1 hx2 hy1, hd x.2 y.2 hx2 hy2]
      ring
    simp only [specGroupingTotalS, hteam q1 q2 h11 h12 h21 h22,
      hteam q3 q4 h31 h32 h41 h42, hteam q1 q3 h11 h12 h31 h32,
      hteam q2 q4 h21 h22 h41 h42, hteam q1 q4 h11 h12 h41 h42,
      hteam q2 q3 h21 h22 h31 h32]
    norm_num
    unfold specFirstMinIdx
    rw [if_pos (by omega)]

/-- Witness for C3 amended at UUID-style ids over the 0,4 vs 1,5
history: the code emits grouping 1 and the claim's totals tie at
index 0. -/
theorem c3_witness :
    MatchGenerator.chooseCourtsS uuidIds (tp 0, tp 1) (tp 2, tp 3) (tp 4, tp 5) (tp 6, tp 7)
        (MatchGenerator.getPairingsS uuidIds histC3)
        (MatchGenerator.mkParticipationMap rosterC2 histC3 0) =
      groupingOf (specFirstMinIdx
        (MatchGenerator.option1ScoreS uuidIds (tp 0, tp 1) (tp 2, tp 3) (tp 4, tp 5)
          (tp 6, tp 7) (MatchGenerator.getPairingsS uuidIds histC3)
          (MatchGenerator.mkParticipationMap rosterC2 histC3 0))
        (MatchGenerator.option2ScoreS uuidIds (tp 0, tp 1) (tp 2, tp 3) (tp 4, tp 5)
          (tp 6, tp 7) (MatchGenerator.getPairingsS uuidIds histC3)
          (MatchGenerator.mkParticipationMap rosterC2 histC3 0))
        (MatchGenerator.option3ScoreS uuidIds (tp 0, tp 1) (tp 2, tp 3) (tp 4, tp 5)
          (tp 6, tp 7) (MatchGenerator.getPairingsS uuidIds histC3)
          (MatchGenerator.mkParticipationMap rosterC2 histC3 0)))
        (tp 0, tp 1) (tp 2, tp 3) (tp 4, tp 5) (tp 6, tp 7) ∧
    MatchGenerator.chooseCourtsS uuidIds (tp 0, tp 1) (tp 2, tp 3) (tp 4, tp 5) (tp 6, tp 7)
        (MatchGenerator.getPairingsS uuidIds histC3)
        (MatchGenerator.mkParticipationMap rosterC2 histC3 0) =
      ([(tp 0, tp 1).1, (tp 0, tp 1).2, (tp 2, tp 3).1, (tp 2, tp 3).2],
       [(tp 4, tp 5).1, (tp 4, tp 5).2, (tp 6, tp 7).1, (tp 6, tp 7).2]) ∧
    specFirstMinIdx
      (specGroupingTotalS uuidIds 0 (tp 0, tp 1) (tp 2, tp 3) (tp 4, tp 5) (tp 6, tp 7)
        (MatchGenerator.getPairingsS uuidIds histC3)
        (MatchGenerator.mkParticipationMap rosterC2 histC3 0))
      (specGroupingTotalS uuidIds 1 (tp 0, tp 1) (tp 2, tp 3) (tp 4, tp 5) (tp 6, tp 7)
        (MatchGenerator.getPairingsS uuidIds histC3)
        (MatchGenerator.mkParticipationMap rosterC2 histC3 0))
      (specGroupingTotalS uuidIds 2 (tp 0, tp 1) (tp 2, tp 3) (tp 4, tp 5) (tp 6, tp 7)
        (MatchGenerator.getPairingsS uuidIds histC3)
        (MatchGenerator.mkParticipationMap rosterC2 histC3 0)) = 0 :=
  c3_amended uuidIds (tp 0, tp 1) (tp 2, tp 3) (tp 4, tp 5) (tp 6, tp 7) histC3
    (MatchGenerator.mkParticipationMap rosterC2 histC3 0)
    (by decide) (by decide) (by decide) (by decide)
    (by decide) (by decide) (by decide) (by decide)
